import Mathlib

/-!
# Sensor Graph Display: the asynchronous render pipeline

A shallow embedding of the render pipeline of the Sensor Graph Display
application (`pythongraphwidget.cpp`, `pythonchartbridge.cpp`) together with
the properties its specification states about it.

Conventions of the embedding.

* A `QMap<QString, V>` is an association list kept in key order.
* Time is a natural number of milliseconds.  A running timer is represented by
  its deadline, a `QElapsedTimer` by the instant it was started.
* C++ `int` counters (`chartRequestCount`, `s_totalRequestCount`) are natural
  numbers: they start at 0 and are only incremented or reset, and signed
  overflow (after 2^31 - 1 renders) is undefined behaviour in C++, outside any
  model.
* `double` samples are only stored and copied by the pipeline; they are carried
  as integers.
* Work that Qt runs later (a queued future, a single-shot timer) is part of the
  `World`; an `Event` is one thing the event loop can do next.

The file also embeds the Number to English converter (`NumberToText/main.cpp`),
in the namespace `NumberToText`.
-/

namespace SensorGraph

/-! ## Data model -/

/-- A `QColor` by its red, green and blue components and its validity flag. -/
structure QColor where
  red : Nat
  green : Nat
  blue : Nat
  valid : Bool
deriving DecidableEq, Repr

/-- The colour `Qt::blue`. -/
def QColor.qtBlue : QColor := { red := 0, green := 0, blue := 255, valid := true }

/-- The struct `SensorDataParser::DataSeries` (sensordataparser.h, lines 17-26). -/
structure DataSeries where
  name : String
  x : List Int
  y : List Int
  color : QColor
  visible : Bool
  lineStyle : Int
  markerStyle : Int
  lineWidth : Int
deriving DecidableEq, Repr

/-- A `QMap<QString, V>`: key/value pairs in ascending key order. Keys are
compared character by character. -/
abbrev QMap (V : Type) := List (String × V)

/-- The method `QMap::contains`. -/
def QMap.contains {V : Type} (m : QMap V) (k : String) : Bool :=
  m.any (fun kv => kv.1 == k)

/-- The method `QMap::value`: the value stored under `k`, if any. -/
def QMap.value? {V : Type} (m : QMap V) (k : String) : Option V :=
  (m.find? (fun kv => kv.1 == k)).map Prod.snd

/-- The assignment `m[k] = v`: replaces the value of an existing key, otherwise
inserts the pair at its place in key order. -/
def QMap.insert {V : Type} : QMap V → String → V → QMap V
  | [], k, v => [(k, v)]
  | (k0, v0) :: rest, k, v =>
      if k = k0 then (k, v) :: rest
      else if k.toList < k0.toList then (k, v) :: (k0, v0) :: rest
      else (k0, v0) :: QMap.insert rest k v

/-! ## Decoding the worker output (pythonchartbridge.cpp, lines 329-351) -/

/-- The predicate `QChar::isSpace`: the ASCII white space characters, NEL,
no-break space and the Unicode separators. -/
def isSpace (c : Char) : Bool :=
  let n := c.toNat
  (9 ≤ n && n ≤ 13) || n == 32 || n == 0x85 || n == 0xA0 || n == 0x1680 ||
  (0x2000 ≤ n && n ≤ 0x200A) || n == 0x2028 || n == 0x2029 || n == 0x202F ||
  n == 0x205F || n == 0x3000

/-- The method `QString::trimmed`: white space removed from both ends. -/
def trimmed (s : List Char) : List Char :=
  ((s.dropWhile isSpace).reverse.dropWhile isSpace).reverse

/-- The call `QString::split('\n')`: the pieces between line feeds, empty pieces kept. -/
def splitLines : List Char → List (List Char)
  | [] => [[]]
  | c :: cs =>
      if c = '\n' then [] :: splitLines cs
      else
        match splitLines cs with
        | [] => [[c]]
        | l :: ls => (c :: l) :: ls

/-- The method `QString::indexOf`: position of the first occurrence of `pat` in `s`. -/
def indexOf (pat : List Char) : List Char → Option Nat
  | [] => if pat = [] then some 0 else none
  | c :: cs =>
      if pat.isPrefixOf (c :: cs) then some 0
      else (indexOf pat cs).map (fun i => i + 1)

/-- The marker the worker prints in front of the path of the image it wrote. -/
def chartMarker : List Char := "Chart generated:".toList

/-- Lines 332-351 of `generateChart`: the path after the marker on the first line
that contains it, trimmed; the empty string when no line contains the marker.
The final `if (chartPath.isEmpty()) return QString();` returns the same empty
string. -/
def parseChartPath (output : String) : String :=
  match (splitLines output.toList).find? (fun line => (indexOf chartMarker line).isSome) with
  | none => ""
  | some line =>
      match indexOf chartMarker line with
      | none => ""
      | some i => String.mk (trimmed (line.drop (i + 16)))

/-- What the environment does with one render job inside `generateChart`
(lines 284-327): the temporary directory or file cannot be created, the per-job
process does not start within 1000 ms, it does not finish within 8000 ms, or it
finishes having written `output`. -/
inductive JobOutcome where
  | tempDirInvalid
  | jsonFileOpenFailed
  | startFailed
  | timedOut
  | exited (output : String)
deriving DecidableEq, Repr

/-- The value returned by `PythonChartBridge::generateChart` (lines 284-351): the
empty `QString()` on each early return, the decoded path otherwise. -/
def generateChartResult : JobOutcome → String
  | .tempDirInvalid => ""
  | .jsonFileOpenFailed => ""
  | .startFailed => ""
  | .timedOut => ""
  | .exited output => parseChartPath output

/-! ## The widget (pythongraphwidget.h, pythongraphwidget.cpp) -/

/-- The members of `PythonGraphWidget` that the render pipeline reads or writes.
`seriesColors` is written by `setDataSeries` only and never read; it is left out,
as are the selection and mouse-drag members. -/
structure PythonGraphWidget where
  title : String
  dataSeries : QMap DataSeries
  seriesVisibility : QMap Bool
  graphType : Int
  graphColor : QColor
  interpolate : Bool
  xAxisLabel : String
  yAxisLabel : String
  width : Int
  height : Int
  chartImagePath : String
  chartLabelPixmap : Option String
  statusText : String
  statusVisible : Bool
  chartGenerationTimer : Option Nat
  chartGenerationInProgress : Bool
  pendingChartRequest : Bool
  chartRequestCount : Nat
  debounceTimer : Option Nat
  debounceInterval : Nat
  pendingDebounceRequest : Bool
deriving DecidableEq, Repr

/-- The arguments of one `chartBridge.generateChart` call queued by
`triggerChartGeneration` (lines 347-360), tagged with `seq`, the value of
`chartRequestCount` when the job was dispatched (the request number the code
logs). The lambda captures `visibleSeries` by value; the other arguments are
read through `this` when the pool thread runs it, taken here as read at
dispatch. -/
structure RenderJob where
  seq : Nat
  visibleSeries : QMap DataSeries
  title : String
  xAxisLabel : String
  yAxisLabel : String
  graphType : Int
  interpolate : Bool
  width : Int
  height : Int
deriving DecidableEq, Repr

/-- One run of `onChartImageGenerated`: the job whose result it handled, the path
returned by `generateChart`, and whether the image ended up on `chartLabel`. -/
structure Delivery where
  job : RenderJob
  path : String
  shown : Bool
deriving DecidableEq, Repr

/-- The widget together with the statics of its class and the work Qt holds for
it: `jobs` are the futures started by `QtConcurrent::run` that have not finished,
`settleTimers` the deadlines of the pending
`QTimer::singleShot(100, this, triggerChartGeneration)` calls, `delivered` the log
of the results handled by `onChartImageGenerated`, oldest first. -/
structure World where
  widget : PythonGraphWidget
  s_totalRequestCount : Nat
  s_globalRequestTimer : Option Nat
  now : Nat
  jobs : List RenderJob
  settleTimers : List Nat
  delivered : List Delivery
deriving DecidableEq, Repr

/-- The method `QElapsedTimer::elapsed` at time `now`. -/
def elapsed (timer : Option Nat) (now : Nat) : Nat :=
  match timer with
  | some start => now - start
  | none => 0

/-- The constructor (lines 19-89) run at program start for a widget of the given
size: all flags false, counters 0, the debounce timer created single-shot and
inactive, the global timer started. -/
def World.init (width height : Int) : World :=
  { widget :=
      { title := "Sensor Data Graph"
        dataSeries := []
        seriesVisibility := []
        graphType := 0
        graphColor := QColor.qtBlue
        interpolate := false
        xAxisLabel := "Time"
        yAxisLabel := "Value"
        width := width
        height := height
        chartImagePath := ""
        chartLabelPixmap := none
        statusText := "Loading..."
        statusVisible := false
        chartGenerationTimer := none
        chartGenerationInProgress := false
        pendingChartRequest := false
        chartRequestCount := 0
        debounceTimer := none
        debounceInterval := 0
        pendingDebounceRequest := false }
    s_totalRequestCount := 0
    s_globalRequestTimer := some 0
    now := 0
    jobs := []
    settleTimers := []
    delivered := [] }

/-- Lines 336-344 of `triggerChartGeneration`: the series whose visibility is not
explicitly false, copied one by one into a new map. -/
def visibleSeriesOf (wd : PythonGraphWidget) : QMap DataSeries :=
  wd.dataSeries.foldl
    (fun acc kv =>
      if !wd.seriesVisibility.contains kv.1 || wd.seriesVisibility.value? kv.1 == some true
      then QMap.insert acc kv.1 kv.2 else acc)
    []

/-- Lines 336-360 of `triggerChartGeneration`: the job that is queued for the
widget `wd` as request number `seq`. -/
def renderJobOf (wd : PythonGraphWidget) (seq : Nat) : RenderJob :=
  { seq := seq
    visibleSeries := visibleSeriesOf wd
    title := wd.title
    xAxisLabel := wd.xAxisLabel
    yAxisLabel := wd.yAxisLabel
    graphType := wd.graphType
    interpolate := wd.interpolate
    width := wd.width
    height := wd.height }

/-- The method `PythonGraphWidget::triggerChartGeneration` (lines 301-364). -/
def triggerChartGeneration (w : World) : World :=
  if w.widget.chartGenerationInProgress then
    { w with widget := { w.widget with pendingChartRequest := true } }
  else
    let count := w.widget.chartRequestCount + 1
    let total := w.s_totalRequestCount + 1
    let timer := if total = 1 then some w.now else w.s_globalRequestTimer
    let expired := decide (elapsed timer w.now > 600000)
    let wd : PythonGraphWidget :=
      { w.widget with
        chartRequestCount := count
        chartGenerationInProgress := true
        pendingChartRequest := false
        statusText := "Generating chart..."
        statusVisible := true
        chartGenerationTimer := some w.now }
    { w with
      widget := wd
      s_totalRequestCount := if expired then 1 else total
      s_globalRequestTimer := if expired then some w.now else timer
      jobs := w.jobs ++ [renderJobOf w.widget count] }

/-- The slot `PythonGraphWidget::onChartImageGenerated` (lines 366-409), run when
the future of `job` has finished with result `path`; `loadable` says whether
`chartPixmap.load(chartImagePath)` yields a non-null pixmap. -/
def onChartImageGenerated (w : World) (job : RenderJob) (path : String) (loadable : Bool) :
    World :=
  let chartSuccess := decide (path ≠ "") && loadable
  let wd : PythonGraphWidget :=
    { w.widget with
      chartImagePath := path
      chartGenerationInProgress := false
      chartLabelPixmap := if chartSuccess then some path else w.widget.chartLabelPixmap
      statusVisible := false }
  let log := w.delivered ++ [{ job := job, path := path, shown := chartSuccess }]
  if w.widget.pendingChartRequest then
    { w with
      widget := { wd with pendingChartRequest := false }
      settleTimers := w.settleTimers ++ [w.now + 100]
      delivered := log }
  else
    { w with widget := wd, delivered := log }

/-- The method `PythonGraphWidget::generateChartImage` (lines 281-299), the
debounced request. -/
def generateChartImage (w : World) : World :=
  if w.widget.dataSeries.isEmpty then w
  else
    { w with
      widget :=
        { w.widget with
          pendingDebounceRequest := true
          debounceInterval := 500
          debounceTimer := some (w.now + 500) } }

/-- The slots connected to the `timeout` signal of `debounceTimer`. The
constructor creates the timer and makes it single-shot (lines 74-75); no
`connect` call in the repository names it, so the list is empty. -/
def debounceTimeoutSlots : List (World → World) := []

/-- The debounce timer reaching its deadline: a single-shot timer becomes inactive
and its `timeout` signal runs the connected slots. -/
def debounceTimeout (w : World) : World :=
  match w.widget.debounceTimer with
  | none => w
  | some deadline =>
      if deadline ≤ w.now then
        debounceTimeoutSlots.foldl (fun acc slot => slot acc)
          { w with widget := { w.widget with debounceTimer := none } }
      else w

/-- The method `setTitle` (lines 146-150). -/
def setTitle (title : String) (w : World) : World :=
  triggerChartGeneration { w with widget := { w.widget with title := title } }

/-- The loop of `setDataSeries` (lines 162-171) on `seriesVisibility`: every key
that has no entry yet gets the entry `true`. -/
def initVisibility (series : QMap DataSeries) (vis : QMap Bool) : QMap Bool :=
  series.foldl (fun acc kv => if acc.contains kv.1 then acc else QMap.insert acc kv.1 true) vis

/-- The method `setDataSeries` (lines 157-174). -/
def setDataSeries (series : QMap DataSeries) (w : World) : World :=
  triggerChartGeneration
    { w with
      widget :=
        { w.widget with
          dataSeries := series
          seriesVisibility := initVisibility series w.widget.seriesVisibility } }

/-- The method `toggleSeriesVisibility` (lines 181-193). The signal
`seriesVisibilityChanged` it emits has no receiver inside the widget. -/
def toggleSeriesVisibility (seriesName : String) (visible : Bool) (w : World) : World :=
  if w.widget.dataSeries.contains seriesName then
    triggerChartGeneration
      { w with
        widget :=
          { w.widget with
            seriesVisibility := QMap.insert w.widget.seriesVisibility seriesName visible } }
  else w

/-- The method `setXAxisLabel` (lines 204-208). -/
def setXAxisLabel (label : String) (w : World) : World :=
  triggerChartGeneration { w with widget := { w.widget with xAxisLabel := label } }

/-- The method `setYAxisLabel` (lines 210-214). -/
def setYAxisLabel (label : String) (w : World) : World :=
  triggerChartGeneration { w with widget := { w.widget with yAxisLabel := label } }

/-- The method `setGraphType` (lines 226-230). -/
def setGraphType (type : Int) (w : World) : World :=
  triggerChartGeneration { w with widget := { w.widget with graphType := type } }

/-- The method `setGraphColor` (lines 232-236). -/
def setGraphColor (color : QColor) (w : World) : World :=
  triggerChartGeneration { w with widget := { w.widget with graphColor := color } }

/-- The method `setInterpolate` (lines 258-262). -/
def setInterpolate (enabled : Bool) (w : World) : World :=
  triggerChartGeneration { w with widget := { w.widget with interpolate := enabled } }

/-- The slot `updateChart` (lines 271-274). -/
def updateChart (w : World) : World :=
  triggerChartGeneration w

/-- The handler `resizeEvent` (lines 564-573) for a resize to `width` x `height`. -/
def resizeEvent (width height : Int) (w : World) : World :=
  let w1 : World := { w with widget := { w.widget with width := width, height := height } }
  if !w1.widget.dataSeries.isEmpty then triggerChartGeneration w1 else w1

/-- A state mutation of the widget made from outside. -/
inductive Mutator where
  | setTitle (title : String)
  | setDataSeries (series : QMap DataSeries)
  | toggleSeriesVisibility (seriesName : String) (visible : Bool)
  | setXAxisLabel (label : String)
  | setYAxisLabel (label : String)
  | setGraphType (type : Int)
  | setGraphColor (color : QColor)
  | setInterpolate (enabled : Bool)
  | updateChart
  | resizeEvent (width height : Int)
deriving DecidableEq, Repr

/-- The call of the method a mutator names. -/
def Mutator.apply : Mutator → World → World
  | .setTitle t => SensorGraph.setTitle t
  | .setDataSeries s => SensorGraph.setDataSeries s
  | .toggleSeriesVisibility n v => SensorGraph.toggleSeriesVisibility n v
  | .setXAxisLabel l => SensorGraph.setXAxisLabel l
  | .setYAxisLabel l => SensorGraph.setYAxisLabel l
  | .setGraphType t => SensorGraph.setGraphType t
  | .setGraphColor c => SensorGraph.setGraphColor c
  | .setInterpolate e => SensorGraph.setInterpolate e
  | .updateChart => SensorGraph.updateChart
  | .resizeEvent width height => SensorGraph.resizeEvent width height

/-- One thing the event loop does next.
* `mutate m`: a mutator is called.
* `requestDebounced`: `generateChartImage` is called.
* `elapse dt`: `dt` milliseconds pass.
* `debounceFires`: the debounce timer times out (if it is due).
* `settleFires i`: the `i`-th pending settle timer times out (if it is due) and
  calls `triggerChartGeneration`.
* `finished i outcome loadable`: the `i`-th unfinished job ends with `outcome`,
  and the future watcher runs `onChartImageGenerated` on its result.
An event that cannot happen in the current world leaves it unchanged. -/
inductive Event where
  | mutate (m : Mutator)
  | requestDebounced
  | elapse (dt : Nat)
  | debounceFires
  | settleFires (i : Nat)
  | finished (i : Nat) (outcome : JobOutcome) (loadable : Bool)
deriving DecidableEq, Repr

/-- The effect of one event. The future watcher watches the future set last; when
a job finishes, the slot is run with the result of that job. -/
def step (w : World) : Event → World
  | .mutate m => m.apply w
  | .requestDebounced => generateChartImage w
  | .elapse dt => { w with now := w.now + dt }
  | .debounceFires => debounceTimeout w
  | .settleFires i =>
      match w.settleTimers.get? i with
      | none => w
      | some deadline =>
          if deadline ≤ w.now then
            triggerChartGeneration { w with settleTimers := w.settleTimers.eraseIdx i }
          else w
  | .finished i outcome loadable =>
      match w.jobs.get? i with
      | none => w
      | some job =>
          onChartImageGenerated { w with jobs := w.jobs.eraseIdx i } job
            (generateChartResult outcome) loadable

/-- The world after a sequence of events. -/
def run (w : World) (events : List Event) : World :=
  events.foldl step w

/-- The sequence ids of the results handled so far, oldest first. -/
def deliveredSeqs (w : World) : List Nat :=
  w.delivered.map (fun d => d.job.seq)

/-- The number of render jobs dispatched to the worker and not yet completed. -/
def inFlight (w : World) : Nat :=
  w.jobs.length

/-! ## The chart bridge (pythonchartbridge.h, pythonchartbridge.cpp) -/

/-- A call the bridge makes on the `QProcess` object of the shared worker; the
objects are numbered in the order `startPythonServer` creates them. -/
inductive ProcessCall where
  | start (pid : Nat)
  | terminate (pid : Nat)
  | kill (pid : Nat)
  | delete (pid : Nat)
deriving DecidableEq, Repr

/-- The enum `QProcess::ExitStatus`. -/
inductive ExitStatus where
  | NormalExit
  | CrashExit
deriving DecidableEq, Repr

/-- The statics of `PythonChartBridge` (lines 13-18) and what surrounds them:
`instances` are the live `PythonChartBridge` objects (numbered in order of
construction), `calls` the log of the calls made on worker processes, oldest
first, `initTimers` the owners of the pending
`QTimer::singleShot(0, this, SLOT(initializeAsync()))` calls, `restartTimers` the
owner and deadline of each pending
`QTimer::singleShot(100, this, SLOT(startPythonServer()))`. `crashOutstanding` is
not a variable of the program: it records that `onPythonProcessFinished` has
reported a crash and no `startPythonServer` has got a process started since. -/
structure Bridge where
  s_pythonPath : String
  s_scriptDir : String
  s_initialized : Bool
  s_initStarted : Bool
  s_instanceCount : Int
  s_pythonProcess : Option Nat
  instances : List Nat
  nextInstance : Nat
  nextProcess : Nat
  calls : List ProcessCall
  initTimers : List Nat
  restartTimers : List (Nat × Nat)
  now : Nat
  crashOutstanding : Bool
deriving DecidableEq, Repr

/-- The statics at program start (lines 13-18), no instance constructed yet. -/
def Bridge.init : Bridge :=
  { s_pythonPath := ""
    s_scriptDir := ""
    s_initialized := false
    s_initStarted := false
    s_instanceCount := 0
    s_pythonProcess := none
    instances := []
    nextInstance := 0
    nextProcess := 0
    calls := []
    initTimers := []
    restartTimers := []
    now := 0
    crashOutstanding := false }

/-- The helper `getProcessCount` (pythonchartbridge.h, line 36). -/
def getProcessCount (b : Bridge) : Nat :=
  if b.s_pythonProcess.isSome then 1 else 0

/-- The constructor `PythonChartBridge::PythonChartBridge` (lines 20-27). -/
def Bridge.construct (b : Bridge) : Bridge :=
  { b with
    s_instanceCount := b.s_instanceCount + 1
    instances := b.instances ++ [b.nextInstance]
    nextInstance := b.nextInstance + 1
    initTimers := b.initTimers ++ [b.nextInstance] }

/-- The destructor `PythonChartBridge::~PythonChartBridge` (lines 29-44) of
instance `self`; `finishedInTime` is the answer of `waitForFinished(1000)`.
The timers whose receiver is `self` die with it. The `finished` signal that
`terminate` provokes is not delivered inside the destructor. -/
def Bridge.destroy (b : Bridge) (self : Nat) (finishedInTime : Bool) : Bridge :=
  let count := b.s_instanceCount - 1
  let b1 : Bridge :=
    { b with
      s_instanceCount := count
      instances := b.instances.erase self
      initTimers := b.initTimers.filter (fun i => i != self)
      restartTimers := b.restartTimers.filter (fun t => t.1 != self) }
  match b.s_pythonProcess with
  | some pid =>
      if count ≤ 0 then
        { b1 with
          calls :=
            b.calls ++ [ProcessCall.terminate pid] ++
              (if finishedInTime then [] else [ProcessCall.kill pid]) ++
              [ProcessCall.delete pid]
          s_pythonProcess := none
          s_instanceCount := 0 }
      else b1
  | none => b1

/-- The static method `PythonChartBridge::initialize` (lines 54-195); `pythonPath`
and `scriptDir` are what its two searches of the file system find, empty when
they find nothing. -/
def Bridge.initializeEnv (b : Bridge) (pythonPath scriptDir : String) : Bridge :=
  if b.s_initStarted then b
  else if pythonPath = "" then
    { b with s_initStarted := true, s_initialized := false }
  else if scriptDir = "" then
    { b with s_initStarted := true, s_pythonPath := pythonPath, s_initialized := false }
  else
    { b with
      s_initStarted := true
      s_pythonPath := pythonPath
      s_scriptDir := scriptDir
      s_initialized := true }

/-- The slot `PythonChartBridge::startPythonServer` (lines 197-232); `started` is
the answer of `waitForStarted(5000)`. -/
def Bridge.startPythonServer (b : Bridge) (started : Bool) : Bridge :=
  match b.s_pythonProcess with
  | some _ => b
  | none =>
      let pid := b.nextProcess
      if started then
        { b with
          s_pythonProcess := some pid
          nextProcess := pid + 1
          calls := b.calls ++ [ProcessCall.start pid]
          crashOutstanding := false }
      else
        { b with
          s_pythonProcess := none
          nextProcess := pid + 1
          calls := b.calls ++ [ProcessCall.start pid, ProcessCall.delete pid] }

/-- The slot `PythonChartBridge::initializeAsync` (lines 46-52). -/
def Bridge.initializeAsync (b : Bridge) (pythonPath scriptDir : String) (started : Bool) :
    Bridge :=
  let b1 := if !b.s_initialized then b.initializeEnv pythonPath scriptDir else b
  b1.startPythonServer started

/-- The slot `PythonChartBridge::onPythonProcessFinished` (lines 244-253) run on
instance `self`. -/
def Bridge.onPythonProcessFinished (b : Bridge) (self : Nat) (exitCode : Int)
    (exitStatus : ExitStatus) : Bridge :=
  if exitCode ≠ 0 ∨ exitStatus ≠ ExitStatus.NormalExit then
    { b with
      s_pythonProcess := none
      restartTimers := b.restartTimers ++ [(self, b.now + 100)]
      crashOutstanding := true }
  else b

/-- Lines 268-277 of `PythonChartBridge::generateChart`, the part that touches
the statics; `running` is the answer of
`s_pythonProcess->state() == QProcess::Running`. -/
def Bridge.generateChartPrologue (b : Bridge) (pythonPath scriptDir : String)
    (running started : Bool) : Bridge :=
  let b1 :=
    if !b.s_initialized && !b.s_initStarted then b.initializeEnv pythonPath scriptDir else b
  if b1.s_pythonProcess.isNone || !running then b1.startPythonServer started else b1

/-- One thing that happens to the bridge.  Methods are called on a live
instance `self`; a timer runs its slot only while its receiver is alive and
once its deadline has come. An event that cannot happen leaves the bridge
unchanged. Calls are taken one at a time: `generateChart` runs on a pool
thread in the program, and its interleaving with the other methods inside one
call is not represented. -/
inductive BridgeEvent where
  | construct
  | destroy (self : Nat) (finishedInTime : Bool)
  | initFires (self : Nat) (pythonPath scriptDir : String) (started : Bool)
  | startPythonServer (self : Nat) (started : Bool)
  | restartFires (k : Nat) (started : Bool)
  | generateChart (self : Nat) (pythonPath scriptDir : String) (running started : Bool)
  | onPythonProcessFinished (self : Nat) (exitCode : Int) (exitStatus : ExitStatus)
  | elapse (dt : Nat)
deriving DecidableEq, Repr

/-- The effect of one event on the bridge. -/
def Bridge.step (b : Bridge) : BridgeEvent → Bridge
  | .construct => b.construct
  | .destroy self fin => if self ∈ b.instances then b.destroy self fin else b
  | .initFires self py dir started =>
      if self ∈ b.instances ∧ self ∈ b.initTimers then
        Bridge.initializeAsync { b with initTimers := b.initTimers.erase self } py dir started
      else b
  | .startPythonServer self started =>
      if self ∈ b.instances then b.startPythonServer started else b
  | .restartFires k started =>
      match b.restartTimers.get? k with
      | none => b
      | some (owner, deadline) =>
          if owner ∈ b.instances ∧ deadline ≤ b.now then
            Bridge.startPythonServer { b with restartTimers := b.restartTimers.eraseIdx k } started
          else b
  | .generateChart self py dir running started =>
      if self ∈ b.instances then b.generateChartPrologue py dir running started else b
  | .onPythonProcessFinished self exitCode exitStatus =>
      if self ∈ b.instances then b.onPythonProcessFinished self exitCode exitStatus else b
  | .elapse dt => { b with now := b.now + dt }

/-- The bridge after a sequence of events. -/
def Bridge.run (b : Bridge) (events : List BridgeEvent) : Bridge :=
  events.foldl Bridge.step b

/-- The events destroying the instances of `order` one after the other, each
paired with the answer of its `waitForFinished(1000)`. -/
def destroyAll (order : List (Nat × Bool)) : List BridgeEvent :=
  order.map (fun p => BridgeEvent.destroy p.1 p.2)

/-! ## Encoding the render job (pythonchartbridge.cpp, lines 404-516) -/

/-- A `QJsonValue`. A `QJsonObject` keeps its members in key order, like a `QMap`. -/
inductive QJsonValue where
  | null
  | bool (b : Bool)
  | double (d : Int)
  | string (s : String)
  | array (items : List QJsonValue)
  | object (members : List (String × QJsonValue))
deriving Repr

/-- The member of a JSON object stored under `key`, if the value is an object
that has one. -/
def QJsonValue.field (v : QJsonValue) (key : String) : Option QJsonValue :=
  match v with
  | .object members => QMap.value? members key
  | _ => none

/-- The call `.arg(n, 2, 16, QChar('0'))`: `n` in base 16 with lower-case digits,
padded on the left with `0` to a width of 2. -/
def argHex (n : Nat) : List Char :=
  List.replicate (2 - (Nat.toDigits 16 n).length) '0' ++ Nat.toDigits 16 n

/-- The character `'`, U+0027. -/
def singleQuote : Char := Char.ofNat 39

/-- The method `PythonChartBridge::colorToString` (lines 404-410): the template
is the text `#%1%2%3` between two single quotes. -/
def colorToString (color : QColor) : String :=
  String.mk
    ([singleQuote, '#'] ++ argHex color.red ++ argHex color.green ++ argHex color.blue ++
      [singleQuote])

/-- The method `PythonChartBridge::chartTypeToString` (lines 412-423). -/
def chartTypeToString (chartType : Int) : String :=
  if chartType = 0 then "line"
  else if chartType = 1 then "scatter"
  else if chartType = 2 then "bar"
  else if chartType = 3 then "area"
  else if chartType = 4 then "step"
  else if chartType = 5 then "sine"
  else "line"

/-- The switch on `lineStyle` in `createJsonData` (lines 475-481). -/
def lineStyleString (lineStyle : Int) : String :=
  if lineStyle = 1 then "--"
  else if lineStyle = 2 then ":"
  else if lineStyle = 3 then "-."
  else "-"

/-- The switch on `markerStyle` in `createJsonData` (lines 484-491). -/
def markerString (markerStyle : Int) : String :=
  if markerStyle = 1 then "o"
  else if markerStyle = 2 then "s"
  else if markerStyle = 3 then "^"
  else if markerStyle = 4 then "*"
  else ""

/-- The loops of lines 500-506: the samples appended one by one to a JSON array. -/
def doubleArray (samples : List Int) : QJsonValue :=
  QJsonValue.array (samples.foldl (fun acc x => acc ++ [QJsonValue.double x]) [])

/-- The body of the loop of `createJsonData` (lines 458-511) for the entry
`key`, `series` at position `index` of the map; `fromHsv` is `QColor::fromHsv`. -/
def seriesToJson (fromHsv : Int → Int → Int → QColor) (index : Nat) (key : String)
    (series : DataSeries) : QJsonValue :=
  let color :=
    if series.color.valid then series.color
    else fromHsv ((index : Int) * 50 % 360) 200 220
  let o1 := QMap.insert [] "name" (QJsonValue.string key)
  let o2 := QMap.insert o1 "color" (QJsonValue.string (colorToString color))
  let o3 := QMap.insert o2 "visible" (QJsonValue.bool series.visible)
  let o4 := QMap.insert o3 "line_style" (QJsonValue.string (lineStyleString series.lineStyle))
  let o5 := QMap.insert o4 "marker" (QJsonValue.string (markerString series.markerStyle))
  let o6 := QMap.insert o5 "line_width" (QJsonValue.double series.lineWidth)
  let o7 := QMap.insert o6 "x_values" (doubleArray series.x)
  let o8 := QMap.insert o7 "y_values" (doubleArray series.y)
  QJsonValue.object o8

/-- The loop of `createJsonData` (lines 457-512) from position `index` on: one
object per entry of the map, in the order of the map. -/
def seriesArrayFrom (fromHsv : Int → Int → Int → QColor) :
    Nat → QMap DataSeries → List QJsonValue
  | _, [] => []
  | index, (key, series) :: rest =>
      seriesToJson fromHsv index key series :: seriesArrayFrom fromHsv (index + 1) rest

/-- The method `PythonChartBridge::createJsonData` (lines 425-516); the value
`-1.0` of an axis limit is the integer -1 here. -/
def createJsonData (fromHsv : Int → Int → Int → QColor) (dataSeries : QMap DataSeries)
    (title xAxisLabel yAxisLabel chartType : String) (interpolate : Bool)
    (xMin xMax yMin yMax : Int) : QJsonValue :=
  let o1 := QMap.insert [] "title" (QJsonValue.string title)
  let o2 := QMap.insert o1 "x_label" (QJsonValue.string xAxisLabel)
  let o3 := QMap.insert o2 "y_label" (QJsonValue.string yAxisLabel)
  let o4 := QMap.insert o3 "chart_type" (QJsonValue.string chartType)
  let o5 := QMap.insert o4 "interpolate" (QJsonValue.bool interpolate)
  let o6 :=
    if xMin ≠ -1 ∧ xMax ≠ -1 then
      QMap.insert (QMap.insert o5 "x_min" (QJsonValue.double xMin)) "x_max"
        (QJsonValue.double xMax)
    else o5
  let o7 :=
    if yMin ≠ -1 ∧ yMax ≠ -1 then
      QMap.insert (QMap.insert o6 "y_min" (QJsonValue.double yMin)) "y_max"
        (QJsonValue.double yMax)
    else o6
  QJsonValue.object
    (QMap.insert o7 "series" (QJsonValue.array (seriesArrayFrom fromHsv 0 dataSeries)))

/-- The arguments of `generateChart` that reach the encoder; `width` and `height`
are accepted by `generateChart` and not used. -/
structure ChartRequest where
  dataSeries : QMap DataSeries
  title : String
  xAxisLabel : String
  yAxisLabel : String
  chartType : Int
  interpolate : Bool
  xMin : Int
  xMax : Int
  yMin : Int
  yMax : Int

/-- What `generateChart` hands to the per-job process (lines 290-312): the file
it has written, the bytes in it, and the program and arguments of
`process.start`. -/
structure JobStart where
  jsonFilePath : String
  payload : String
  program : String
  arguments : List String
deriving DecidableEq, Repr

/-- Lines 268-312 of `generateChart`: the statics are brought up to date, the
request is encoded, and if the temporary directory is valid and the job file
opens, the bytes `jsonData.toJson()` are written to the file and the command
line of the per-job process is put together. `tempDir` is the path of the
`QTemporaryDir` if it is valid, `fileOpened` the answer of `jsonFile.open`, and
`toJson` is `QJsonDocument::toJson`; the result is the new state of the bridge
and, unless the function has returned early, the job. -/
def Bridge.generateChartEncode (b : Bridge) (pythonPath scriptDir : String)
    (running started : Bool) (tempDir : Option String) (fileOpened : Bool)
    (fromHsv : Int → Int → Int → QColor) (toJson : QJsonValue → String) (r : ChartRequest) :
    Bridge × Option JobStart :=
  let b1 := b.generateChartPrologue pythonPath scriptDir running started
  let jsonData :=
    createJsonData fromHsv r.dataSeries r.title r.xAxisLabel r.yAxisLabel
      (chartTypeToString r.chartType) r.interpolate r.xMin r.xMax r.yMin r.yMax
  match tempDir with
  | none => (b1, none)
  | some dir =>
      let jsonFilePath := dir ++ "/chart_data.json"
      if !fileOpened then (b1, none)
      else
        (b1,
         some
           { jsonFilePath := jsonFilePath
             payload := toJson jsonData
             program := b1.s_pythonPath
             arguments :=
               [b1.s_scriptDir ++ "/run_with_venv.py", b1.s_scriptDir ++ "/chart_generator.py",
                jsonFilePath, "--fast"] })

/-- What the per-job process has done when `waitForFinished(8000)` returns true:
its exit code, its exit status and everything it wrote. -/
structure JobExit where
  exitCode : Int
  exitStatus : ExitStatus
  output : String

/-- Lines 323-330 of `generateChart`: once the process has finished the function
reads `process.readAll()`; it calls neither `exitCode()` nor `exitStatus()`, so
the output is all that reaches the decode step. -/
def JobExit.outcome (e : JobExit) : JobOutcome :=
  JobOutcome.exited e.output

/-- The process ended with a non-zero exit code or crashed. -/
def JobExit.abnormal (e : JobExit) : Prop :=
  e.exitCode ≠ 0 ∨ e.exitStatus ≠ ExitStatus.NormalExit

/-! ## The data parsers (sensordataparser.cpp) -/

/-- A default-constructed `DataSeries` (sensordataparser.h, lines 17-26). -/
def DataSeries.fresh : DataSeries :=
  { name := "", x := [], y := [], color := QColor.qtBlue, visible := true, lineStyle := 0,
    markerStyle := 0, lineWidth := 2 }

/-- The constructor `QColor(r, g, b)`. -/
def QColor.rgb (r g b : Nat) : QColor := { red := r, green := g, blue := b, valid := true }

/-- The call `QString::split(sep)`: the pieces between separators, empty pieces kept. -/
def splitOn (sep : Char) : List Char → List (List Char)
  | [] => [[]]
  | c :: cs =>
      if c = sep then [] :: splitOn sep cs
      else
        match splitOn sep cs with
        | [] => [[c]]
        | l :: ls => (c :: l) :: ls

/-- The text `QString("Column %1").arg(i)`. -/
def columnName (i : Nat) : String := "Column " ++ toString i

/-- Lines 99-129 of `parseCSVFile`: the column names taken from the first line, or
numbered when no part of it is a non-empty non-number; `toDouble` is
`QString::toDouble`, `none` when the text is not a number. -/
def csvColumnNames (toDouble : String → Option Int) (firstLine : String) : List String :=
  let parts := splitOn ',' (trimmed firstLine.toList)
  let isHeader := parts.any (fun part => (toDouble (String.mk part)).isNone && !part.isEmpty)
  if isHeader then
    parts.enum.map (fun ip =>
      if (trimmed ip.2).isEmpty then columnName ip.1 else String.mk (trimmed ip.2))
  else
    parts.enum.map (fun ip => columnName ip.1)

/-- The body of the loop of lines 142-173 for one line read from the stream: an
empty line, a line with the wrong number of parts or with a first part that is
not a number is skipped; otherwise every column gets one more value, the parsed
number or 0. -/
def csvAddLine (toDouble : String → Option Int) (columnCount : Nat)
    (columns : List (List Int)) (line : String) : List (List Int) :=
  let text := trimmed line.toList
  if text.isEmpty then columns
  else
    let parts := splitOn ',' text
    if parts.length ≠ columnCount then columns
    else
      match parts.head? with
      | none => columns
      | some first =>
          if (toDouble (String.mk first)).isNone then columns
          else
            List.zipWith (fun column part => column ++ [(toDouble (String.mk part)).getD 0])
              columns parts

/-- The palette of `parseCSVFile` (lines 176-189). -/
def csvPalette : List QColor :=
  [QColor.rgb 0 114 189, QColor.rgb 217 83 25, QColor.rgb 237 177 32, QColor.rgb 126 47 142,
   QColor.rgb 119 172 48, QColor.rgb 77 190 238, QColor.rgb 162 20 47, QColor.rgb 0 128 128,
   QColor.rgb 218 165 32, QColor.rgb 188 143 143, QColor.rgb 139 0 139, QColor.rgb 85 107 47]

/-- The body of the loop of lines 192-202 for column `i`. -/
def csvSeries (names : List String) (columns : List (List Int)) (startColumn i : Nat) :
    DataSeries :=
  { DataSeries.fresh with
    name := String.mk (trimmed (names.getD i "").toList)
    color := csvPalette.getD ((i - startColumn) % 12) QColor.qtBlue
    x := columns.getD 0 []
    y := columns.getD i [] }

/-- The method `SensorDataParser::parseCSVFile` (lines 86-206). `opened` is the
answer of `file.open`, `firstLine` the first line of the stream if there is one,
`dataLines` the lines that `readLine` returns in the loop of line 142, `format`
the answer of `detectFormat`, `dataSeries` the map passed in. The result is
the returned flag and the map. -/
def parseCSVFile (toDouble : String → Option Int) (opened : Bool) (firstLine : Option String)
    (dataLines : List String) (format : Int) (dataSeries : QMap DataSeries) :
    Bool × QMap DataSeries :=
  if !opened then (false, dataSeries)
  else
    let names :=
      match firstLine with
      | none => []
      | some line => csvColumnNames toDouble line
    let startColumn : Nat := if format = 0 then 1 else 0
    let columns :=
      dataLines.foldl (csvAddLine toDouble names.length) (List.replicate names.length [])
    let result :=
      ((List.range names.length).filter (fun i => decide (startColumn ≤ i))).foldl
        (fun acc i =>
          QMap.insert acc (csvSeries names columns startColumn i).name
            (csvSeries names columns startColumn i))
        dataSeries
    (!result.isEmpty, result)

/-- The method `QJsonValue::toArray`. -/
def QJsonValue.toArray : QJsonValue → List QJsonValue
  | .array items => items
  | _ => []

/-- The method `QJsonValue::toObject`. -/
def QJsonValue.toObject : QJsonValue → QMap QJsonValue
  | .object members => members
  | _ => []

/-- The method `QJsonValue::toDouble`. -/
def QJsonValue.toDouble : QJsonValue → Int
  | .double d => d
  | _ => 0

/-- The method `QJsonValue::toInt`; numbers are integers here. -/
def QJsonValue.toInt : QJsonValue → Int
  | .double d => d
  | _ => 0

/-- The method `QJsonValue::toString`. -/
def QJsonValue.toQString : QJsonValue → String
  | .string s => s
  | _ => ""

/-- The method `QJsonValue::toBool`. -/
def QJsonValue.toBool : QJsonValue → Bool
  | .bool b => b
  | _ => false

/-- The method `QJsonValue::isArray`. -/
def QJsonValue.isArray : QJsonValue → Bool
  | .array _ => true
  | _ => false

/-- The method `QJsonValue::isObject`. -/
def QJsonValue.isObject : QJsonValue → Bool
  | .object _ => true
  | _ => false

/-- The access `obj[key]` on a `QJsonObject`. -/
def jsonAt (obj : QMap QJsonValue) (key : String) : QJsonValue :=
  (QMap.value? obj key).getD QJsonValue.null

/-- The palette of `parseJSONFile` (lines 248-255). -/
def jsonPalette : List QColor :=
  [QColor.rgb 0 114 189, QColor.rgb 217 83 25, QColor.rgb 237 177 32, QColor.rgb 126 47 142,
   QColor.rgb 119 172 48, QColor.rgb 77 190 238]

/-- Lines 276-298 of `parseJSONFile`: the samples of one series object added to
`series`, from the `x_values` and `y_values` arrays up to the length of the
shorter one, or else from the points of `data` that have both `x` and `y`. -/
def jsonPoints (obj : QMap QJsonValue) (series : DataSeries) : DataSeries :=
  if obj.contains "x_values" && obj.contains "y_values" then
    let xValues := (jsonAt obj "x_values").toArray
    let yValues := (jsonAt obj "y_values").toArray
    (List.range (min xValues.length yValues.length)).foldl
      (fun acc j =>
        { acc with
          x := acc.x ++ [(xValues.getD j QJsonValue.null).toDouble]
          y := acc.y ++ [(yValues.getD j QJsonValue.null).toDouble] })
      series
  else if obj.contains "data" && (jsonAt obj "data").isArray then
    (jsonAt obj "data").toArray.foldl
      (fun acc point =>
        if point.toObject.contains "x" && point.toObject.contains "y" then
          { acc with
            x := acc.x ++ [(jsonAt point.toObject "x").toDouble]
            y := acc.y ++ [(jsonAt point.toObject "y").toDouble] }
        else acc)
      series
  else series

/-- Lines 233-238 of `parseJSONFile`: the name of series `i`. -/
def jsonName (obj : QMap QJsonValue) (i : Nat) (series : DataSeries) : DataSeries :=
  { series with
    name :=
      if obj.contains "name" then (jsonAt obj "name").toQString
      else "Series " ++ toString (i + 1) }

/-- Lines 240-257 of `parseJSONFile`: the colour of series `i`; `parseColor` is
the constructor `QColor(const QString &)`. -/
def jsonColor (parseColor : String → QColor) (obj : QMap QJsonValue) (i : Nat)
    (series : DataSeries) : DataSeries :=
  if obj.contains "color" then
    if (jsonAt obj "color").toQString.toList.head? = some '#' then
      { series with color := parseColor (jsonAt obj "color").toQString }
    else series
  else { series with color := jsonPalette.getD (i % 6) QColor.qtBlue }

/-- Lines 260-262 of `parseJSONFile`. -/
def jsonVisible (obj : QMap QJsonValue) (series : DataSeries) : DataSeries :=
  if obj.contains "visible" then { series with visible := (jsonAt obj "visible").toBool }
  else series

/-- Lines 264-266 of `parseJSONFile`. -/
def jsonLineStyle (obj : QMap QJsonValue) (series : DataSeries) : DataSeries :=
  if obj.contains "lineStyle" then { series with lineStyle := (jsonAt obj "lineStyle").toInt }
  else series

/-- Lines 268-270 of `parseJSONFile`. -/
def jsonMarkerStyle (obj : QMap QJsonValue) (series : DataSeries) : DataSeries :=
  if obj.contains "markerStyle" then
    { series with markerStyle := (jsonAt obj "markerStyle").toInt }
  else series

/-- Lines 272-274 of `parseJSONFile`. -/
def jsonLineWidth (obj : QMap QJsonValue) (series : DataSeries) : DataSeries :=
  if obj.contains "lineWidth" then
    { series with lineWidth := (jsonAt obj "lineWidth").toDouble }
  else series

/-- The body of the loop of `parseJSONFile` (lines 230-298) for element `i` of the
`series` array: a default-constructed series gets its name, colour, flags and
samples from the object. -/
def jsonSeries (parseColor : String → QColor) (i : Nat) (value : QJsonValue) : DataSeries :=
  jsonPoints value.toObject
    (jsonLineWidth value.toObject
      (jsonMarkerStyle value.toObject
        (jsonLineStyle value.toObject
          (jsonVisible value.toObject
            (jsonColor parseColor value.toObject i
              (jsonName value.toObject i DataSeries.fresh))))))

/-- The loop of lines 229-302 from element `i` on: each series is stored in the
map under its name. -/
def jsonSeriesFrom (parseColor : String → QColor) :
    Nat → List QJsonValue → QMap DataSeries → QMap DataSeries
  | _, [], acc => acc
  | i, value :: rest, acc =>
      jsonSeriesFrom parseColor (i + 1) rest
        (QMap.insert acc (jsonSeries parseColor i value).name (jsonSeries parseColor i value))

/-- The method `SensorDataParser::parseJSONFile` (lines 208-307). `document` is
what `QJsonDocument::fromJson` makes of the file, `none` when the file cannot be
opened or is not JSON; `dataSeries` is the map passed in. -/
def parseJSONFile (parseColor : String → QColor) (document : Option QJsonValue)
    (dataSeries : QMap DataSeries) : Bool × QMap DataSeries :=
  match document with
  | none => (false, dataSeries)
  | some root =>
      if !root.isObject then (false, dataSeries)
      else
        let result :=
          if root.toObject.contains "series" && (jsonAt root.toObject "series").isArray then
            jsonSeriesFrom parseColor 0 (jsonAt root.toObject "series").toArray dataSeries
          else dataSeries
        (!result.isEmpty, result)

/-- The method `SensorDataParser::generateSineWave` (lines 512-530). The name and
the samples are floating-point expressions of the arguments: `name` stands for
the formatted text, `xAt i` and `yAt i` for the values computed in round `i` of
the loop. -/
def generateSineWave (name : String) (xAt yAt : Nat → Int) (numPoints : Int) : DataSeries :=
  (List.range numPoints.toNat).foldl
    (fun acc i => { acc with x := acc.x ++ [xAt i], y := acc.y ++ [yAt i] })
    { DataSeries.fresh with name := name }

/-! ## Request telemetry (pythongraphwidget.h, lines 66-68) -/

/-- The diagnostic method `resetRequestCounts` (pythongraphwidget.h, line 68). -/
def resetRequestCounts (w : World) : World :=
  { w with
    widget := { w.widget with chartRequestCount := 0 }
    s_totalRequestCount := 0
    s_globalRequestTimer := some w.now }

/-! ## Predicates used by the statements -/

/-- Two worlds agree on everything the dispatch logic looks at or writes: the
flags, the request counters, the clock, the queued work and the log. -/
def SameControl (a b : World) : Prop :=
  a.widget.chartGenerationInProgress = b.widget.chartGenerationInProgress ∧
  a.widget.pendingChartRequest = b.widget.pendingChartRequest ∧
  a.widget.chartRequestCount = b.widget.chartRequestCount ∧
  a.widget.debounceTimer = b.widget.debounceTimer ∧
  a.jobs = b.jobs ∧ a.settleTimers = b.settleTimers ∧ a.delivered = b.delivered ∧
  a.now = b.now

/-- The state of the dispatch logic is coherent: the results handled so far have
strictly increasing sequence ids, and either nothing is in flight, the flag is
false and no handled result is newer than the request counter, or exactly one
job is in flight, the flag is true, the job carries the current value of the
request counter and every handled result is older. -/
def Coherent (w : World) : Prop :=
  (deliveredSeqs w).Pairwise (fun a b => a < b) ∧
  ((w.widget.chartGenerationInProgress = false ∧ w.jobs = [] ∧
      ∀ s ∈ deliveredSeqs w, s ≤ w.widget.chartRequestCount) ∨
   (w.widget.chartGenerationInProgress = true ∧
      ∃ j, w.jobs = [j] ∧ j.seq = w.widget.chartRequestCount ∧
        ∀ s ∈ deliveredSeqs w, s < w.widget.chartRequestCount))

/-- The worker wrote `output` and no line of it contains the marker. -/
def MissingMarker (output : String) : Prop :=
  ∀ line ∈ splitLines output.toList, indexOf chartMarker line = none

/-- A render job ended in failure: the per-job process timed out, it could not be
started, it printed no marker line, or the image it names cannot be loaded. -/
def RenderFailure (outcome : JobOutcome) (loadable : Bool) : Prop :=
  outcome = JobOutcome.timedOut ∨ outcome = JobOutcome.startFailed ∨
  (∃ output, outcome = JobOutcome.exited output ∧ MissingMarker output) ∨
  loadable = false

/-- The mutators whose body calls `triggerChartGeneration` unconditionally:
all but `toggleSeriesVisibility` (guarded by `dataSeries.contains`) and
`resizeEvent` (guarded by `!dataSeries.isEmpty()`). -/
def Mutator.alwaysSubmits : Mutator → Bool
  | .toggleSeriesVisibility _ _ => false
  | .resizeEvent _ _ => false
  | _ => true

/-- A burst of mutator calls, each preceded by a pause of the given length. -/
def mutationBurst : List (Nat × Mutator) → List Event
  | [] => []
  | (gap, m) :: rest => Event.elapse gap :: Event.mutate m :: mutationBurst rest

/-- A burst of debounced requests, each followed by a pause of the given length,
then the 500 ms window elapsing and the debounce timer timing out. -/
def debounceBurst : List Nat → List Event
  | [] => [Event.elapse 500, Event.debounceFires]
  | gap :: rest => Event.requestDebounced :: Event.elapse gap :: debounceBurst rest

/-- The series of the end-to-end scenario: `temp` with samples (0,20), (1,21), (2,19). -/
def sampleSeries : QMap DataSeries :=
  [("temp",
    { name := "temp", x := [0, 1, 2], y := [20, 21, 19], color := QColor.qtBlue,
      visible := true, lineStyle := 0, markerStyle := 0, lineWidth := 2 })]

/-- A widget that has data and is idle: the series was set, and the render that
this started has completed successfully. -/
def idleWithData : World :=
  run (World.init 640 480)
    [Event.mutate (Mutator.setDataSeries sampleSeries),
     Event.finished 0 (JobOutcome.exited "Chart generated: /tmp/x.png") true]

/-- Three requests made one after the other with no result handled in between. -/
def afterRequests (w : World) (m1 m2 m3 : Mutator) : World :=
  run w [Event.mutate m1, Event.mutate m2, Event.mutate m3]

/-- The world once the job in flight after the three requests has ended. -/
def afterFirstResult (w : World) (m1 m2 m3 : Mutator) (o1 : JobOutcome) (l1 : Bool) : World :=
  step (afterRequests w m1 m2 m3) (Event.finished 0 o1 l1)

/-- The world once, after the first result, 100 ms have passed and the settle
timer that this result scheduled has fired. -/
def afterSettle (w : World) (m1 m2 m3 : Mutator) (o1 : JobOutcome) (l1 : Bool) : World :=
  run (afterFirstResult w m1 m2 m3 o1 l1)
    [Event.elapse 100, Event.settleFires w.settleTimers.length]

/-- The world once the job dispatched by the settle timer has ended too. -/
def afterSecondResult (w : World) (m1 m2 m3 : Mutator) (o1 : JobOutcome) (l1 : Bool)
    (o2 : JobOutcome) (l2 : Bool) : World :=
  step (afterSettle w m1 m2 m3 o1 l1) (Event.finished 0 o2 l2)

/-- The three-request scenario on the freshly constructed widget: three titles
are set before any result is handled, then both renders succeed. -/
def threeTitles : World :=
  afterSecondResult (World.init 640 480)
    (Mutator.setTitle "one") (Mutator.setTitle "two") (Mutator.setTitle "three")
    (JobOutcome.exited "Chart generated: /tmp/a.png") true
    (JobOutcome.exited "Chart generated: /tmp/b.png") true

/-- The process object a call is made on. -/
def ProcessCall.pid : ProcessCall → Nat
  | .start p => p
  | .terminate p => p
  | .kill p => p
  | .delete p => p

/-- The bridge is well formed: `s_instanceCount` is the number of live instances,
which are distinct and numbered below `nextInstance`; every call so far was made
on a process object numbered below `nextProcess`; and when the shared handle
exists some instance is alive, no crash is outstanding, and the only call made so
far on the process behind the handle is its `start`. -/
def Bridge.Wf (b : Bridge) : Prop :=
  b.s_instanceCount = (b.instances.length : Int) ∧
  b.instances.Nodup ∧
  (∀ i ∈ b.instances, i < b.nextInstance) ∧
  (∀ c ∈ b.calls, c.pid < b.nextProcess) ∧
  (∀ pid, b.s_pythonProcess = some pid →
    b.instances ≠ [] ∧ b.crashOutstanding = false ∧ pid < b.nextProcess ∧
    ∀ c ∈ b.calls, c.pid = pid → c = ProcessCall.start pid)

/-- One crash of the shared worker and its automatic restart: the process exits
with code 1 and status `CrashExit`, `onPythonProcessFinished` runs on instance
`self`, 100 ms pass, and the restart timer fires with the new process starting. -/
def crashCycle (self : Nat) : List BridgeEvent :=
  [BridgeEvent.onPythonProcessFinished self 1 ExitStatus.CrashExit, BridgeEvent.elapse 100,
   BridgeEvent.restartFires 0 true]

/-- The events of `n` crashes in a row, each followed by its automatic restart. -/
def crashCycles (self : Nat) : Nat → List BridgeEvent
  | 0 => []
  | n + 1 => crashCycles self n ++ crashCycle self

/-- A bridge whose worker has been started once, has crashed, has been restarted
by the timer, and has crashed a second time. -/
def crashedTwice : Bridge :=
  Bridge.init.run
    [BridgeEvent.construct, BridgeEvent.initFires 0 "python3" "/app/python" true,
     BridgeEvent.onPythonProcessFinished 0 1 ExitStatus.CrashExit, BridgeEvent.elapse 100,
     BridgeEvent.restartFires 0 true,
     BridgeEvent.onPythonProcessFinished 0 1 ExitStatus.CrashExit]

/-- Written from the specification: the text that follows the first occurrence
of `pat` in a line, if the line contains `pat`. -/
def textAfter (pat : List Char) : List Char → Option (List Char)
  | [] => if pat = [] then some [] else none
  | c :: cs =>
      if pat <+: (c :: cs) then some ((c :: cs).drop pat.length) else textAfter pat cs

/-- Written from the specification: the first line of the worker output that
contains the marker `Chart generated:`. -/
def firstMarkerLine (output : String) : Option (List Char) :=
  (splitLines output.toList).find? (fun line => decide (chartMarker <:+: line))

/-- Written from the specification: the artifact path of a worker output is the
text after the marker on the first line that contains it, with the surrounding
white space removed; without such a line it is the empty failure value. -/
def decodeBySpec (output : String) : String :=
  match firstMarkerLine output with
  | none => ""
  | some line =>
      match textAfter chartMarker line with
      | none => ""
      | some text => String.mk (trimmed text)

/-- Written from the specification: the code points of the white-space characters
(tab to carriage return, the blank, next line, the no-break blank, and the
Unicode separators). -/
def whiteSpaceCodes : List Nat :=
  [9, 10, 11, 12, 13, 32, 133, 160, 5760, 8192, 8193, 8194, 8195, 8196, 8197, 8198, 8199,
   8200, 8201, 8202, 8232, 8233, 8239, 8287, 12288]

/-- Written from the specification: the character is white space. -/
def IsWhite (c : Char) : Prop :=
  c.toNat ∈ whiteSpaceCodes

/-- Written from the specification: `lines` are the lines of `output`, the pieces
between its line feeds. -/
def IsLinesOf (lines : List (List Char)) (output : List Char) : Prop :=
  lines ≠ [] ∧ (∀ l ∈ lines, '\n' ∉ l) ∧ output = List.intercalate ['\n'] lines

/-- Written from the specification: `text` is what follows the first occurrence
of `pat` in `line`, and `pre` is what precedes it. -/
def SplitsAtFirst (pat line pre text : List Char) : Prop :=
  line = pre ++ pat ++ text ∧
  ∀ pre2 text2, line = pre2 ++ pat ++ text2 → pre.length ≤ pre2.length

/-- Written from the specification: `path` is `text` with the white space at its
two ends removed. -/
def IsTrimmedOf (path text : List Char) : Prop :=
  ∃ lead trail, text = lead ++ path ++ trail ∧
    (∀ c ∈ lead, IsWhite c) ∧ (∀ c ∈ trail, IsWhite c) ∧
    (∀ c, path.head? = some c → ¬ IsWhite c) ∧
    (∀ c, path.getLast? = some c → ¬ IsWhite c)

/-- A per-job process that printed the marker line and then crashed with exit
code 1. -/
def crashedWithMarker : JobExit :=
  { exitCode := 1, exitStatus := ExitStatus.CrashExit,
    output := "Chart generated: /tmp/x.png\n" }

/-- The failures of a render job that the specification names `RenderTimeout`,
`WorkerUnavailable` and `RenderEmpty`: the per-job process timed out, it could not
be started, or it ran and printed no marker line. -/
def ReportedFailure (outcome : JobOutcome) : Prop :=
  outcome = JobOutcome.timedOut ∨ outcome = JobOutcome.startFailed ∨
  ∃ output, outcome = JobOutcome.exited output ∧ MissingMarker output

/-- A widget with one render in flight: the title of the fresh widget was set. -/
def oneInFlight : World :=
  run (World.init 640 480) [Event.mutate (Mutator.setTitle "a")]

/-- Every series of the widget has an entry in `seriesVisibility`. -/
def VisibilityKnown (wd : PythonGraphWidget) : Prop :=
  ∀ kv ∈ wd.dataSeries, wd.seriesVisibility.contains kv.1 = true

/-- A JSON data file with one series whose `visible` member is false. -/
def hiddenDocument : QJsonValue :=
  QJsonValue.object
    [("series",
      QJsonValue.array
        [QJsonValue.object
          [("name", QJsonValue.string "hidden"),
           ("visible", QJsonValue.bool false),
           ("x_values", QJsonValue.array [QJsonValue.double 0, QJsonValue.double 1]),
           ("y_values", QJsonValue.array [QJsonValue.double 5, QJsonValue.double 6])]])]

/-- The map that `parseJSONFile` makes of `hiddenDocument`. -/
def hiddenSeries : QMap DataSeries :=
  (parseJSONFile (fun _ => QColor.qtBlue) (some hiddenDocument) []).2

/-- The fresh widget after `setDataSeries(hiddenSeries)`, as `loadDataFromFile`
calls it (line 110). -/
def hiddenLoaded : World :=
  run (World.init 640 480) [Event.mutate (Mutator.setDataSeries hiddenSeries)]

/-- The test of line 322 as `triggerChartGeneration` evaluates it when it
dispatches: the global timer, restarted first if this request makes the global
counter 1, shows more than 600000 ms. -/
def windowExpired (w : World) : Bool :=
  decide
    (elapsed (if w.s_totalRequestCount + 1 = 1 then some w.now else w.s_globalRequestTimer)
      w.now > 600000)

/-- The world `w` with other values of the telemetry: the per-element counter, the
global counter and the global clock. -/
def withTelemetry (w : World) (count total : Nat) (timer : Option Nat) : World :=
  { w with
    widget := { w.widget with chartRequestCount := count }
    s_totalRequestCount := total
    s_globalRequestTimer := timer }

/-- The arguments a job passes to `generateChart`, without the request number it
is tagged with. -/
def RenderJob.contents (job : RenderJob) : RenderJob :=
  { job with seq := 0 }

/-- A widget with one render in flight whose global clock was started 600001 ms
ago: the title was set at time 0 and the render completed, then 600001 ms
passed. -/
def afterLongPause : World :=
  run (World.init 640 480)
    [Event.mutate (Mutator.setTitle "a"),
     Event.finished 0 (JobOutcome.exited "Chart generated: /tmp/x.png") true,
     Event.elapse 600001]

/-- The mutator reaches its call of `triggerChartGeneration` in world `w`: the
setters and `updateChart` call it unconditionally, `toggleSeriesVisibility`
calls it when the widget has the named series (line 183), `resizeEvent` when
the widget has data (line 570). -/
def Mutator.submits (m : Mutator) (w : World) : Bool :=
  match m with
  | .toggleSeriesVisibility seriesName _ => w.widget.dataSeries.contains seriesName
  | .resizeEvent _ _ => !w.widget.dataSeries.isEmpty
  | _ => true

/-- The keys of the map are in strictly ascending order, as in every `QMap`. -/
def QMap.Ascending {V : Type} (m : QMap V) : Prop :=
  m.Pairwise (fun a b => a.1.toList < b.1.toList)

/-- The map after the assignments `m[k] = v` for the given entries, in turn, on
an empty map. -/
def QMap.assign {V : Type} (entries : List (String × V)) : QMap V :=
  entries.foldl (fun m kv => QMap.insert m kv.1 kv.2) []

/-- The request of the end-to-end scenario: the one series `temp`, chart type
`line`, no axis limits. -/
def sampleRequest : ChartRequest :=
  { dataSeries := sampleSeries, title := "A", xAxisLabel := "t", yAxisLabel := "T",
    chartType := 0, interpolate := false, xMin := -1, xMax := -1, yMin := -1, yMax := -1 }

/-- The document of the end-to-end scenario, member by member in key order. -/
def sampleDocument : QJsonValue :=
  QJsonValue.object
    [("chart_type", QJsonValue.string "line"),
     ("interpolate", QJsonValue.bool false),
     ("series",
      QJsonValue.array
        [QJsonValue.object
          [("color", QJsonValue.string "\x27#0000ff\x27"),
           ("line_style", QJsonValue.string "-"),
           ("line_width", QJsonValue.double 2),
           ("marker", QJsonValue.string ""),
           ("name", QJsonValue.string "temp"),
           ("visible", QJsonValue.bool true),
           ("x_values",
            QJsonValue.array [QJsonValue.double 0, QJsonValue.double 1, QJsonValue.double 2]),
           ("y_values",
            QJsonValue.array
              [QJsonValue.double 20, QJsonValue.double 21, QJsonValue.double 19])]]),
     ("title", QJsonValue.string "A"),
     ("x_label", QJsonValue.string "t"),
     ("y_label", QJsonValue.string "T")]

/-- The document that `generateChart` builds for a request. -/
def ChartRequest.document (fromHsv : Int → Int → Int → QColor) (r : ChartRequest) :
    QJsonValue :=
  createJsonData fromHsv r.dataSeries r.title r.xAxisLabel r.yAxisLabel
    (chartTypeToString r.chartType) r.interpolate r.xMin r.xMax r.yMin r.yMax

/-- A stand-in for `QJsonDocument::toJson` in closed instances: the text of the
`title` member and the number of series. -/
def titleAndCount (doc : QJsonValue) : String :=
  ((doc.field "title").map QJsonValue.toQString).getD "" ++ "/" ++
    toString (((doc.field "series").map QJsonValue.toArray).getD []).length

end SensorGraph

/-! # Number to English converter

`src/C++/Number to English Converter/NumberToText/NumberToText/main.cpp`. Each
function writes to `cout`; its model returns the text written, in the order of
the writes. The arguments are `int`; `main` passes only numbers that are not
negative (it stops at the first negative one), and the model takes a natural
number. Division and remainder never overflow. -/

namespace NumberToText

/-- The function `PrintOneDigit` (main.cpp, lines 16-30): the text it writes. -/
def PrintOneDigit (d : Nat) : String :=
  match d with
  | 0 => "zero"
  | 1 => "one"
  | 2 => "two"
  | 3 => "three"
  | 4 => "four"
  | 5 => "five"
  | 6 => "six"
  | 7 => "seven"
  | 8 => "eight"
  | 9 => "nine"
  | _ => "Error"

/-- The function `PrintTeen` (main.cpp, lines 33-47). -/
def PrintTeen (n : Nat) : String :=
  match n with
  | 10 => "ten"
  | 11 => "eleven"
  | 12 => "twelve"
  | 13 => "thirteen"
  | 14 => "fourteen"
  | 15 => "fifteen"
  | 16 => "sixteen"
  | 17 => "seventeen"
  | 18 => "eighteen"
  | 19 => "nineteen"
  | _ => "Error"

/-- The function `PrintTens` (main.cpp, lines 50-62). -/
def PrintTens (n : Nat) : String :=
  match n with
  | 2 => "twenty"
  | 3 => "thirty"
  | 4 => "forty"
  | 5 => "fifty"
  | 6 => "sixty"
  | 7 => "seventy"
  | 8 => "eighty"
  | 9 => "ninety"
  | _ => "Error"

/-- The function `PrintTwoDigitNumber` (main.cpp, lines 65-77). -/
def PrintTwoDigitNumber (n : Nat) : String :=
  if n < 10 then PrintOneDigit n
  else if n < 20 then PrintTeen n
  else PrintTens (n / 10) ++ (if n % 10 ≠ 0 then "-" ++ PrintOneDigit (n % 10) else "")

/-- The function `PrintThreeDigitNumber` (main.cpp, lines 80-91). -/
def PrintThreeDigitNumber (n : Nat) : String :=
  if n ≥ 100 then
    PrintOneDigit (n / 100) ++ " hundred" ++
      (if n % 100 ≠ 0 then " " ++ PrintTwoDigitNumber (n % 100) else "")
  else PrintTwoDigitNumber n

/-- The function `PrintNumber` (main.cpp, lines 94-110); the newline of line 109 is
written on every path. -/
def PrintNumber (n : Nat) : String :=
  (if n = 0 then PrintOneDigit n
   else if n ≥ 1000 then
     PrintThreeDigitNumber (n / 1000) ++ " thousand" ++
       (if n % 1000 ≠ 0 then " " ++ PrintThreeDigitNumber (n % 1000) else "")
   else PrintThreeDigitNumber n) ++ "\n"

/-! ## The English names, for the statements -/

/-- Written from the specification: the English names of 0 to 19. -/
def smallNames : List String :=
  ["zero", "one", "two", "three", "four", "five", "six", "seven", "eight", "nine", "ten",
   "eleven", "twelve", "thirteen", "fourteen", "fifteen", "sixteen", "seventeen", "eighteen",
   "nineteen"]

/-- Written from the specification: the English names of 20, 30, ..., 90. -/
def tensNames : List String :=
  ["twenty", "thirty", "forty", "fifty", "sixty", "seventy", "eighty", "ninety"]

/-- Written from the specification: the English name of a number below 100. -/
def nameBelow100 (n : Nat) : String :=
  if n < 20 then smallNames.getD n ""
  else if n % 10 = 0 then tensNames.getD (n / 10 - 2) ""
  else tensNames.getD (n / 10 - 2) "" ++ "-" ++ smallNames.getD (n % 10) ""

/-- Written from the specification: the English name of a number below 1000. -/
def nameBelow1000 (n : Nat) : String :=
  if n < 100 then nameBelow100 n
  else if n % 100 = 0 then smallNames.getD (n / 100) "" ++ " hundred"
  else smallNames.getD (n / 100) "" ++ " hundred " ++ nameBelow100 (n % 100)

/-- Written from the specification: the English name of a number below 1000000. -/
def englishName (n : Nat) : String :=
  if n < 1000 then nameBelow1000 n
  else if n % 1000 = 0 then nameBelow1000 (n / 1000) ++ " thousand"
  else nameBelow1000 (n / 1000) ++ " thousand " ++ nameBelow1000 (n % 1000)

/-- The text that follows `hundred` or `thousand`: a blank and the name `rest` of
the remainder `x` if `x` is not 0, nothing otherwise. -/
def remainder (x : Nat) (rest : String) : List Char :=
  if x ≠ 0 then ' ' :: rest.toList else []

end NumberToText

/-! # Properties -/

namespace SensorGraph

/-! ## Helper lemmas on the widget -/

theorem trigger_in_flight (w : World) (h : w.widget.chartGenerationInProgress = true) :
    triggerChartGeneration w =
      { w with widget := { w.widget with pendingChartRequest := true } } := by
  simp [triggerChartGeneration, h]

theorem trigger_idle_jobs (w : World) (h : w.widget.chartGenerationInProgress = false) :
    (triggerChartGeneration w).jobs =
      w.jobs ++ [renderJobOf w.widget (w.widget.chartRequestCount + 1)] := by
  simp [triggerChartGeneration, h]

theorem trigger_idle_widget (w : World) (h : w.widget.chartGenerationInProgress = false) :
    (triggerChartGeneration w).widget =
      { w.widget with
        chartRequestCount := w.widget.chartRequestCount + 1
        chartGenerationInProgress := true
        pendingChartRequest := false
        statusText := "Generating chart..."
        statusVisible := true
        chartGenerationTimer := some w.now } := by
  simp [triggerChartGeneration, h]

theorem trigger_delivered (w : World) :
    (triggerChartGeneration w).delivered = w.delivered := by
  unfold triggerChartGeneration
  split <;> rfl

theorem trigger_settleTimers (w : World) :
    (triggerChartGeneration w).settleTimers = w.settleTimers := by
  unfold triggerChartGeneration
  split <;> rfl

theorem trigger_now (w : World) : (triggerChartGeneration w).now = w.now := by
  unfold triggerChartGeneration
  split <;> rfl

theorem trigger_debounceTimer (w : World) :
    (triggerChartGeneration w).widget.debounceTimer = w.widget.debounceTimer := by
  unfold triggerChartGeneration
  split <;> rfl

/-- Every mutator changes display members only and then either calls
`triggerChartGeneration` or returns. -/
theorem mutator_shape (m : Mutator) (w : World) :
    ∃ w1, SameControl w1 w ∧ (m.apply w = triggerChartGeneration w1 ∨ m.apply w = w1) := by
  cases m with
  | setTitle t =>
      exact ⟨{ w with widget := { w.widget with title := t } },
        ⟨rfl, rfl, rfl, rfl, rfl, rfl, rfl, rfl⟩, Or.inl rfl⟩
  | setDataSeries s =>
      exact ⟨{ w with
          widget :=
            { w.widget with
              dataSeries := s
              seriesVisibility := initVisibility s w.widget.seriesVisibility } },
        ⟨rfl, rfl, rfl, rfl, rfl, rfl, rfl, rfl⟩, Or.inl rfl⟩
  | toggleSeriesVisibility n v =>
      by_cases hc : w.widget.dataSeries.contains n = true
      · refine ⟨{ w with
            widget :=
              { w.widget with
                seriesVisibility := QMap.insert w.widget.seriesVisibility n v } },
          ⟨rfl, rfl, rfl, rfl, rfl, rfl, rfl, rfl⟩, Or.inl ?_⟩
        simp only [Mutator.apply, toggleSeriesVisibility, hc, if_true]
      · refine ⟨w, ⟨rfl, rfl, rfl, rfl, rfl, rfl, rfl, rfl⟩, Or.inr ?_⟩
        simp only [Mutator.apply, toggleSeriesVisibility, hc]
        rfl
  | setXAxisLabel l =>
      exact ⟨{ w with widget := { w.widget with xAxisLabel := l } },
        ⟨rfl, rfl, rfl, rfl, rfl, rfl, rfl, rfl⟩, Or.inl rfl⟩
  | setYAxisLabel l =>
      exact ⟨{ w with widget := { w.widget with yAxisLabel := l } },
        ⟨rfl, rfl, rfl, rfl, rfl, rfl, rfl, rfl⟩, Or.inl rfl⟩
  | setGraphType t =>
      exact ⟨{ w with widget := { w.widget with graphType := t } },
        ⟨rfl, rfl, rfl, rfl, rfl, rfl, rfl, rfl⟩, Or.inl rfl⟩
  | setGraphColor c =>
      exact ⟨{ w with widget := { w.widget with graphColor := c } },
        ⟨rfl, rfl, rfl, rfl, rfl, rfl, rfl, rfl⟩, Or.inl rfl⟩
  | setInterpolate e =>
      exact ⟨{ w with widget := { w.widget with interpolate := e } },
        ⟨rfl, rfl, rfl, rfl, rfl, rfl, rfl, rfl⟩, Or.inl rfl⟩
  | updateChart =>
      exact ⟨w, ⟨rfl, rfl, rfl, rfl, rfl, rfl, rfl, rfl⟩, Or.inl rfl⟩
  | resizeEvent width height =>
      refine ⟨{ w with widget := { w.widget with width := width, height := height } },
          ⟨rfl, rfl, rfl, rfl, rfl, rfl, rfl, rfl⟩, ?_⟩
      by_cases hc : w.widget.dataSeries.isEmpty = true
      · right
        simp [Mutator.apply, resizeEvent, hc]
      · left
        simp [Mutator.apply, resizeEvent, hc]

theorem coherent_of_sameControl {a b : World} (h : SameControl a b) (hb : Coherent b) :
    Coherent a := by
  obtain ⟨h1, _, h3, _, h5, _, h7, _⟩ := h
  unfold Coherent deliveredSeqs at *
  rw [h1, h3, h5, h7]
  exact hb

theorem coherent_trigger {w : World} (h : Coherent w) : Coherent (triggerChartGeneration w) := by
  obtain ⟨hp, hc⟩ := h
  rcases hc with ⟨hf, hj, hle⟩ | ⟨ht, j, hj, hs, hlt⟩
  · refine ⟨by simpa [deliveredSeqs, trigger_delivered] using hp, Or.inr ?_⟩
    refine ⟨by rw [trigger_idle_widget w hf], _, by rw [trigger_idle_jobs w hf, hj]; rfl, ?_, ?_⟩
    · rw [trigger_idle_widget w hf]; rfl
    · intro s hs
      have hs1 : s ∈ deliveredSeqs w := by simpa [deliveredSeqs, trigger_delivered] using hs
      have := hle s hs1
      rw [trigger_idle_widget w hf]
      exact Nat.lt_succ_of_le this
  · rw [trigger_in_flight w ht]
    exact ⟨hp, Or.inr ⟨ht, j, hj, hs, hlt⟩⟩

theorem coherent_mutate (m : Mutator) {w : World} (h : Coherent w) : Coherent (m.apply w) := by
  obtain ⟨w1, hsame, heq | heq⟩ := mutator_shape m w
  · rw [heq]; exact coherent_trigger (coherent_of_sameControl hsame h)
  · rw [heq]; exact coherent_of_sameControl hsame h

theorem onChart_delivered (w : World) (job : RenderJob) (path : String) (loadable : Bool) :
    (onChartImageGenerated w job path loadable).delivered =
      w.delivered ++ [{ job := job, path := path, shown := decide (path ≠ "") && loadable }] := by
  unfold onChartImageGenerated
  split <;> rfl

theorem onChart_inProgress (w : World) (job : RenderJob) (path : String) (loadable : Bool) :
    (onChartImageGenerated w job path loadable).widget.chartGenerationInProgress = false := by
  unfold onChartImageGenerated
  split <;> rfl

theorem onChart_pending (w : World) (job : RenderJob) (path : String) (loadable : Bool) :
    (onChartImageGenerated w job path loadable).widget.pendingChartRequest = false := by
  unfold onChartImageGenerated
  split
  · rfl
  · next h => simpa using h

theorem onChart_jobs (w : World) (job : RenderJob) (path : String) (loadable : Bool) :
    (onChartImageGenerated w job path loadable).jobs = w.jobs := by
  unfold onChartImageGenerated
  split <;> rfl

theorem onChart_count (w : World) (job : RenderJob) (path : String) (loadable : Bool) :
    (onChartImageGenerated w job path loadable).widget.chartRequestCount =
      w.widget.chartRequestCount := by
  unfold onChartImageGenerated
  split <;> rfl

theorem onChart_settleTimers (w : World) (job : RenderJob) (path : String) (loadable : Bool) :
    (onChartImageGenerated w job path loadable).settleTimers =
      if w.widget.pendingChartRequest then w.settleTimers ++ [w.now + 100]
      else w.settleTimers := by
  unfold onChartImageGenerated
  split <;> rfl

theorem onChart_now (w : World) (job : RenderJob) (path : String) (loadable : Bool) :
    (onChartImageGenerated w job path loadable).now = w.now := by
  unfold onChartImageGenerated
  split <;> rfl

theorem coherent_finished {w : World} (h : Coherent w) (i : Nat) (job : RenderJob)
    (hjob : w.jobs.get? i = some job) (path : String) (loadable : Bool) :
    Coherent (onChartImageGenerated { w with jobs := w.jobs.eraseIdx i } job path loadable) := by
  obtain ⟨hp, hc⟩ := h
  rcases hc with ⟨_, hj, _⟩ | ⟨_, j, hj, hs, hlt⟩
  · rw [hj] at hjob
    simp at hjob
  · rw [hj] at hjob
    cases i with
    | zero =>
        have hjj : j = job := by simpa using hjob
        subst hjj
        have hseqs : deliveredSeqs
            (onChartImageGenerated { w with jobs := w.jobs.eraseIdx 0 } j path loadable) =
            deliveredSeqs w ++ [j.seq] := by
          simp [deliveredSeqs, onChart_delivered]
        refine ⟨?_, Or.inl ⟨onChart_inProgress _ _ _ _, ?_, ?_⟩⟩
        · rw [hseqs, List.pairwise_append]
          refine ⟨hp, List.pairwise_singleton _ _, ?_⟩
          intro a ha b hb
          have hb1 : b = j.seq := by simpa using hb
          rw [hb1, hs]
          exact hlt a ha
        · rw [onChart_jobs, hj]
          rfl
        · intro s hs1
          rw [hseqs] at hs1
          rw [onChart_count]
          rcases List.mem_append.1 hs1 with h1 | h1
          · exact Nat.le_of_lt (hlt s h1)
          · have : s = j.seq := by simpa using h1
            rw [this, hs]
    | succ n => simp at hjob

theorem coherent_generateChartImage {w : World} (h : Coherent w) :
    Coherent (generateChartImage w) := by
  unfold generateChartImage
  split
  · exact h
  · exact h

theorem coherent_step {w : World} (h : Coherent w) (e : Event) : Coherent (step w e) := by
  cases e with
  | mutate m => exact coherent_mutate m h
  | requestDebounced => exact coherent_generateChartImage h
  | elapse dt => exact h
  | debounceFires =>
      show Coherent (debounceTimeout w)
      unfold debounceTimeout
      split
      · exact h
      · split
        · exact h
        · exact h
  | settleFires i =>
      show Coherent (match w.settleTimers.get? i with
        | none => w
        | some deadline =>
            if deadline ≤ w.now then
              triggerChartGeneration { w with settleTimers := w.settleTimers.eraseIdx i }
            else w)
      split
      · exact h
      · split
        · exact coherent_trigger h
        · exact h
  | finished i outcome loadable =>
      show Coherent (match w.jobs.get? i with
        | none => w
        | some job =>
            onChartImageGenerated { w with jobs := w.jobs.eraseIdx i } job
              (generateChartResult outcome) loadable)
      split
      · exact h
      · next job hjob => exact coherent_finished h i job hjob _ _

theorem coherent_run {w : World} (h : Coherent w) (events : List Event) :
    Coherent (run w events) := by
  induction events generalizing w with
  | nil => exact h
  | cons e es ih => exact ih (coherent_step h e)

theorem coherent_init (width height : Int) : Coherent (World.init width height) := by
  refine ⟨?_, Or.inl ⟨rfl, rfl, ?_⟩⟩
  · simp [deliveredSeqs, World.init]
  · intro s hs
    simp [deliveredSeqs, World.init] at hs

/-! ## The dispatcher -/

/-- C1 (at most one in flight). In every world reached from the freshly
constructed widget by any sequence of events (mutator calls, settle-timer
firings, job completions, debounce requests, time passing), the number of jobs
dispatched and not yet completed is at most 1, and it is 1 exactly when
`chartGenerationInProgress` is true. -/
theorem at_most_one_in_flight (width height : Int) (events : List Event) :
    inFlight (run (World.init width height) events) ≤ 1 ∧
    (inFlight (run (World.init width height) events) = 1 ↔
      (run (World.init width height) events).widget.chartGenerationInProgress = true) := by
  have h := coherent_run (coherent_init width height) events
  obtain ⟨_, hc⟩ := h
  rcases hc with ⟨hf, hj, _⟩ | ⟨ht, j, hj, _, _⟩
  · simp [inFlight, hj, hf]
  · simp [inFlight, hj, ht]

/-- C2 (submit while in flight). When a render is in flight,
`triggerChartGeneration` sets the pending-request flag and changes nothing else:
no job is added, the in-flight flag stays true, and the per-element and global
request counters keep their values. -/
theorem submit_while_in_flight (w : World)
    (h : w.widget.chartGenerationInProgress = true) :
    (triggerChartGeneration w).widget.pendingChartRequest = true ∧
    (triggerChartGeneration w).jobs = w.jobs ∧
    (triggerChartGeneration w).widget.chartGenerationInProgress = true ∧
    (triggerChartGeneration w).widget.chartRequestCount = w.widget.chartRequestCount ∧
    (triggerChartGeneration w).s_totalRequestCount = w.s_totalRequestCount ∧
    triggerChartGeneration w =
      { w with widget := { w.widget with pendingChartRequest := true } } := by
  rw [trigger_in_flight w h]
  exact ⟨rfl, rfl, h, rfl, rfl, rfl⟩

/-- Witness of C2: after one `setTitle` on the fresh widget a render is in flight,
and a further `triggerChartGeneration` only sets the pending flag. -/
theorem submit_while_in_flight_witness :
    (run (World.init 640 480) [.mutate (.setTitle "a")]).widget.chartGenerationInProgress
      = true ∧
    (triggerChartGeneration
      (run (World.init 640 480) [.mutate (.setTitle "a")])).widget.pendingChartRequest
      = true ∧
    (triggerChartGeneration (run (World.init 640 480) [.mutate (.setTitle "a")])).jobs =
      (run (World.init 640 480) [.mutate (.setTitle "a")]).jobs :=
  ⟨by decide,
   (submit_while_in_flight (run (World.init 640 480) [.mutate (.setTitle "a")])
      (by decide)).1,
   (submit_while_in_flight (run (World.init 640 480) [.mutate (.setTitle "a")])
      (by decide)).2.1⟩

/-- C3 (completion). `onChartImageGenerated` always leaves
`chartGenerationInProgress` false and the pending flag false. If the pending
flag was set it schedules exactly one settle timer, due 100 ms later, and
otherwise none; the timer, once `dt` milliseconds have passed, calls
`triggerChartGeneration` if `dt` is at least 100 and does nothing before. -/
theorem completion_clears_and_reschedules (w : World) (job : RenderJob) (path : String)
    (loadable : Bool) (dt : Nat) :
    (onChartImageGenerated w job path loadable).widget.chartGenerationInProgress = false ∧
    (onChartImageGenerated w job path loadable).widget.pendingChartRequest = false ∧
    (onChartImageGenerated w job path loadable).settleTimers =
      (if w.widget.pendingChartRequest then w.settleTimers ++ [w.now + 100]
       else w.settleTimers) ∧
    (onChartImageGenerated w job path loadable).jobs = w.jobs ∧
    (if w.widget.pendingChartRequest then
      run (onChartImageGenerated w job path loadable)
          [.elapse dt, .settleFires w.settleTimers.length] =
        (if 100 ≤ dt then
          triggerChartGeneration
            { step (onChartImageGenerated w job path loadable) (.elapse dt) with
              settleTimers := w.settleTimers }
         else step (onChartImageGenerated w job path loadable) (.elapse dt))
     else
      run (onChartImageGenerated w job path loadable)
          [.elapse dt, .settleFires w.settleTimers.length] =
        step (onChartImageGenerated w job path loadable) (.elapse dt)) := by
  refine ⟨onChart_inProgress _ _ _ _, onChart_pending _ _ _ _, onChart_settleTimers _ _ _ _,
    onChart_jobs _ _ _ _, ?_⟩
  by_cases hp : w.widget.pendingChartRequest = true
  · simp only [hp, if_true, run, List.foldl, step, onChart_settleTimers, onChart_now]
    simp
    by_cases hdt : 100 ≤ dt
    · simp [hdt, List.eraseIdx_append_of_length_le]
    · simp [hdt]
  · have hp1 : w.widget.pendingChartRequest = false := by simpa using hp
    simp only [hp1, run, List.foldl, step, onChart_settleTimers, onChart_now]
    simp

theorem parseChartPath_missing (output : String) (h : MissingMarker output) :
    parseChartPath output = "" := by
  unfold parseChartPath
  have hfind : (splitLines output.toList).find?
      (fun line => (indexOf chartMarker line).isSome) = none := by
    rw [List.find?_eq_none]
    intro line hline
    simp [h line hline]
  rw [hfind]

theorem failure_not_shown (outcome : JobOutcome) (loadable : Bool)
    (h : RenderFailure outcome loadable) :
    (decide (generateChartResult outcome ≠ "") && loadable) = false := by
  rcases h with h | h | ⟨output, h, hm⟩ | h
  · subst h; rfl
  · subst h; rfl
  · subst h
    simp [generateChartResult, parseChartPath_missing output hm]
  · subst h; simp

theorem onChart_pixmap (w : World) (job : RenderJob) (path : String) (loadable : Bool) :
    (onChartImageGenerated w job path loadable).widget.chartLabelPixmap =
      if (decide (path ≠ "") && loadable) = true then some path
      else w.widget.chartLabelPixmap := by
  unfold onChartImageGenerated
  split <;> rfl

/-- C4 (failure recovery). When the one job in flight ends in failure (timeout,
start error, no marker line, or an image that cannot be loaded),
`onChartImageGenerated` still clears the in-flight state (flag false, no job
left), still handles a pending request (flag cleared, one settle timer due in
100 ms if it was set), shows no image, and a following
`triggerChartGeneration` dispatches a new job with the next request number.
In each of these cases `generateChart` has returned the empty path or the image
is unloadable, and the result is logged as not shown. -/
theorem failure_recovery (w : World) (job : RenderJob) (outcome : JobOutcome)
    (loadable : Bool) (hjob : w.jobs = [job]) (hfail : RenderFailure outcome loadable) :
    (step w (.finished 0 outcome loadable)).widget.chartGenerationInProgress = false ∧
    (step w (.finished 0 outcome loadable)).jobs = [] ∧
    (step w (.finished 0 outcome loadable)).widget.pendingChartRequest = false ∧
    (step w (.finished 0 outcome loadable)).settleTimers =
      (if w.widget.pendingChartRequest then w.settleTimers ++ [w.now + 100]
       else w.settleTimers) ∧
    (step w (.finished 0 outcome loadable)).widget.chartLabelPixmap =
      w.widget.chartLabelPixmap ∧
    (triggerChartGeneration (step w (.finished 0 outcome loadable))).jobs =
      [renderJobOf (step w (.finished 0 outcome loadable)).widget
        (w.widget.chartRequestCount + 1)] ∧
    (triggerChartGeneration
      (step w (.finished 0 outcome loadable))).widget.chartGenerationInProgress = true ∧
    (triggerChartGeneration
      (step w (.finished 0 outcome loadable))).widget.chartRequestCount =
        w.widget.chartRequestCount + 1 ∧
    (generateChartResult outcome = "" ∨ loadable = false) ∧
    (step w (.finished 0 outcome loadable)).delivered =
      w.delivered ++ [{ job := job, path := generateChartResult outcome, shown := false }] := by
  have hstep : step w (.finished 0 outcome loadable) =
      onChartImageGenerated { w with jobs := [] } job (generateChartResult outcome)
        loadable := by
    simp [step, hjob]
  have hidle := onChart_inProgress { w with jobs := [] } job (generateChartResult outcome)
    loadable
  rw [hstep]
  refine ⟨hidle, by rw [onChart_jobs], onChart_pending _ _ _ _, by rw [onChart_settleTimers],
    ?_, ?_, ?_, ?_, ?_, ?_⟩
  · rw [onChart_pixmap, failure_not_shown outcome loadable hfail]
    simp
  · rw [trigger_idle_jobs _ hidle, onChart_jobs, onChart_count]
    rfl
  · rw [trigger_idle_widget _ hidle]
  · rw [trigger_idle_widget _ hidle]
    show (onChartImageGenerated _ _ _ _).widget.chartRequestCount + 1 = _
    rw [onChart_count]
  · have := failure_not_shown outcome loadable hfail
    cases loadable with
    | false => exact Or.inr rfl
    | true => left; simpa using this
  · rw [onChart_delivered, failure_not_shown outcome loadable hfail]

/-- Witness of C4: two `setTitle` calls leave one job in flight and a pending
request; the job times out. -/
theorem failure_recovery_witness :
    (run (World.init 640 480) [.mutate (.setTitle "a"), .mutate (.setTitle "b")]).jobs =
      [renderJobOf (run (World.init 640 480) [.mutate (.setTitle "a")]).widget 1] ∧
    RenderFailure JobOutcome.timedOut true ∧
    (step (run (World.init 640 480) [.mutate (.setTitle "a"), .mutate (.setTitle "b")])
      (.finished 0 JobOutcome.timedOut true)).jobs = [] :=
  ⟨by decide, Or.inl rfl,
   (failure_recovery
      (run (World.init 640 480) [.mutate (.setTitle "a"), .mutate (.setTitle "b")])
      (renderJobOf (run (World.init 640 480) [.mutate (.setTitle "a")]).widget 1)
      JobOutcome.timedOut true (by decide) (Or.inl rfl)).2.1⟩

/-- C5 (delivery order). With the value of `chartRequestCount` at dispatch as the
sequence id of a render, the results handled by successive
`onChartImageGenerated` calls have strictly increasing sequence ids, whatever
the sequence of events: no result is handled after the result of a newer
request. -/
theorem delivery_order (width height : Int) (events : List Event) :
    (deliveredSeqs (run (World.init width height) events)).Pairwise (fun a b => a < b) :=
  (coherent_run (coherent_init width height) events).1

/-! ## Coalescing of requests -/

theorem renderJobOf_trigger (w : World) (seq : Nat) :
    renderJobOf (triggerChartGeneration w).widget seq = renderJobOf w.widget seq := by
  unfold triggerChartGeneration
  split <;> rfl

theorem renderJobOf_onChart (w : World) (job : RenderJob) (path : String) (loadable : Bool)
    (seq : Nat) :
    renderJobOf (onChartImageGenerated w job path loadable).widget seq =
      renderJobOf w.widget seq := by
  unfold onChartImageGenerated
  split <;> rfl

theorem always_shape (m : Mutator) (h : m.alwaysSubmits = true) (w : World) :
    ∃ w1, SameControl w1 w ∧ m.apply w = triggerChartGeneration w1 := by
  cases m with
  | setTitle t =>
      exact ⟨{ w with widget := { w.widget with title := t } },
        ⟨rfl, rfl, rfl, rfl, rfl, rfl, rfl, rfl⟩, rfl⟩
  | setDataSeries s =>
      exact ⟨{ w with
          widget :=
            { w.widget with
              dataSeries := s
              seriesVisibility := initVisibility s w.widget.seriesVisibility } },
        ⟨rfl, rfl, rfl, rfl, rfl, rfl, rfl, rfl⟩, rfl⟩
  | toggleSeriesVisibility n v => simp [Mutator.alwaysSubmits] at h
  | setXAxisLabel l =>
      exact ⟨{ w with widget := { w.widget with xAxisLabel := l } },
        ⟨rfl, rfl, rfl, rfl, rfl, rfl, rfl, rfl⟩, rfl⟩
  | setYAxisLabel l =>
      exact ⟨{ w with widget := { w.widget with yAxisLabel := l } },
        ⟨rfl, rfl, rfl, rfl, rfl, rfl, rfl, rfl⟩, rfl⟩
  | setGraphType t =>
      exact ⟨{ w with widget := { w.widget with graphType := t } },
        ⟨rfl, rfl, rfl, rfl, rfl, rfl, rfl, rfl⟩, rfl⟩
  | setGraphColor c =>
      exact ⟨{ w with widget := { w.widget with graphColor := c } },
        ⟨rfl, rfl, rfl, rfl, rfl, rfl, rfl, rfl⟩, rfl⟩
  | setInterpolate e =>
      exact ⟨{ w with widget := { w.widget with interpolate := e } },
        ⟨rfl, rfl, rfl, rfl, rfl, rfl, rfl, rfl⟩, rfl⟩
  | updateChart =>
      exact ⟨w, ⟨rfl, rfl, rfl, rfl, rfl, rfl, rfl, rfl⟩, rfl⟩
  | resizeEvent width height => simp [Mutator.alwaysSubmits] at h

/-- An unconditional mutator called on an idle widget dispatches a job at once. -/
theorem submit_idle (m : Mutator) (hm : m.alwaysSubmits = true) (w : World)
    (hidle : w.widget.chartGenerationInProgress = false) :
    (m.apply w).jobs = w.jobs ++ [renderJobOf (m.apply w).widget (w.widget.chartRequestCount + 1)] ∧
    (m.apply w).widget.chartGenerationInProgress = true ∧
    (m.apply w).widget.chartRequestCount = w.widget.chartRequestCount + 1 ∧
    (m.apply w).widget.pendingChartRequest = false ∧
    (m.apply w).widget.debounceTimer = w.widget.debounceTimer ∧
    (m.apply w).delivered = w.delivered ∧
    (m.apply w).settleTimers = w.settleTimers ∧
    (m.apply w).now = w.now := by
  obtain ⟨w1, ⟨h1, _, h3, h4, h5, h6, h7, h8⟩, heq⟩ := always_shape m hm w
  have hidle1 : w1.widget.chartGenerationInProgress = false := by rw [h1, hidle]
  rw [heq]
  refine ⟨?_, ?_, ?_, ?_, ?_, ?_, ?_, ?_⟩
  · rw [trigger_idle_jobs _ hidle1, renderJobOf_trigger, h5, h3]
  · rw [trigger_idle_widget _ hidle1]
  · rw [trigger_idle_widget _ hidle1]
    show w1.widget.chartRequestCount + 1 = _
    rw [h3]
  · rw [trigger_idle_widget _ hidle1]
  · rw [trigger_debounceTimer, h4]
  · rw [trigger_delivered, h7]
  · rw [trigger_settleTimers, h6]
  · rw [trigger_now, h8]

/-- A mutator called while a render is in flight dispatches nothing. -/
theorem mutate_in_flight (m : Mutator) (w : World)
    (hbusy : w.widget.chartGenerationInProgress = true) :
    (m.apply w).jobs = w.jobs ∧
    (m.apply w).widget.chartGenerationInProgress = true ∧
    (m.apply w).widget.chartRequestCount = w.widget.chartRequestCount ∧
    (m.apply w).widget.debounceTimer = w.widget.debounceTimer ∧
    (m.apply w).delivered = w.delivered ∧
    (m.apply w).settleTimers = w.settleTimers ∧
    (m.apply w).now = w.now ∧
    (m.alwaysSubmits = true → (m.apply w).widget.pendingChartRequest = true) := by
  obtain ⟨w1, ⟨h1, _, h3, h4, h5, h6, h7, h8⟩, heq | heq⟩ := mutator_shape m w
  · have hbusy1 : w1.widget.chartGenerationInProgress = true := by rw [h1, hbusy]
    rw [heq, trigger_in_flight _ hbusy1]
    exact ⟨h5, hbusy1, h3, h4, h7, h6, h8, fun _ => rfl⟩
  · refine ⟨by rw [heq, h5], by rw [heq, h1, hbusy], by rw [heq, h3], by rw [heq, h4],
      by rw [heq, h7], by rw [heq, h6], by rw [heq, h8], ?_⟩
    intro hm
    obtain ⟨w2, ⟨g1, _, _, _, _, _, _, _⟩, heq2⟩ := always_shape m hm w
    have hbusy2 : w2.widget.chartGenerationInProgress = true := by rw [g1, hbusy]
    rw [heq2, trigger_in_flight _ hbusy2]

theorem finish_single (w : World) (job : RenderJob) (hjob : w.jobs = [job])
    (outcome : JobOutcome) (loadable : Bool) :
    step w (.finished 0 outcome loadable) =
      onChartImageGenerated { w with jobs := [] } job (generateChartResult outcome)
        loadable := by
  simp [step, hjob]

theorem fire_last (w : World) (timers : List Nat) (deadline : Nat)
    (h : w.settleTimers = timers ++ [deadline]) (hd : deadline ≤ w.now) :
    step w (.settleFires timers.length) =
      triggerChartGeneration { w with settleTimers := timers } := by
  simp [step, h, hd, List.eraseIdx_append_of_length_le]

/-- C6, counterexample. Three titles are set on the fresh widget before any
result is handled and every render succeeds. When the pipeline has come to rest
two results have been delivered and shown, not one: the first is the render of
request 1 (title "one", sequence id 1), the second the render of the latest
state (title "three"), which carries sequence id 2; no job ever has sequence
id 3. -/
theorem supersession_counterexample :
    threeTitles.delivered.length = 2 ∧
    threeTitles.delivered.map (fun d => d.job.title) = ["one", "three"] ∧
    threeTitles.delivered.map (fun d => d.shown) = [true, true] ∧
    deliveredSeqs threeTitles = [1, 2] ∧
    ¬ (deliveredSeqs threeTitles = [3]) ∧
    threeTitles.jobs = [] ∧ threeTitles.settleTimers = [] ∧
    threeTitles.widget.pendingChartRequest = false ∧
    threeTitles.widget.chartGenerationInProgress = false := by
  decide

/-- C6, amended. Three requests made on an idle widget before any result is
handled dispatch one job only, for the first request (sequence id `c + 1`); the
other two set the pending flag. The result of that job is delivered. After the
settle delay exactly one further job is dispatched, with sequence id `c + 2`,
rendering the widget as it is after the third request, and its result is
delivered as well. Then nothing is left in flight or scheduled: exactly two
results have been delivered, with sequence ids `c + 1` and `c + 2` in this
order. -/
theorem supersession_amended (w : World) (m1 m2 m3 : Mutator) (o1 o2 : JobOutcome)
    (l1 l2 : Bool)
    (hidle : w.widget.chartGenerationInProgress = false) (hjobs : w.jobs = [])
    (h1 : m1.alwaysSubmits = true) (h2 : m2.alwaysSubmits = true)
    (h3 : m3.alwaysSubmits = true) :
    (afterRequests w m1 m2 m3).jobs =
      [renderJobOf (m1.apply w).widget (w.widget.chartRequestCount + 1)] ∧
    (afterRequests w m1 m2 m3).widget.pendingChartRequest = true ∧
    deliveredSeqs (afterFirstResult w m1 m2 m3 o1 l1) =
      deliveredSeqs w ++ [w.widget.chartRequestCount + 1] ∧
    (afterFirstResult w m1 m2 m3 o1 l1).jobs = [] ∧
    (afterSettle w m1 m2 m3 o1 l1).jobs =
      [renderJobOf (afterRequests w m1 m2 m3).widget (w.widget.chartRequestCount + 2)] ∧
    deliveredSeqs (afterSecondResult w m1 m2 m3 o1 l1 o2 l2) =
      deliveredSeqs w ++ [w.widget.chartRequestCount + 1, w.widget.chartRequestCount + 2] ∧
    (afterSecondResult w m1 m2 m3 o1 l1 o2 l2).jobs = [] ∧
    (afterSecondResult w m1 m2 m3 o1 l1 o2 l2).settleTimers = w.settleTimers ∧
    (afterSecondResult w m1 m2 m3 o1 l1 o2 l2).widget.pendingChartRequest = false ∧
    (afterSecondResult w m1 m2 m3 o1 l1 o2 l2).widget.chartGenerationInProgress = false ∧
    (run w [.mutate m1, .mutate m2]).jobs = (afterRequests w m1 m2 m3).jobs ∧
    (run w [.mutate m1, .mutate m2]).widget.pendingChartRequest = true := by
  -- the three requests
  obtain ⟨a1, a2, a3, _, _, a6, a7, a8⟩ := submit_idle m1 h1 w hidle
  obtain ⟨b1, b2, b3, _, b5, b6, b7, b8⟩ := mutate_in_flight m2 (m1.apply w) a2
  obtain ⟨c1, c2, c3, _, c5, c6, c7, c8⟩ := mutate_in_flight m3 (m2.apply (m1.apply w)) b2
  have e3 : afterRequests w m1 m2 m3 = m3.apply (m2.apply (m1.apply w)) := rfl
  have j3 : (afterRequests w m1 m2 m3).jobs =
      [renderJobOf (m1.apply w).widget (w.widget.chartRequestCount + 1)] := by
    rw [e3, c1, b1, a1, hjobs]; rfl
  have p3 : (afterRequests w m1 m2 m3).widget.pendingChartRequest = true := by
    rw [e3]; exact c8 h3
  have n3 : (afterRequests w m1 m2 m3).now = w.now := by rw [e3, c7, b7, a8]
  have t3 : (afterRequests w m1 m2 m3).settleTimers = w.settleTimers := by
    rw [e3, c6, b6, a7]
  have d3 : (afterRequests w m1 m2 m3).delivered = w.delivered := by rw [e3, c5, b5, a6]
  have k3 : (afterRequests w m1 m2 m3).widget.chartRequestCount =
      w.widget.chartRequestCount + 1 := by rw [e3, c3, b3, a3]
  -- the first result
  have e4 : afterFirstResult w m1 m2 m3 o1 l1 =
      onChartImageGenerated { afterRequests w m1 m2 m3 with jobs := [] }
        (renderJobOf (m1.apply w).widget (w.widget.chartRequestCount + 1))
        (generateChartResult o1) l1 :=
    finish_single _ _ j3 o1 l1
  have d4 : deliveredSeqs (afterFirstResult w m1 m2 m3 o1 l1) =
      deliveredSeqs w ++ [w.widget.chartRequestCount + 1] := by
    rw [e4]
    simp [deliveredSeqs, onChart_delivered, d3, renderJobOf]
  have j4 : (afterFirstResult w m1 m2 m3 o1 l1).jobs = [] := by
    rw [e4, onChart_jobs]
  have t4 : (afterFirstResult w m1 m2 m3 o1 l1).settleTimers =
      w.settleTimers ++ [w.now + 100] := by
    rw [e4, onChart_settleTimers]
    simp [p3, t3, n3]
  have n4 : (afterFirstResult w m1 m2 m3 o1 l1).now = w.now := by
    rw [e4, onChart_now]; exact n3
  have i4 : (afterFirstResult w m1 m2 m3 o1 l1).widget.chartGenerationInProgress = false := by
    rw [e4]; exact onChart_inProgress _ _ _ _
  have k4 : (afterFirstResult w m1 m2 m3 o1 l1).widget.chartRequestCount =
      w.widget.chartRequestCount + 1 := by
    rw [e4, onChart_count]; exact k3
  have r4 : ∀ seq, renderJobOf (afterFirstResult w m1 m2 m3 o1 l1).widget seq =
      renderJobOf (afterRequests w m1 m2 m3).widget seq := by
    intro seq
    rw [e4, renderJobOf_onChart]
  -- the settle timer
  have e5 : afterSettle w m1 m2 m3 o1 l1 =
      triggerChartGeneration
        { step (afterFirstResult w m1 m2 m3 o1 l1) (.elapse 100) with
          settleTimers := w.settleTimers } := by
    show step (step (afterFirstResult w m1 m2 m3 o1 l1) (.elapse 100))
      (.settleFires w.settleTimers.length) = _
    apply fire_last _ _ (w.now + 100)
    · exact t4
    · show w.now + 100 ≤ (afterFirstResult w m1 m2 m3 o1 l1).now + 100
      rw [n4]
  have i4e : ({ step (afterFirstResult w m1 m2 m3 o1 l1) (.elapse 100) with
      settleTimers := w.settleTimers } : World).widget.chartGenerationInProgress = false := i4
  have j5 : (afterSettle w m1 m2 m3 o1 l1).jobs =
      [renderJobOf (afterRequests w m1 m2 m3).widget (w.widget.chartRequestCount + 2)] := by
    rw [e5, trigger_idle_jobs _ i4e]
    show (afterFirstResult w m1 m2 m3 o1 l1).jobs ++
      [renderJobOf (afterFirstResult w m1 m2 m3 o1 l1).widget
        ((afterFirstResult w m1 m2 m3 o1 l1).widget.chartRequestCount + 1)] = _
    rw [j4, k4, r4]
    rfl
  have p5 : (afterSettle w m1 m2 m3 o1 l1).widget.pendingChartRequest = false := by
    rw [e5, trigger_idle_widget _ i4e]
  have t5 : (afterSettle w m1 m2 m3 o1 l1).settleTimers = w.settleTimers := by
    rw [e5, trigger_settleTimers]
  have d5 : (afterSettle w m1 m2 m3 o1 l1).delivered =
      (afterFirstResult w m1 m2 m3 o1 l1).delivered := by
    rw [e5, trigger_delivered]
    rfl
  -- the second result
  have e6 : afterSecondResult w m1 m2 m3 o1 l1 o2 l2 =
      onChartImageGenerated { afterSettle w m1 m2 m3 o1 l1 with jobs := [] }
        (renderJobOf (afterRequests w m1 m2 m3).widget (w.widget.chartRequestCount + 2))
        (generateChartResult o2) l2 :=
    finish_single _ _ j5 o2 l2
  have d6 : deliveredSeqs (afterSecondResult w m1 m2 m3 o1 l1 o2 l2) =
      deliveredSeqs w ++ [w.widget.chartRequestCount + 1, w.widget.chartRequestCount + 2] := by
    rw [e6]
    have : deliveredSeqs (afterSettle w m1 m2 m3 o1 l1) =
        deliveredSeqs w ++ [w.widget.chartRequestCount + 1] := by
      rw [← d4]
      simp [deliveredSeqs, d5]
    simp only [deliveredSeqs] at this ⊢
    simp [onChart_delivered, this, renderJobOf]
  refine ⟨j3, p3, d4, j4, j5, d6, ?_, ?_, ?_, ?_, ?_, ?_⟩
  · rw [e6, onChart_jobs]
  · rw [e6, onChart_settleTimers]
    simp [p5, t5]
  · rw [e6]; exact onChart_pending _ _ _ _
  · rw [e6]; exact onChart_inProgress _ _ _ _
  · rw [e3, c1]; rfl
  · exact b8 h2

/-- Witness of the amended C6 on the fresh widget with three title changes. -/
theorem supersession_amended_witness :
    (World.init 640 480).widget.chartGenerationInProgress = false ∧
    (World.init 640 480).jobs = [] ∧
    deliveredSeqs threeTitles = deliveredSeqs (World.init 640 480) ++ [0 + 1, 0 + 2] :=
  ⟨rfl, rfl,
   (supersession_amended (World.init 640 480)
      (Mutator.setTitle "one") (Mutator.setTitle "two") (Mutator.setTitle "three")
      (JobOutcome.exited "Chart generated: /tmp/a.png")
      (JobOutcome.exited "Chart generated: /tmp/b.png") true true rfl rfl rfl rfl rfl).2.2.2.2.2.1⟩

/-! ## Debouncing -/

/-- Debounced requests, time passing and the debounce timer timing out never
reach the dispatch logic: whatever the pauses, a burst of `generateChartImage`
calls followed by the window elapsing leaves the jobs, the flags, the request
counter and the scheduled settle timers as they were. -/
theorem debounce_burst_inert (gaps : List Nat) (w : World) :
    (run w (debounceBurst gaps)).jobs = w.jobs ∧
    (run w (debounceBurst gaps)).widget.chartRequestCount = w.widget.chartRequestCount ∧
    (run w (debounceBurst gaps)).widget.chartGenerationInProgress =
      w.widget.chartGenerationInProgress ∧
    (run w (debounceBurst gaps)).widget.pendingChartRequest = w.widget.pendingChartRequest ∧
    (run w (debounceBurst gaps)).settleTimers = w.settleTimers ∧
    (run w (debounceBurst gaps)).delivered = w.delivered := by
  induction gaps generalizing w with
  | nil =>
      have e : run w (debounceBurst []) = debounceTimeout (step w (.elapse 500)) := rfl
      rw [e]
      unfold debounceTimeout
      split
      · exact ⟨rfl, rfl, rfl, rfl, rfl, rfl⟩
      · split
        · exact ⟨rfl, rfl, rfl, rfl, rfl, rfl⟩
        · exact ⟨rfl, rfl, rfl, rfl, rfl, rfl⟩
  | cons gap rest ih =>
      have h := ih (step (generateChartImage w) (.elapse gap))
      have hg : (generateChartImage w).jobs = w.jobs ∧
          (generateChartImage w).widget.chartRequestCount = w.widget.chartRequestCount ∧
          (generateChartImage w).widget.chartGenerationInProgress =
            w.widget.chartGenerationInProgress ∧
          (generateChartImage w).widget.pendingChartRequest = w.widget.pendingChartRequest ∧
          (generateChartImage w).settleTimers = w.settleTimers ∧
          (generateChartImage w).delivered = w.delivered := by
        unfold generateChartImage
        split
        · exact ⟨rfl, rfl, rfl, rfl, rfl, rfl⟩
        · exact ⟨rfl, rfl, rfl, rfl, rfl, rfl⟩
      obtain ⟨g1, g2, g3, g4, g5, g6⟩ := hg
      obtain ⟨h1, h2, h3, h4, h5, h6⟩ := h
      have e : run w (debounceBurst (gap :: rest)) =
          run (step (generateChartImage w) (.elapse gap)) (debounceBurst rest) := rfl
      rw [e]
      exact ⟨h1.trans g1, h2.trans g2, h3.trans g3, h4.trans g4, h5.trans g5, h6.trans g6⟩

/-- C7, the code at the failing input. The widget has data and is idle.
`generateChartImage` is called once, 500 ms pass and the debounce timer times
out: the timer is inactive again and `pendingDebounceRequest` is still set, but
no job has been dispatched and the request counter has not moved, so
`triggerChartGeneration` was not called. The same holds for three calls 100 ms
apart. -/
theorem debounce_never_triggers :
    idleWithData.widget.dataSeries.isEmpty = false ∧
    idleWithData.widget.chartGenerationInProgress = false ∧
    idleWithData.widget.chartRequestCount = 1 ∧
    (run idleWithData [.requestDebounced]).widget.debounceTimer = some 500 ∧
    (run idleWithData (debounceBurst [0])).jobs = [] ∧
    (run idleWithData (debounceBurst [0])).widget.chartRequestCount = 1 ∧
    (run idleWithData (debounceBurst [0])).widget.chartGenerationInProgress = false ∧
    (run idleWithData (debounceBurst [0])).widget.debounceTimer = none ∧
    (run idleWithData (debounceBurst [0])).widget.pendingDebounceRequest = true ∧
    (run idleWithData (debounceBurst [100, 100, 0])).jobs = [] ∧
    (run idleWithData (debounceBurst [100, 100, 0])).widget.chartRequestCount = 1 := by
  decide

theorem burst_in_flight (burst : List (Nat × Mutator)) (w : World)
    (hbusy : w.widget.chartGenerationInProgress = true) :
    (run w (mutationBurst burst)).jobs = w.jobs ∧
    (run w (mutationBurst burst)).widget.chartGenerationInProgress = true ∧
    (run w (mutationBurst burst)).widget.chartRequestCount = w.widget.chartRequestCount ∧
    (run w (mutationBurst burst)).widget.debounceTimer = w.widget.debounceTimer := by
  induction burst generalizing w with
  | nil => exact ⟨rfl, hbusy, rfl, rfl⟩
  | cons head rest ih =>
      obtain ⟨gap, m⟩ := head
      have hbusy1 : (step w (.elapse gap)).widget.chartGenerationInProgress = true := hbusy
      obtain ⟨m1, m2, m3, m4, _, _, _, _⟩ := mutate_in_flight m (step w (.elapse gap)) hbusy1
      obtain ⟨h1, h2, h3, h4⟩ := ih (m.apply (step w (.elapse gap))) m2
      have e : run w (mutationBurst ((gap, m) :: rest)) =
          run (m.apply (step w (.elapse gap))) (mutationBurst rest) := rfl
      rw [e]
      exact ⟨h1.trans m1, h2, h3.trans m3, h4.trans m4⟩

/-- C8, counterexample. On an idle widget with data, `setTitle` dispatches a job
at once: no time has passed and the debounce timer was never started. And when
a render completes quickly, two jobs are dispatched within 100 ms: the request
counter goes from 1 to 3 while the clock advances by 100 ms. -/
theorem settle_period_counterexample :
    idleWithData.widget.dataSeries.isEmpty = false ∧
    idleWithData.jobs = [] ∧
    (step idleWithData (.mutate (.setTitle "a"))).jobs.length = 1 ∧
    (step idleWithData (.mutate (.setTitle "a"))).now = idleWithData.now ∧
    (step idleWithData (.mutate (.setTitle "a"))).widget.debounceTimer = none ∧
    idleWithData.widget.chartRequestCount = 1 ∧
    (run idleWithData
      [.mutate (.setTitle "a"), .elapse 50,
       .finished 0 (.exited "Chart generated: /tmp/y.png") true, .elapse 50,
       .mutate (.setTitle "b")]).widget.chartRequestCount = 3 ∧
    (run idleWithData
      [.mutate (.setTitle "a"), .elapse 50,
       .finished 0 (.exited "Chart generated: /tmp/y.png") true, .elapse 50,
       .mutate (.setTitle "b")]).now = idleWithData.now + 100 := by
  decide

theorem submits_shape (m : Mutator) (w : World) :
    ∃ w1, SameControl w1 w ∧
      m.apply w = (if m.submits w then triggerChartGeneration w1 else w1) := by
  cases m with
  | setTitle t =>
      exact ⟨{ w with widget := { w.widget with title := t } },
        ⟨rfl, rfl, rfl, rfl, rfl, rfl, rfl, rfl⟩, rfl⟩
  | setDataSeries s =>
      exact ⟨{ w with
          widget :=
            { w.widget with
              dataSeries := s
              seriesVisibility := initVisibility s w.widget.seriesVisibility } },
        ⟨rfl, rfl, rfl, rfl, rfl, rfl, rfl, rfl⟩, rfl⟩
  | toggleSeriesVisibility n v =>
      by_cases hc : w.widget.dataSeries.contains n = true
      · refine ⟨{ w with
            widget :=
              { w.widget with
                seriesVisibility := QMap.insert w.widget.seriesVisibility n v } },
          ⟨rfl, rfl, rfl, rfl, rfl, rfl, rfl, rfl⟩, ?_⟩
        simp only [Mutator.apply, toggleSeriesVisibility, Mutator.submits, hc, if_true]
      · refine ⟨w, ⟨rfl, rfl, rfl, rfl, rfl, rfl, rfl, rfl⟩, ?_⟩
        simp only [Mutator.apply, toggleSeriesVisibility, Mutator.submits, hc]
        rfl
  | setXAxisLabel l =>
      exact ⟨{ w with widget := { w.widget with xAxisLabel := l } },
        ⟨rfl, rfl, rfl, rfl, rfl, rfl, rfl, rfl⟩, rfl⟩
  | setYAxisLabel l =>
      exact ⟨{ w with widget := { w.widget with yAxisLabel := l } },
        ⟨rfl, rfl, rfl, rfl, rfl, rfl, rfl, rfl⟩, rfl⟩
  | setGraphType t =>
      exact ⟨{ w with widget := { w.widget with graphType := t } },
        ⟨rfl, rfl, rfl, rfl, rfl, rfl, rfl, rfl⟩, rfl⟩
  | setGraphColor c =>
      exact ⟨{ w with widget := { w.widget with graphColor := c } },
        ⟨rfl, rfl, rfl, rfl, rfl, rfl, rfl, rfl⟩, rfl⟩
  | setInterpolate e =>
      exact ⟨{ w with widget := { w.widget with interpolate := e } },
        ⟨rfl, rfl, rfl, rfl, rfl, rfl, rfl, rfl⟩, rfl⟩
  | updateChart =>
      exact ⟨w, ⟨rfl, rfl, rfl, rfl, rfl, rfl, rfl, rfl⟩, rfl⟩
  | resizeEvent width height =>
      refine ⟨{ w with widget := { w.widget with width := width, height := height } },
          ⟨rfl, rfl, rfl, rfl, rfl, rfl, rfl, rfl⟩, ?_⟩
      by_cases hc : w.widget.dataSeries.isEmpty = true
      · simp [Mutator.apply, resizeEvent, Mutator.submits, hc]
      · simp [Mutator.apply, resizeEvent, Mutator.submits, hc]

/-- A mutator called on an idle widget: if it reaches `triggerChartGeneration` it
dispatches a job at once, otherwise it leaves the dispatch logic as it was. -/
theorem mutate_idle (m : Mutator) (w : World)
    (hidle : w.widget.chartGenerationInProgress = false) :
    (m.apply w).widget.debounceTimer = w.widget.debounceTimer ∧
    (m.apply w).now = w.now ∧
    (if m.submits w then
      (m.apply w).jobs =
        w.jobs ++ [renderJobOf (m.apply w).widget (w.widget.chartRequestCount + 1)] ∧
      (m.apply w).widget.chartGenerationInProgress = true ∧
      (m.apply w).widget.chartRequestCount = w.widget.chartRequestCount + 1
     else
      (m.apply w).jobs = w.jobs ∧
      (m.apply w).widget.chartGenerationInProgress = false ∧
      (m.apply w).widget.chartRequestCount = w.widget.chartRequestCount) := by
  obtain ⟨w1, ⟨h1, _, h3, h4, h5, _, _, h8⟩, heq⟩ := submits_shape m w
  have hidle1 : w1.widget.chartGenerationInProgress = false := by rw [h1, hidle]
  by_cases hs : m.submits w = true
  · rw [if_pos hs] at heq
    rw [if_pos hs, heq]
    refine ⟨by rw [trigger_debounceTimer, h4], by rw [trigger_now, h8], ?_, ?_, ?_⟩
    · rw [trigger_idle_jobs _ hidle1, renderJobOf_trigger, h5, h3]
    · rw [trigger_idle_widget _ hidle1]
    · rw [trigger_idle_widget _ hidle1]
      show w1.widget.chartRequestCount + 1 = _
      rw [h3]
  · rw [if_neg hs] at heq
    rw [if_neg hs, heq]
    exact ⟨h4, h8, h5, hidle1, h3⟩

/-- A burst of mutator calls on an idle widget dispatches no job or one job. -/
theorem burst_idle (burst : List (Nat × Mutator)) (w : World)
    (hidle : w.widget.chartGenerationInProgress = false) :
    (run w (mutationBurst burst)).widget.debounceTimer = w.widget.debounceTimer ∧
    (((run w (mutationBurst burst)).jobs = w.jobs ∧
        (run w (mutationBurst burst)).widget.chartRequestCount = w.widget.chartRequestCount) ∨
      ∃ job, (run w (mutationBurst burst)).jobs = w.jobs ++ [job] ∧
        (run w (mutationBurst burst)).widget.chartRequestCount =
          w.widget.chartRequestCount + 1) := by
  induction burst generalizing w with
  | nil => exact ⟨rfl, Or.inl ⟨rfl, rfl⟩⟩
  | cons head rest ih =>
      obtain ⟨gap, m⟩ := head
      have e : run w (mutationBurst ((gap, m) :: rest)) =
          run (m.apply (step w (.elapse gap))) (mutationBurst rest) := rfl
      have hidle1 : (step w (.elapse gap)).widget.chartGenerationInProgress = false := hidle
      obtain ⟨a1, _, a3⟩ := mutate_idle m (step w (.elapse gap)) hidle1
      rw [e]
      by_cases hs : m.submits (step w (.elapse gap)) = true
      · rw [if_pos hs] at a3
        obtain ⟨b1, b2, b3⟩ := a3
        obtain ⟨c1, _, c3, c4⟩ := burst_in_flight rest (m.apply (step w (.elapse gap))) b2
        exact ⟨c4.trans a1, Or.inr ⟨_, c1.trans b1, c3.trans b3⟩⟩
      · rw [if_neg hs] at a3
        obtain ⟨b1, b2, b3⟩ := a3
        obtain ⟨c1, c2⟩ := ih (m.apply (step w (.elapse gap))) b2
        refine ⟨c1.trans a1, ?_⟩
        rcases c2 with ⟨d1, d2⟩ | ⟨job, d1, d2⟩
        · exact Or.inl ⟨d1.trans b1, d2.trans b3⟩
        · refine Or.inr ⟨job, ?_, ?_⟩
          · rw [d1, b1]
            rfl
          · rw [d2, b3]
            rfl

/-- C8, amended. A burst of N = 1 + `rest.length` mutator calls on an idle
widget, whatever the mutators and the pauses and with no render completing in
between, dispatches at most one job, and no call starts the debounce timer.
If the first call reaches `triggerChartGeneration` (every setter does; a resize
does when the widget has data; a visibility toggle does when the widget has the
named series), it dispatches the job at once, at the instant of the call, and
the later calls dispatch nothing, so the burst dispatches exactly one job;
otherwise the first call dispatches nothing and leaves the widget idle. -/
theorem mutation_burst_one_dispatch (w : World) (gap : Nat) (m : Mutator)
    (rest : List (Nat × Mutator)) (hidle : w.widget.chartGenerationInProgress = false) :
    (((run w (mutationBurst ((gap, m) :: rest))).jobs = w.jobs ∧
        (run w (mutationBurst ((gap, m) :: rest))).widget.chartRequestCount =
          w.widget.chartRequestCount) ∨
      ∃ job, (run w (mutationBurst ((gap, m) :: rest))).jobs = w.jobs ++ [job] ∧
        (run w (mutationBurst ((gap, m) :: rest))).widget.chartRequestCount =
          w.widget.chartRequestCount + 1) ∧
    (run w (mutationBurst ((gap, m) :: rest))).widget.debounceTimer =
      w.widget.debounceTimer ∧
    (if m.submits w then
      (run w [.elapse gap, .mutate m]).jobs =
        w.jobs ++ [renderJobOf (run w [.elapse gap, .mutate m]).widget
          (w.widget.chartRequestCount + 1)] ∧
      (run w [.elapse gap, .mutate m]).now = w.now + gap ∧
      (run w (mutationBurst ((gap, m) :: rest))).jobs =
        (run w [.elapse gap, .mutate m]).jobs ∧
      (run w (mutationBurst ((gap, m) :: rest))).widget.chartRequestCount =
        w.widget.chartRequestCount + 1
     else
      (run w [.elapse gap, .mutate m]).jobs = w.jobs ∧
      (run w [.elapse gap, .mutate m]).widget.chartGenerationInProgress = false ∧
      (run w [.elapse gap, .mutate m]).widget.chartRequestCount =
        w.widget.chartRequestCount) := by
  obtain ⟨t1, t2⟩ := burst_idle ((gap, m) :: rest) w hidle
  refine ⟨t2, t1, ?_⟩
  have e1 : run w [.elapse gap, .mutate m] = m.apply (step w (.elapse gap)) := rfl
  have e2 : run w (mutationBurst ((gap, m) :: rest)) =
      run (m.apply (step w (.elapse gap))) (mutationBurst rest) := rfl
  have hidle1 : (step w (.elapse gap)).widget.chartGenerationInProgress = false := hidle
  have hs : m.submits (step w (.elapse gap)) = m.submits w := by
    cases m <;> rfl
  obtain ⟨_, a2, a3⟩ := mutate_idle m (step w (.elapse gap)) hidle1
  rw [hs] at a3
  rw [e1, e2]
  by_cases hsub : m.submits w = true
  · rw [if_pos hsub] at a3
    rw [if_pos hsub]
    obtain ⟨b1, b2, b3⟩ := a3
    obtain ⟨c1, _, c3, _⟩ := burst_in_flight rest (m.apply (step w (.elapse gap))) b2
    exact ⟨b1, a2, c1, c3.trans b3⟩
  · rw [if_neg hsub] at a3
    rw [if_neg hsub]
    exact a3

/-- Witness of the amended C8: a burst on the idle widget with data that begins
with a resize, followed by a title change and a visibility toggle, dispatches
exactly one job. -/
theorem mutation_burst_one_dispatch_witness :
    idleWithData.widget.chartGenerationInProgress = false ∧
    (Mutator.resizeEvent 800 600).submits idleWithData = true ∧
    (run idleWithData
      (mutationBurst [(0, .resizeEvent 800 600), (10, .setTitle "a"),
        (20, .toggleSeriesVisibility "temp" false)])).widget.chartRequestCount =
      idleWithData.widget.chartRequestCount + 1 :=
  ⟨by decide, by decide, by
    have h := mutation_burst_one_dispatch idleWithData 0 (.resizeEvent 800 600)
      [(10, .setTitle "a"), (20, .toggleSeriesVisibility "temp" false)] (by decide)
    rw [if_pos (by decide)] at h
    exact h.2.2.2.2.2⟩

/-! ## The shared worker process -/

theorem wf_init : Bridge.init.Wf := by
  refine ⟨rfl, List.nodup_nil, ?_, ?_, ?_⟩
  · intro i hi; simp [Bridge.init] at hi
  · intro c hc; simp [Bridge.init] at hc
  · intro pid hp; simp [Bridge.init] at hp

theorem wf_construct {b : Bridge} (h : b.Wf) : b.construct.Wf := by
  obtain ⟨h1, h2, h3, h4, h5⟩ := h
  refine ⟨?_, ?_, ?_, h4, ?_⟩
  · simp [Bridge.construct, h1]
  · simp only [Bridge.construct]
    rw [List.nodup_append]
    refine ⟨h2, List.nodup_singleton _, ?_⟩
    intro a ha hb
    have : a = b.nextInstance := by simpa using hb
    have hlt := h3 a ha
    omega
  · intro i hi
    simp only [Bridge.construct, List.mem_append, List.mem_singleton] at hi ⊢
    rcases hi with hi | hi
    · have := h3 i hi; omega
    · omega
  · intro pid hp
    obtain ⟨_, g2, g3, g4⟩ := h5 pid hp
    exact ⟨by simp [Bridge.construct], g2, g3, g4⟩

theorem wf_startPythonServer {b : Bridge} (h : b.Wf) (hlive : b.instances ≠ [])
    (started : Bool) : (b.startPythonServer started).Wf := by
  obtain ⟨h1, h2, h3, h4, h5⟩ := h
  unfold Bridge.startPythonServer
  split
  · exact ⟨h1, h2, h3, h4, h5⟩
  · next hnone =>
    cases started with
    | true =>
        simp only [if_true]
        refine ⟨h1, h2, h3, ?_, ?_⟩
        · intro c hc
          simp only [List.mem_append, List.mem_singleton] at hc
          rcases hc with hc | hc
          · have := h4 c hc
            show c.pid < b.nextProcess + 1
            omega
          · subst hc
            show b.nextProcess < b.nextProcess + 1
            omega
        · intro pid hp
          have hpid : b.nextProcess = pid := by simpa using hp
          subst hpid
          refine ⟨hlive, rfl, Nat.lt_succ_self _, ?_⟩
          intro c hc hcp
          simp only [List.mem_append, List.mem_singleton] at hc
          rcases hc with hc | hc
          · have := h4 c hc
            omega
          · exact hc
    | false =>
        simp only [Bool.false_eq_true, if_false]
        refine ⟨h1, h2, h3, ?_, ?_⟩
        · intro c hc
          simp only [List.mem_append, List.mem_cons, List.mem_singleton, List.not_mem_nil,
            or_false] at hc
          rcases hc with hc | hc | hc
          · have := h4 c hc
            show c.pid < b.nextProcess + 1
            omega
          · subst hc
            show b.nextProcess < b.nextProcess + 1
            omega
          · subst hc
            show b.nextProcess < b.nextProcess + 1
            omega
        · intro pid hp
          simp at hp

theorem wf_initializeEnv {b : Bridge} (h : b.Wf) (py dir : String) :
    (b.initializeEnv py dir).Wf := by
  unfold Bridge.initializeEnv
  split
  · exact h
  · split
    · exact h
    · split
      · exact h
      · exact h

theorem initializeEnv_instances (b : Bridge) (py dir : String) :
    (b.initializeEnv py dir).instances = b.instances := by
  unfold Bridge.initializeEnv
  split
  · rfl
  · split
    · rfl
    · split <;> rfl

theorem wf_onPythonProcessFinished {b : Bridge} (h : b.Wf) (self : Nat) (exitCode : Int)
    (exitStatus : ExitStatus) : (b.onPythonProcessFinished self exitCode exitStatus).Wf := by
  obtain ⟨h1, h2, h3, h4, h5⟩ := h
  unfold Bridge.onPythonProcessFinished
  split
  · refine ⟨h1, h2, h3, h4, ?_⟩
    intro pid hp
    simp at hp
  · exact ⟨h1, h2, h3, h4, h5⟩

theorem wf_destroy {b : Bridge} (h : b.Wf) (self : Nat) (hself : self ∈ b.instances)
    (fin : Bool) : (b.destroy self fin).Wf := by
  obtain ⟨h1, h2, h3, h4, h5⟩ := h
  have hlen : (b.instances.erase self).length = b.instances.length - 1 :=
    List.length_erase_of_mem hself
  have hpos : 0 < b.instances.length := List.length_pos_of_mem hself
  have hnd : (b.instances.erase self).Nodup := h2.erase self
  have hlt : ∀ i ∈ b.instances.erase self, i < b.nextInstance :=
    fun i hi => h3 i (List.mem_of_mem_erase hi)
  unfold Bridge.destroy
  cases hp : b.s_pythonProcess with
  | none =>
      refine ⟨?_, hnd, hlt, h4, ?_⟩
      · show b.s_instanceCount - 1 = ((b.instances.erase self).length : Int)
        rw [hlen, h1]
        omega
      · intro pid hq
        simp [hp] at hq
  | some pid =>
      obtain ⟨_, g2, g3, g4⟩ := h5 pid hp
      by_cases hc : b.s_instanceCount - 1 ≤ 0
      · simp only [hc, if_true]
        refine ⟨?_, hnd, hlt, ?_, ?_⟩
        · show (0 : Int) = ((b.instances.erase self).length : Int)
          rw [hlen]
          omega
        · intro c hcm
          simp only [List.mem_append, List.mem_singleton] at hcm
          rcases hcm with ((hcm | hcm) | hcm) | hcm
          · exact h4 c hcm
          · subst hcm; exact g3
          · cases fin with
            | true => simp at hcm
            | false =>
                have : c = ProcessCall.kill pid := by simpa using hcm
                subst this; exact g3
          · subst hcm; exact g3
        · intro q hq
          simp at hq
      · simp only [hc, if_false]
        refine ⟨?_, hnd, hlt, h4, ?_⟩
        · show b.s_instanceCount - 1 = ((b.instances.erase self).length : Int)
          rw [hlen, h1]
          omega
        · intro q hq
          have hq1 : pid = q := by simpa using hq
          subst hq1
          refine ⟨?_, g2, g3, g4⟩
          intro hnil
          have hnil1 : b.instances.erase self = [] := hnil
          have : (b.instances.erase self).length = 0 := by rw [hnil1]; rfl
          rw [hlen] at this
          rw [h1] at hc
          omega

theorem wf_prologue_tail {b : Bridge} (h : b.Wf) (hlive : b.instances ≠ [])
    (running started : Bool) :
    (if (b.s_pythonProcess.isNone || !running) = true then b.startPythonServer started
      else b).Wf := by
  split
  · exact wf_startPythonServer h hlive started
  · exact h

theorem wf_generateChartPrologue {b : Bridge} (h : b.Wf) (hlive : b.instances ≠ [])
    (py dir : String) (running started : Bool) :
    (b.generateChartPrologue py dir running started).Wf := by
  by_cases hc : (!b.s_initialized && !b.s_initStarted) = true
  · simp only [Bridge.generateChartPrologue, hc, if_true]
    exact wf_prologue_tail (wf_initializeEnv h py dir)
      (by rw [initializeEnv_instances]; exact hlive) running started
  · simp only [Bridge.generateChartPrologue, hc, if_false]
    exact wf_prologue_tail h hlive running started

theorem wf_step {b : Bridge} (h : b.Wf) (e : BridgeEvent) : (b.step e).Wf := by
  cases e with
  | construct => exact wf_construct h
  | destroy self fin =>
      show (if self ∈ b.instances then b.destroy self fin else b).Wf
      split
      · next hs => exact wf_destroy h self hs fin
      · exact h
  | initFires self py dir started =>
      show (if self ∈ b.instances ∧ self ∈ b.initTimers then
        Bridge.initializeAsync { b with initTimers := b.initTimers.erase self } py dir started
        else b).Wf
      split
      · next hs =>
        have hne : b.instances ≠ [] := List.ne_nil_of_mem hs.1
        have h0 : ({ b with initTimers := b.initTimers.erase self } : Bridge).Wf := h
        unfold Bridge.initializeAsync
        split
        · exact wf_startPythonServer (wf_initializeEnv h0 py dir)
            (by rw [initializeEnv_instances]; exact hne) started
        · exact wf_startPythonServer h0 hne started
      · exact h
  | startPythonServer self started =>
      show (if self ∈ b.instances then b.startPythonServer started else b).Wf
      split
      · next hs => exact wf_startPythonServer h (List.ne_nil_of_mem hs) started
      · exact h
  | restartFires k started =>
      show (match b.restartTimers.get? k with
        | none => b
        | some (owner, deadline) =>
            if owner ∈ b.instances ∧ deadline ≤ b.now then
              Bridge.startPythonServer
                { b with restartTimers := b.restartTimers.eraseIdx k } started
            else b).Wf
      split
      · exact h
      · split
        · next hs =>
          have h0 : ({ b with restartTimers := b.restartTimers.eraseIdx k } : Bridge).Wf := h
          exact wf_startPythonServer h0 (List.ne_nil_of_mem hs.1) started
        · exact h
  | generateChart self py dir running started =>
      show (if self ∈ b.instances then b.generateChartPrologue py dir running started
        else b).Wf
      split
      · next hs =>
        exact wf_generateChartPrologue h (List.ne_nil_of_mem hs) py dir running started
      · exact h
  | onPythonProcessFinished self exitCode exitStatus =>
      show (if self ∈ b.instances then b.onPythonProcessFinished self exitCode exitStatus
        else b).Wf
      split
      · exact wf_onPythonProcessFinished h self exitCode exitStatus
      · exact h
  | elapse dt => exact h

theorem wf_run {b : Bridge} (h : b.Wf) (events : List BridgeEvent) : (b.run events).Wf := by
  induction events generalizing b with
  | nil => exact h
  | cons e es ih => exact ih (wf_step h e)

theorem destroy_keeps {b : Bridge} (h : b.Wf) (self : Nat) (fin : Bool) (pid : Nat)
    (hp : b.s_pythonProcess = some pid) (hlen : 2 ≤ b.instances.length) :
    (b.destroy self fin).s_pythonProcess = some pid ∧
    (b.destroy self fin).calls = b.calls ∧
    (b.destroy self fin).instances = b.instances.erase self := by
  have hc : ¬ (b.s_instanceCount - 1 ≤ 0) := by
    rw [h.1]; omega
  simp only [Bridge.destroy, hp, hc, if_false]
  exact ⟨trivial, trivial, trivial⟩

theorem destroy_last {b : Bridge} (h : b.Wf) (self : Nat) (fin : Bool) (pid : Nat)
    (hp : b.s_pythonProcess = some pid) (hinst : b.instances = [self]) :
    (b.destroy self fin).s_pythonProcess = none ∧
    (b.destroy self fin).calls =
      b.calls ++ [ProcessCall.terminate pid] ++
        (if fin then [] else [ProcessCall.kill pid]) ++ [ProcessCall.delete pid] ∧
    (b.destroy self fin).s_instanceCount = 0 ∧
    (b.destroy self fin).instances = [] := by
  have hc : b.s_instanceCount - 1 ≤ 0 := by
    rw [h.1, hinst]; simp
  simp only [Bridge.destroy, hp, hc, if_true, hinst]
  refine ⟨trivial, trivial, trivial, ?_⟩
  simp

theorem destroy_all_but_last (pid : Nat) (order : List (Nat × Bool)) :
    ∀ b : Bridge, b.Wf → (order.map Prod.fst).Perm b.instances →
      b.s_pythonProcess = some pid →
      (b.run (destroyAll order.dropLast)).s_pythonProcess = some pid ∧
      (b.run (destroyAll order.dropLast)).calls = b.calls := by
  induction order with
  | nil => intro b _ _ hp; exact ⟨hp, rfl⟩
  | cons x rest ih =>
      intro b hwf hperm hp
      cases rest with
      | nil => exact ⟨hp, rfl⟩
      | cons y rest1 =>
          have hx : x.1 ∈ b.instances ∧ ((y :: rest1).map Prod.fst).Perm (b.instances.erase x.1) :=
            List.cons_perm_iff_perm_erase.1 hperm
          have hlen : 2 ≤ b.instances.length := by
            rw [← hperm.length_eq]; simp
          obtain ⟨k1, k2, k3⟩ := destroy_keeps hwf x.1 x.2 pid hp hlen
          have hstep : b.run (destroyAll (x :: y :: rest1).dropLast) =
              (b.destroy x.1 x.2).run (destroyAll (y :: rest1).dropLast) := by
            simp [Bridge.run, destroyAll, Bridge.step, hx.1]
          obtain ⟨r1, r2⟩ := ih (b.destroy x.1 x.2) (wf_destroy hwf x.1 hx.1 x.2)
            (by rw [k3]; exact hx.2) k1
          rw [hstep]
          exact ⟨r1, r2.trans k2⟩

theorem destroy_all (pid : Nat) (order : List (Nat × Bool)) :
    ∀ b : Bridge, b.Wf → (order.map Prod.fst).Perm b.instances →
      b.s_pythonProcess = some pid → order ≠ [] →
      (b.run (destroyAll order)).s_pythonProcess = none ∧
      ProcessCall.terminate pid ∈ (b.run (destroyAll order)).calls ∧
      ProcessCall.delete pid ∈ (b.run (destroyAll order)).calls ∧
      (b.run (destroyAll order)).s_instanceCount = 0 ∧
      (b.run (destroyAll order)).instances = [] := by
  induction order with
  | nil => intro b _ _ _ hne; exact absurd rfl hne
  | cons x rest ih =>
      intro b hwf hperm hp _
      cases rest with
      | nil =>
          have hinst : b.instances = [x.1] := by
            have := hperm.symm
            simpa using List.perm_singleton.1 this
          obtain ⟨k1, k2, k3, k4⟩ := destroy_last hwf x.1 x.2 pid hp hinst
          have hstep : b.run (destroyAll [x]) = b.destroy x.1 x.2 := by
            simp [Bridge.run, destroyAll, Bridge.step, hinst]
          rw [hstep]
          refine ⟨k1, ?_, ?_, k3, k4⟩
          · rw [k2]; simp
          · rw [k2]; simp
      | cons y rest1 =>
          have hx : x.1 ∈ b.instances ∧ ((y :: rest1).map Prod.fst).Perm (b.instances.erase x.1) :=
            List.cons_perm_iff_perm_erase.1 hperm
          have hlen : 2 ≤ b.instances.length := by
            rw [← hperm.length_eq]; simp
          obtain ⟨k1, _, k3⟩ := destroy_keeps hwf x.1 x.2 pid hp hlen
          have hstep : b.run (destroyAll (x :: y :: rest1)) =
              (b.destroy x.1 x.2).run (destroyAll (y :: rest1)) := by
            simp [Bridge.run, destroyAll, Bridge.step, hx.1]
          rw [hstep]
          exact ih (b.destroy x.1 x.2) (wf_destroy hwf x.1 hx.1 x.2)
            (by rw [k3]; exact hx.2) k1 (List.cons_ne_nil _ _)

/-- C9 (reference-counted lifecycle). Take any reachable state of the bridge in
which the shared process has been started (its handle is `pid`), and any order
in which the K live instances are destroyed, with any answers of
`waitForFinished`. Then K is at least 1 and equals `s_instanceCount`; after the
first K - 1 destructions the handle is still `pid` and no `terminate` or `kill`
has been called on that process; after all K destructions the handle is null,
`terminate` has been called on the process, and the count is 0. -/
theorem refcount_lifecycle (events : List BridgeEvent) (pid : Nat)
    (order : List (Nat × Bool))
    (hstarted : (Bridge.init.run events).s_pythonProcess = some pid)
    (horder : (order.map Prod.fst).Perm (Bridge.init.run events).instances) :
    1 ≤ order.length ∧
    (Bridge.init.run events).s_instanceCount = (order.length : Int) ∧
    ((Bridge.init.run events).run (destroyAll order.dropLast)).s_pythonProcess = some pid ∧
    ProcessCall.terminate pid ∉
      ((Bridge.init.run events).run (destroyAll order.dropLast)).calls ∧
    ProcessCall.kill pid ∉
      ((Bridge.init.run events).run (destroyAll order.dropLast)).calls ∧
    ((Bridge.init.run events).run (destroyAll order)).s_pythonProcess = none ∧
    getProcessCount ((Bridge.init.run events).run (destroyAll order)) = 0 ∧
    ProcessCall.terminate pid ∈ ((Bridge.init.run events).run (destroyAll order)).calls ∧
    ((Bridge.init.run events).run (destroyAll order)).s_instanceCount = 0 := by
  have hwf : (Bridge.init.run events).Wf := wf_run wf_init events
  obtain ⟨hne, _, _, hcalls⟩ := hwf.2.2.2.2 pid hstarted
  have hlen : order.length = (Bridge.init.run events).instances.length := by
    rw [← horder.length_eq]; simp
  have hpos : 1 ≤ order.length := by
    rw [hlen]
    exact List.length_pos.2 hne
  have hne1 : order ≠ [] := by
    intro h0; rw [h0] at hpos; simp at hpos
  obtain ⟨a1, a2⟩ := destroy_all_but_last pid order _ hwf horder hstarted
  obtain ⟨b1, b2, _, b4, _⟩ := destroy_all pid order _ hwf horder hstarted hne1
  refine ⟨hpos, by rw [hwf.1, hlen], a1, ?_, ?_, b1, by simp [getProcessCount, b1], b2, b4⟩
  · rw [a2]
    intro hmem
    have := hcalls _ hmem rfl
    cases this
  · rw [a2]
    intro hmem
    have := hcalls _ hmem rfl
    cases this

/-- Witness of C9 with K = 2: two bridges are constructed, the deferred
initialisation of the first starts the shared process, then the second and the
first are destroyed. -/
theorem refcount_lifecycle_witness :
    (Bridge.init.run [.construct, .construct, .initFires 0 "python3" "/app/python" true,
      .initFires 1 "python3" "/app/python" true]).s_pythonProcess = some 0 ∧
    ((Bridge.init.run [.construct, .construct, .initFires 0 "python3" "/app/python" true,
      .initFires 1 "python3" "/app/python" true]).run
        (destroyAll [(1, true), (0, false)])).s_pythonProcess = none :=
  ⟨by decide,
   (refcount_lifecycle
      [.construct, .construct, .initFires 0 "python3" "/app/python" true,
        .initFires 1 "python3" "/app/python" true]
      0 [(1, true), (0, false)] (by decide) (by decide)).2.2.2.2.2.1⟩

theorem run_append (b : Bridge) (xs ys : List BridgeEvent) :
    b.run (xs ++ ys) = (b.run xs).run ys := by
  simp [Bridge.run, List.foldl_append]

theorem crash_cycle (b : Bridge) (self : Nat) (hself : self ∈ b.instances)
    (htimers : b.restartTimers = []) :
    b.run (crashCycle self) =
      { b with
        s_pythonProcess := some b.nextProcess
        nextProcess := b.nextProcess + 1
        calls := b.calls ++ [ProcessCall.start b.nextProcess]
        crashOutstanding := false
        restartTimers := []
        now := b.now + 100 } := by
  simp [Bridge.run, crashCycle, Bridge.step, Bridge.onPythonProcessFinished,
    Bridge.startPythonServer, hself, htimers]

theorem crash_cycles (b : Bridge) (self : Nat) (hself : self ∈ b.instances)
    (htimers : b.restartTimers = []) (n : Nat) :
    (b.run (crashCycles self n)).instances = b.instances ∧
    (b.run (crashCycles self n)).restartTimers = [] ∧
    (b.run (crashCycles self n)).nextProcess = b.nextProcess + n ∧
    (b.run (crashCycles self n)).calls =
      b.calls ++ (List.range n).map (fun i => ProcessCall.start (b.nextProcess + i)) := by
  induction n with
  | zero => exact ⟨rfl, htimers, rfl, by simp [crashCycles, Bridge.run]⟩
  | succ n ih =>
      obtain ⟨h1, h2, h3, h4⟩ := ih
      have hrun : b.run (crashCycles self (n + 1)) =
          (b.run (crashCycles self n)).run (crashCycle self) := run_append b _ _
      rw [hrun, crash_cycle _ self (by rw [h1]; exact hself) h2]
      refine ⟨h1, rfl, ?_, ?_⟩
      · show (b.run (crashCycles self n)).nextProcess + 1 = b.nextProcess + (n + 1)
        rw [h3]; omega
      · show (b.run (crashCycles self n)).calls ++
            [ProcessCall.start (b.run (crashCycles self n)).nextProcess] = _
        rw [h4, h3, List.range_succ]
        simp

/-- C11, counterexample. The worker is started, crashes, is restarted by the
timer and crashes again. The second crash schedules a further automatic restart
(one timer is pending, due 100 ms later), and when that timer fires a third
process is started: the worker is available again without any caller having
retried. -/
theorem bounded_restart_counterexample :
    crashedTwice.s_pythonProcess = none ∧
    crashedTwice.calls = [ProcessCall.start 0, ProcessCall.start 1] ∧
    crashedTwice.restartTimers = [(0, 200)] ∧
    crashedTwice.now = 100 ∧
    (crashedTwice.run [.elapse 100, .restartFires 0 true]).s_pythonProcess = some 2 ∧
    (crashedTwice.run [.elapse 100, .restartFires 0 true]).calls =
      [ProcessCall.start 0, ProcessCall.start 1, ProcessCall.start 2] := by
  decide

/-- C11, amended. Every crash of the shared worker that `onPythonProcessFinished`
reports schedules exactly one automatic restart 100 ms later, however many
crashes came before. After `n` crashes in a row, each restarted by its timer,
`n` new processes have been started and no timer is pending; the next crash
clears the handle and again schedules exactly one restart, and that restart
starts process number `n + 1`. -/
theorem restart_after_every_crash (b : Bridge) (self : Nat) (n : Nat)
    (hself : self ∈ b.instances) (htimers : b.restartTimers = []) :
    (b.run (crashCycles self n)).restartTimers = [] ∧
    (b.run (crashCycles self n)).calls =
      b.calls ++ (List.range n).map (fun i => ProcessCall.start (b.nextProcess + i)) ∧
    ((b.run (crashCycles self n)).step
      (.onPythonProcessFinished self 1 ExitStatus.CrashExit)).s_pythonProcess = none ∧
    ((b.run (crashCycles self n)).step
      (.onPythonProcessFinished self 1 ExitStatus.CrashExit)).restartTimers =
        [(self, (b.run (crashCycles self n)).now + 100)] ∧
    (b.run (crashCycles self (n + 1))).s_pythonProcess = some (b.nextProcess + n) ∧
    (b.run (crashCycles self (n + 1))).restartTimers = [] := by
  obtain ⟨h1, h2, h3, h4⟩ := crash_cycles b self hself htimers n
  have hmem : self ∈ (b.run (crashCycles self n)).instances := by rw [h1]; exact hself
  have hrun : b.run (crashCycles self (n + 1)) =
      (b.run (crashCycles self n)).run (crashCycle self) := run_append b _ _
  refine ⟨h2, h4, ?_, ?_, ?_, ?_⟩
  · simp [Bridge.step, Bridge.onPythonProcessFinished, hmem]
  · simp [Bridge.step, Bridge.onPythonProcessFinished, hmem, h2]
  · rw [hrun, crash_cycle _ self hmem h2]
    show some (b.run (crashCycles self n)).nextProcess = _
    rw [h3]
  · rw [hrun, crash_cycle _ self hmem h2]

/-- Witness of the amended C11: one bridge whose worker is running, three crashes. -/
theorem restart_after_every_crash_witness :
    (0 : Nat) ∈ (Bridge.init.run [.construct, .initFires 0 "python3" "/app/python" true]).instances ∧
    (Bridge.init.run [.construct, .initFires 0 "python3" "/app/python" true]).restartTimers
      = [] ∧
    ((Bridge.init.run [.construct, .initFires 0 "python3" "/app/python" true]).run
      (crashCycles 0 (2 + 1))).s_pythonProcess =
      some ((Bridge.init.run
        [.construct, .initFires 0 "python3" "/app/python" true]).nextProcess + 2) :=
  ⟨by decide, by decide,
   (restart_after_every_crash
      (Bridge.init.run [.construct, .initFires 0 "python3" "/app/python" true]) 0 2
      (by decide) (by decide)).2.2.2.2.1⟩

/-! ## Decoding the worker output -/

theorem indexOf_isSome_iff (pat s : List Char) : (indexOf pat s).isSome = true ↔ pat <:+: s := by
  induction s with
  | nil =>
      by_cases hp : pat = []
      · simp [indexOf, hp]
      · simp [indexOf, hp]
  | cons c cs ih =>
      by_cases hpre : pat <+: (c :: cs)
      · have h1 : pat.isPrefixOf (c :: cs) = true := List.isPrefixOf_iff_prefix.2 hpre
        simp only [indexOf, h1, if_true, Option.isSome_some, true_iff]
        exact hpre.isInfix
      · have h1 : pat.isPrefixOf (c :: cs) = false := by
          cases h : pat.isPrefixOf (c :: cs) with
          | false => rfl
          | true => exact absurd (List.isPrefixOf_iff_prefix.1 h) hpre
        simp only [indexOf, h1, Bool.false_eq_true, if_false, Option.isSome_map',
          List.infix_cons_iff, hpre, false_or]
        exact ih

theorem indexOf_drop (pat s : List Char) :
    (indexOf pat s).map (fun i => s.drop (i + pat.length)) = textAfter pat s := by
  induction s with
  | nil =>
      by_cases hp : pat = []
      · simp [indexOf, textAfter, hp]
      · simp [indexOf, textAfter, hp]
  | cons c cs ih =>
      by_cases hpre : pat <+: (c :: cs)
      · have h1 : pat.isPrefixOf (c :: cs) = true := List.isPrefixOf_iff_prefix.2 hpre
        simp [indexOf, textAfter, h1, hpre]
      · have h1 : pat.isPrefixOf (c :: cs) = false := by
          cases h : pat.isPrefixOf (c :: cs) with
          | false => rfl
          | true => exact absurd (List.isPrefixOf_iff_prefix.1 h) hpre
        simp only [indexOf, textAfter, h1, hpre, Bool.false_eq_true, if_false, Option.map_map]
        rw [← ih]
        congr 1
        funext i
        show List.drop (i + 1 + pat.length) (c :: cs) = List.drop (i + pat.length) cs
        rw [show i + 1 + pat.length = (i + pat.length) + 1 by omega]
        rfl

theorem trimmed_eq_nil_iff (s : List Char) : trimmed s = [] ↔ ∀ c ∈ s, isSpace c = true := by
  unfold trimmed
  rw [List.reverse_eq_nil_iff, List.dropWhile_eq_nil_iff]
  constructor
  · intro h
    by_cases hd : s.dropWhile isSpace = []
    · exact List.dropWhile_eq_nil_iff.1 hd
    · exfalso
      have hhead := List.head_dropWhile_not isSpace s hd
      have hmem : (s.dropWhile isSpace).head hd ∈ (s.dropWhile isSpace).reverse :=
        List.mem_reverse.2 (List.head_mem hd)
      rw [h _ hmem] at hhead
      exact absurd hhead (by decide)
  · intro h c hc
    have hd : s.dropWhile isSpace = [] := List.dropWhile_eq_nil_iff.2 h
    rw [hd] at hc
    simp at hc

theorem parseChartPath_eq_spec (output : String) : parseChartPath output = decodeBySpec output := by
  have hpred : (fun line => (indexOf chartMarker line).isSome) =
      (fun line => decide (chartMarker <:+: line)) := by
    funext line
    rw [Bool.eq_iff_iff]
    simp [indexOf_isSome_iff]
  unfold parseChartPath decodeBySpec firstMarkerLine
  rw [hpred]
  cases (splitLines output.toList).find? (fun line => decide (chartMarker <:+: line)) with
  | none => rfl
  | some line =>
      have hd := indexOf_drop chartMarker line
      cases hi : indexOf chartMarker line with
      | none =>
          rw [hi] at hd
          simp only [Option.map_none'] at hd
          simp only [← hd, hi]
      | some i =>
          rw [hi] at hd
          simp only [Option.map_some'] at hd
          simp only [← hd, hi]
          rfl

theorem isSpace_iff (c : Char) : isSpace c = true ↔ IsWhite c := by
  simp only [isSpace, IsWhite, whiteSpaceCodes, List.mem_cons, List.mem_singleton,
    List.not_mem_nil, Bool.or_eq_true, Bool.and_eq_true, decide_eq_true_eq, beq_iff_eq,
    or_false]
  omega

theorem intercalate_cons_cons (sep a b : List Char) (l : List (List Char)) :
    List.intercalate sep (a :: b :: l) = a ++ sep ++ List.intercalate sep (b :: l) := by
  simp [List.intercalate, List.intersperse]

theorem splitLines_spec (s : List Char) : IsLinesOf (splitLines s) s := by
  induction s with
  | nil =>
      refine ⟨by simp [splitLines], ?_, ?_⟩
      · intro l hl
        simp [splitLines] at hl
        subst hl
        simp
      · simp [splitLines, List.intercalate, List.intersperse]
  | cons c cs ih =>
      obtain ⟨h1, h2, h3⟩ := ih
      cases hs : splitLines cs with
      | nil => exact absurd hs h1
      | cons l ls =>
          rw [hs] at h2 h3
          by_cases hc : c = '\n'
          · have e : splitLines (c :: cs) = [] :: l :: ls := by
              simp [splitLines, hc, hs]
            rw [e]
            refine ⟨by simp, ?_, ?_⟩
            · intro x hx
              rcases List.mem_cons.mp hx with rfl | hx
              · simp
              · exact h2 x hx
            · rw [intercalate_cons_cons, ← h3, hc]
              rfl
          · have e : splitLines (c :: cs) = (c :: l) :: ls := by
              simp [splitLines, hc, hs]
            rw [e]
            refine ⟨by simp, ?_, ?_⟩
            · intro x hx
              rcases List.mem_cons.mp hx with rfl | hx
              · intro hm
                rcases List.mem_cons.mp hm with h | h
                · exact hc h.symm
                · exact h2 l (List.mem_cons_self _ _) h
              · exact h2 x (List.mem_cons_of_mem _ hx)
            · cases ls with
              | nil =>
                  have e3 : cs = l := by simpa [List.intercalate, List.intersperse] using h3
                  simp [List.intercalate, List.intersperse, e3]
              | cons l2 ls2 =>
                  rw [intercalate_cons_cons] at h3
                  rw [intercalate_cons_cons, h3]
                  simp


theorem indexOf_spec (pat s : List Char) (i : Nat) (h : indexOf pat s = some i) :
    SplitsAtFirst pat s (s.take i) (s.drop (i + pat.length)) := by
  induction s generalizing i with
  | nil =>
      by_cases hp : pat = []
      · subst hp
        refine ⟨by simp, ?_⟩
        intro pre2 text2 _
        simp
      · simp [indexOf, hp] at h
  | cons c cs ih =>
      by_cases hpre : pat <+: (c :: cs)
      · have h1 : pat.isPrefixOf (c :: cs) = true := List.isPrefixOf_iff_prefix.2 hpre
        have hi : i = 0 := by
          simp only [indexOf, h1, if_true, Option.some.injEq] at h
          exact h.symm
        subst hi
        obtain ⟨t, ht⟩ := hpre
        refine ⟨?_, ?_⟩
        · rw [← ht]
          simp
        · intro pre2 text2 _
          simp
      · have h1 : pat.isPrefixOf (c :: cs) = false := by
          cases h : pat.isPrefixOf (c :: cs) with
          | false => rfl
          | true => exact absurd (List.isPrefixOf_iff_prefix.1 h) hpre
        simp only [indexOf, h1, Bool.false_eq_true, if_false, Option.map_eq_some'] at h
        obtain ⟨j, hj, hij⟩ := h
        subst hij
        obtain ⟨e1, e2⟩ := ih j hj
        refine ⟨?_, ?_⟩
        · show c :: cs = c :: List.take j cs ++ pat ++ List.drop (j + 1 + pat.length) (c :: cs)
          rw [show j + 1 + pat.length = (j + pat.length) + 1 by omega, List.drop_succ_cons]
          simp only [List.cons_append]
          rw [← e1]
        · intro pre2 text2 h2
          cases pre2 with
          | nil =>
              exact absurd ⟨text2, by simpa using h2.symm⟩ hpre
          | cons d pre3 =>
              have h3 : cs = pre3 ++ pat ++ text2 := by
                simp only [List.cons_append] at h2
                exact (List.cons.inj h2).2
              have h4 := e2 pre3 text2 h3
              simp only [List.length_take, List.length_cons] at h4 ⊢
              omega

theorem trimmed_spec (s : List Char) : IsTrimmedOf (trimmed s) s := by
  have hw : ∀ c, isSpace c = true → IsWhite c := fun c h => (isSpace_iff c).1 h
  have hnw : ∀ c, isSpace c = false → ¬ IsWhite c := by
    intro c h hc
    rw [(isSpace_iff c).2 hc] at h
    exact absurd h (by decide)
  have e1 : s = s.takeWhile isSpace ++ s.dropWhile isSpace :=
    (List.takeWhile_append_dropWhile isSpace s).symm
  have e2 : (s.dropWhile isSpace).reverse =
      (s.dropWhile isSpace).reverse.takeWhile isSpace ++
        (s.dropWhile isSpace).reverse.dropWhile isSpace :=
    (List.takeWhile_append_dropWhile isSpace _).symm
  have e3 : s.dropWhile isSpace =
      trimmed s ++ ((s.dropWhile isSpace).reverse.takeWhile isSpace).reverse := by
    have := congrArg List.reverse e2
    rw [List.reverse_reverse, List.reverse_append] at this
    exact this
  refine ⟨s.takeWhile isSpace, ((s.dropWhile isSpace).reverse.takeWhile isSpace).reverse,
    ?_, ?_, ?_, ?_, ?_⟩
  · rw [List.append_assoc, ← e3]
    exact e1
  · intro c hc
    exact hw c (List.mem_takeWhile_imp hc)
  · intro c hc
    exact hw c (List.mem_takeWhile_imp (List.mem_reverse.1 hc))
  · intro c hc
    apply hnw
    cases ht : trimmed s with
    | nil => rw [ht] at hc; simp at hc
    | cons d rest =>
        rw [ht] at hc e3
        have hd : d = c := by simpa using hc
        subst hd
        have hne : s.dropWhile isSpace ≠ [] := by rw [e3]; simp
        have hh := List.head_dropWhile_not isSpace s hne
        have hhd : (s.dropWhile isSpace).head hne = d := by
          have h1 : (s.dropWhile isSpace).head? = some d := by
            rw [e3]
            rfl
          rw [List.head?_eq_head hne] at h1
          exact Option.some.inj h1
        rw [hhd] at hh
        exact hh
  · intro c hc
    apply hnw
    have hc2 : ((s.dropWhile isSpace).reverse.dropWhile isSpace).head? = some c := by
      have : trimmed s = ((s.dropWhile isSpace).reverse.dropWhile isSpace).reverse := rfl
      rw [this, List.getLast?_reverse] at hc
      exact hc
    have hne : (s.dropWhile isSpace).reverse.dropWhile isSpace ≠ [] := by
      intro h0
      rw [h0] at hc2
      simp at hc2
    have hh := List.head_dropWhile_not isSpace (s.dropWhile isSpace).reverse hne
    have hhd : ((s.dropWhile isSpace).reverse.dropWhile isSpace).head hne = c := by
      rw [List.head?_eq_head hne] at hc2
      exact Option.some.inj hc2
    rw [hhd] at hh
    exact hh

theorem find?_first {α : Type} (p : α → Bool) (before : List α) (x : α) (after : List α)
    (hb : ∀ y ∈ before, p y = false) (hx : p x = true) :
    (before ++ x :: after).find? p = some x := by
  induction before with
  | nil => simp [hx]
  | cons b rest ih =>
      have hb0 : p b = false := hb b (List.mem_cons_self _ _)
      simp only [List.cons_append, List.find?_cons, hb0]
      exact ih (fun y hy => hb y (List.mem_cons_of_mem _ hy))


theorem parseChartPath_no_marker (output : String)
    (h : ∀ l ∈ splitLines output.toList, ¬ chartMarker <:+: l) : parseChartPath output = "" := by
  have hf : (splitLines output.toList).find? (fun line => (indexOf chartMarker line).isSome) =
      none := by
    rw [List.find?_eq_none]
    intro l hl hp
    exact h l hl ((indexOf_isSome_iff chartMarker l).1 hp)
  unfold parseChartPath
  rw [hf]

theorem parseChartPath_first_marker (output : String) (before : List (List Char))
    (line : List Char) (after : List (List Char))
    (hl : splitLines output.toList = before ++ line :: after)
    (hb : ∀ l ∈ before, ¬ chartMarker <:+: l) (hm : chartMarker <:+: line) :
    ∃ i, indexOf chartMarker line = some i ∧
      parseChartPath output = String.mk (trimmed (line.drop (i + 16))) := by
  have hsome : (indexOf chartMarker line).isSome = true := (indexOf_isSome_iff _ _).2 hm
  obtain ⟨i, hi⟩ := Option.isSome_iff_exists.1 hsome
  have hf : (splitLines output.toList).find? (fun l => (indexOf chartMarker l).isSome) =
      some line := by
    rw [hl]
    apply find?_first
    · intro y hy
      cases h : (indexOf chartMarker y).isSome with
      | false => rfl
      | true => exact absurd ((indexOf_isSome_iff _ _).1 h) (hb y hy)
    · exact hsome
  refine ⟨i, hi, ?_⟩
  unfold parseChartPath
  rw [hf]
  simp only [hi]

/-- C12 (result decoding). Every worker output is the join of its lines, the
pieces between its line feeds. If no line contains the marker
`Chart generated:`, the decode step of `generateChart` returns the empty
failure value. Otherwise take the first line that contains the marker and the
text after the first occurrence of the marker in it: the decode step returns
that text with the white space at its two ends removed, and the result is
non-empty exactly when the text has a character that is not white space.
The output `Chart generated: /tmp/x.png` decodes to `/tmp/x.png`; a marker line
among other lines is found; of two marker lines the first counts, also when it
carries no path; and later lines are not part of the path. -/
theorem result_decoding (output : String) :
    (∃ lines, IsLinesOf lines output.toList ∧
      ((∀ l ∈ lines, ¬ chartMarker <:+: l) → parseChartPath output = "") ∧
      (∀ before line after, lines = before ++ line :: after →
        (∀ l ∈ before, ¬ chartMarker <:+: l) → chartMarker <:+: line →
        ∃ pre text, SplitsAtFirst chartMarker line pre text ∧
          IsTrimmedOf (parseChartPath output).toList text ∧
          (parseChartPath output ≠ "" ↔ ∃ c ∈ text, ¬ IsWhite c))) ∧
    chartMarker = "Chart generated:".toList ∧
    parseChartPath "Chart generated: /tmp/x.png" = "/tmp/x.png" ∧
    parseChartPath "Loading data\nChart generated:   /tmp/x.png \r\nDone\n" = "/tmp/x.png" ∧
    parseChartPath "Chart generated: /tmp/a.png\nChart generated: /tmp/b.png" = "/tmp/a.png" ∧
    parseChartPath "Chart generated: \t\nChart generated: /tmp/b.png" = "" ∧
    parseChartPath "Traceback\nno chart here\n" = "" ∧
    parseChartPath "x Chart generated: Chart generated: y" = "Chart generated: y" := by
  refine ⟨⟨splitLines output.toList, splitLines_spec _, parseChartPath_no_marker output, ?_⟩,
    rfl, by decide, by decide, by decide, by decide, by decide, by decide⟩
  intro before line after hl hb hm
  obtain ⟨i, hi, hp⟩ := parseChartPath_first_marker output before line after hl hb hm
  have hlen : chartMarker.length = 16 := by decide
  have hs := indexOf_spec chartMarker line i hi
  rw [hlen] at hs
  refine ⟨line.take i, line.drop (i + 16), hs, ?_, ?_⟩
  · rw [hp]
    exact trimmed_spec _
  · rw [hp]
    have hne : String.mk (trimmed (line.drop (i + 16))) ≠ "" ↔
        trimmed (line.drop (i + 16)) ≠ [] := by
      constructor
      · intro h h0
        exact h (by rw [h0])
      · intro h h0
        exact h (by simpa using congrArg String.data h0)
    rw [hne, ne_eq, trimmed_eq_nil_iff]
    constructor
    · intro h
      by_contra hcon
      apply h
      intro c hc
      by_contra hsp
      exact hcon ⟨c, hc, fun hw => hsp ((isSpace_iff c).2 hw)⟩
    · rintro ⟨c, hc, hnw⟩ hall
      exact hnw ((isSpace_iff c).1 (hall c hc))

/-! ## Failures of a render job -/

/-- C13, counterexample. The per-job process prints the marker line and then
crashes with exit code 1: `generateChart` returns the path it printed, not the
failure value. -/
theorem abnormal_exit_counterexample :
    crashedWithMarker.abnormal ∧
    generateChartResult crashedWithMarker.outcome = "/tmp/x.png" ∧
    generateChartResult crashedWithMarker.outcome ≠ "" :=
  ⟨Or.inl (by decide), by decide, by decide⟩

/-- C13, amended. Whatever the exit code and exit status of the per-job process,
`generateChart` returns what the decode step makes of its output: the same
value as for a process that wrote the same output and exited normally with
code 0. An abnormal exit yields the failure value exactly when the output has
no usable marker line. -/
theorem exit_status_ignored (exitCode : Int) (exitStatus : ExitStatus) (output : String) :
    generateChartResult
        (JobExit.outcome
          { exitCode := exitCode, exitStatus := exitStatus, output := output }) =
      decodeBySpec output ∧
    generateChartResult
        (JobExit.outcome
          { exitCode := exitCode, exitStatus := exitStatus, output := output }) =
      generateChartResult
        (JobExit.outcome
          { exitCode := 0, exitStatus := ExitStatus.NormalExit, output := output }) :=
  ⟨parseChartPath_eq_spec output, rfl⟩

theorem reported_failure_empty (outcome : JobOutcome) (h : ReportedFailure outcome) :
    generateChartResult outcome = "" := by
  rcases h with h | h | ⟨output, h, hm⟩
  · subst h; rfl
  · subst h; rfl
  · subst h; exact parseChartPath_missing output hm

theorem finished_empty (w : World) (i : Nat) (outcome : JobOutcome) (loadable : Bool)
    (h : generateChartResult outcome = "") :
    step w (.finished i outcome loadable) = step w (.finished i JobOutcome.timedOut true) := by
  have ht : generateChartResult JobOutcome.timedOut = "" := rfl
  simp only [step, h, ht]
  cases w.jobs.get? i with
  | none => rfl
  | some job => simp [onChartImageGenerated]

/-- C14, counterexample. With one render in flight, a timeout, a worker that
cannot be started and a worker that ran without printing the marker all make
`generateChart` return the same empty string, and the widget ends in the same
state after handling each of them. -/
theorem typed_failures_counterexample :
    generateChartResult JobOutcome.timedOut = "" ∧
    generateChartResult JobOutcome.startFailed = "" ∧
    generateChartResult (JobOutcome.exited "ModuleNotFoundError: matplotlib\n") = "" ∧
    step oneInFlight (.finished 0 JobOutcome.timedOut true) =
      step oneInFlight (.finished 0 JobOutcome.startFailed true) ∧
    step oneInFlight (.finished 0 JobOutcome.timedOut true) =
      step oneInFlight
        (.finished 0 (JobOutcome.exited "ModuleNotFoundError: matplotlib\n") true) := by
  decide

/-- C14, amended. A job that timed out, a worker that could not be started and a
worker that printed no marker are all reported by `generateChart` as the same
empty path, and `onChartImageGenerated` leaves the widget in the same state for
any two of them: the caller cannot tell these failures apart. -/
theorem failures_indistinguishable (w : World) (i : Nat) (o1 o2 : JobOutcome)
    (l1 l2 : Bool) (h1 : ReportedFailure o1) (h2 : ReportedFailure o2) :
    generateChartResult o1 = "" ∧
    generateChartResult o1 = generateChartResult o2 ∧
    step w (.finished i o1 l1) = step w (.finished i o2 l2) := by
  have e1 := reported_failure_empty o1 h1
  have e2 := reported_failure_empty o2 h2
  refine ⟨e1, by rw [e1, e2], ?_⟩
  rw [finished_empty w i o1 l1 e1, finished_empty w i o2 l2 e2]

/-- Witness of the amended C14: a timeout and a start failure on the widget with
one render in flight. -/
theorem failures_indistinguishable_witness :
    ReportedFailure JobOutcome.timedOut ∧ ReportedFailure JobOutcome.startFailed ∧
    step oneInFlight (.finished 0 JobOutcome.timedOut true) =
      step oneInFlight (.finished 0 JobOutcome.startFailed false) :=
  ⟨Or.inl rfl, Or.inr (Or.inl rfl),
   (failures_indistinguishable oneInFlight 0 JobOutcome.timedOut JobOutcome.startFailed
      true false (Or.inl rfl) (Or.inr (Or.inl rfl))).2.2⟩

/-! ## The encoder -/

theorem value?_cons_ne {V : Type} (m : QMap V) (k0 key : String) (v0 : V) (h : k0 ≠ key) :
    QMap.value? ((k0, v0) :: m) key = QMap.value? m key := by
  have hb : (k0 == key) = false := by simpa using h
  simp only [QMap.value?, List.find?_cons, hb]

theorem value?_cons_self {V : Type} (m : QMap V) (key : String) (v0 : V) :
    QMap.value? ((key, v0) :: m) key = some v0 := by
  simp [QMap.value?, List.find?_cons]

theorem value?_insert_self {V : Type} (m : QMap V) (k : String) (v : V) :
    QMap.value? (QMap.insert m k v) k = some v := by
  induction m with
  | nil => exact value?_cons_self [] k v
  | cons head rest ih =>
      obtain ⟨k0, v0⟩ := head
      unfold QMap.insert
      by_cases h1 : k = k0
      · rw [if_pos h1]; exact value?_cons_self _ k v
      · rw [if_neg h1]
        by_cases h2 : k.toList < k0.toList
        · rw [if_pos h2]; exact value?_cons_self _ k v
        · rw [if_neg h2, value?_cons_ne _ k0 k v0 (fun h => h1 h.symm)]
          exact ih

theorem value?_insert_ne {V : Type} (m : QMap V) (k key : String) (v : V) (hne : k ≠ key) :
    QMap.value? (QMap.insert m k v) key = QMap.value? m key := by
  induction m with
  | nil => exact value?_cons_ne [] k key v hne
  | cons head rest ih =>
      obtain ⟨k0, v0⟩ := head
      unfold QMap.insert
      by_cases h1 : k = k0
      · rw [if_pos h1, value?_cons_ne _ k key v hne,
          value?_cons_ne _ k0 key v0 (fun h => hne (h1.trans h))]
      · rw [if_neg h1]
        by_cases h2 : k.toList < k0.toList
        · rw [if_pos h2, value?_cons_ne _ k key v hne]
        · rw [if_neg h2]
          by_cases h4 : k0 = key
          · subst h4
            rw [value?_cons_self, value?_cons_self]
          · rw [value?_cons_ne _ k0 key v0 h4, value?_cons_ne _ k0 key v0 h4]
            exact ih

theorem foldl_append_singleton {α β : Type} (f : α → β) (xs : List α) (init : List β) :
    xs.foldl (fun acc x => acc ++ [f x]) init = init ++ xs.map f := by
  induction xs generalizing init with
  | nil => simp
  | cons x rest ih => simp [List.foldl, ih]

theorem doubleArray_eq (samples : List Int) :
    doubleArray samples = QJsonValue.array (samples.map QJsonValue.double) := by
  simp [doubleArray, foldl_append_singleton]

theorem seriesToJson_name (fromHsv : Int → Int → Int → QColor) (index : Nat) (key : String)
    (series : DataSeries) :
    (seriesToJson fromHsv index key series).field "name" = some (QJsonValue.string key) := by
  simp [seriesToJson, QJsonValue.field, value?_insert_ne, value?_insert_self]

theorem seriesToJson_x (fromHsv : Int → Int → Int → QColor) (index : Nat) (key : String)
    (series : DataSeries) :
    (seriesToJson fromHsv index key series).field "x_values" =
      some (QJsonValue.array (series.x.map QJsonValue.double)) := by
  simp [seriesToJson, QJsonValue.field, value?_insert_ne, value?_insert_self, doubleArray_eq]

theorem seriesToJson_y (fromHsv : Int → Int → Int → QColor) (index : Nat) (key : String)
    (series : DataSeries) :
    (seriesToJson fromHsv index key series).field "y_values" =
      some (QJsonValue.array (series.y.map QJsonValue.double)) := by
  simp [seriesToJson, QJsonValue.field, value?_insert_ne, value?_insert_self, doubleArray_eq]

theorem seriesArrayFrom_length (fromHsv : Int → Int → Int → QColor) (dataSeries : QMap DataSeries)
    (index : Nat) : (seriesArrayFrom fromHsv index dataSeries).length = dataSeries.length := by
  induction dataSeries generalizing index with
  | nil => rfl
  | cons head rest ih =>
      obtain ⟨k, v⟩ := head
      simp [seriesArrayFrom, ih]

theorem seriesArrayFrom_fields (fromHsv : Int → Int → Int → QColor)
    (dataSeries : QMap DataSeries) (index : Nat) :
    (seriesArrayFrom fromHsv index dataSeries).map
        (fun o => (o.field "name", o.field "x_values", o.field "y_values")) =
      dataSeries.map (fun kv =>
        (some (QJsonValue.string kv.1),
         some (QJsonValue.array (kv.2.x.map QJsonValue.double)),
         some (QJsonValue.array (kv.2.y.map QJsonValue.double)))) := by
  induction dataSeries generalizing index with
  | nil => rfl
  | cons head rest ih =>
      obtain ⟨k, v⟩ := head
      simp only [seriesArrayFrom, List.map_cons, ih, seriesToJson_name, seriesToJson_x,
        seriesToJson_y]

/-- C16 (series payload fidelity). The `series` member of the document that
`createJsonData` builds is an array with exactly one object per entry of the
map, in the order of the map; the `name` of each object is the key of its
entry, and its `x_values` and `y_values` are the samples of the series, element
for element in the same order. -/
theorem series_payload_fidelity (fromHsv : Int → Int → Int → QColor)
    (dataSeries : QMap DataSeries) (title xAxisLabel yAxisLabel chartType : String)
    (interpolate : Bool) (xMin xMax yMin yMax : Int) :
    (createJsonData fromHsv dataSeries title xAxisLabel yAxisLabel chartType interpolate
        xMin xMax yMin yMax).field "series" =
      some (QJsonValue.array (seriesArrayFrom fromHsv 0 dataSeries)) ∧
    (seriesArrayFrom fromHsv 0 dataSeries).length = dataSeries.length ∧
    (seriesArrayFrom fromHsv 0 dataSeries).map
        (fun o => (o.field "name", o.field "x_values", o.field "y_values")) =
      dataSeries.map (fun kv =>
        (some (QJsonValue.string kv.1),
         some (QJsonValue.array (kv.2.x.map QJsonValue.double)),
         some (QJsonValue.array (kv.2.y.map QJsonValue.double)))) := by
  refine ⟨?_, seriesArrayFrom_length fromHsv dataSeries 0,
    seriesArrayFrom_fields fromHsv dataSeries 0⟩
  simp only [createJsonData, QJsonValue.field, value?_insert_self]

theorem chartTypeToString_table (chartType : Int) :
    chartTypeToString chartType =
      ["line", "scatter", "bar", "area", "step", "sine"].getD chartType.toNat "line" := by
  unfold chartTypeToString
  rcases chartType with n | n
  · match n with
    | 0 => rfl
    | 1 => rfl
    | 2 => rfl
    | 3 => rfl
    | 4 => rfl
    | 5 => rfl
    | k + 6 =>
        have h0 : ¬ ((Int.ofNat (k + 6)) = 0) := by simp; omega
        have h1 : ¬ ((Int.ofNat (k + 6)) = 1) := by simp; omega
        have h2 : ¬ ((Int.ofNat (k + 6)) = 2) := by simp; omega
        have h3 : ¬ ((Int.ofNat (k + 6)) = 3) := by simp; omega
        have h4 : ¬ ((Int.ofNat (k + 6)) = 4) := by simp; omega
        have h5 : ¬ ((Int.ofNat (k + 6)) = 5) := by simp; omega
        simp only [h0, h1, h2, h3, h4, h5, if_false]
        rfl
  · rfl

theorem lineStyleString_table (lineStyle : Int) :
    lineStyleString lineStyle = ["-", "--", ":", "-."].getD lineStyle.toNat "-" := by
  unfold lineStyleString
  rcases lineStyle with n | n
  · match n with
    | 0 => rfl
    | 1 => rfl
    | 2 => rfl
    | 3 => rfl
    | k + 4 =>
        have h1 : ¬ ((Int.ofNat (k + 4)) = 1) := by simp; omega
        have h2 : ¬ ((Int.ofNat (k + 4)) = 2) := by simp; omega
        have h3 : ¬ ((Int.ofNat (k + 4)) = 3) := by simp; omega
        simp only [h1, h2, h3, if_false]
        rfl
  · rfl

theorem markerString_table (markerStyle : Int) :
    markerString markerStyle = ["", "o", "s", "^", "*"].getD markerStyle.toNat "" := by
  unfold markerString
  rcases markerStyle with n | n
  · match n with
    | 0 => rfl
    | 1 => rfl
    | 2 => rfl
    | 3 => rfl
    | 4 => rfl
    | k + 5 =>
        have h1 : ¬ ((Int.ofNat (k + 5)) = 1) := by simp; omega
        have h2 : ¬ ((Int.ofNat (k + 5)) = 2) := by simp; omega
        have h3 : ¬ ((Int.ofNat (k + 5)) = 3) := by simp; omega
        have h4 : ¬ ((Int.ofNat (k + 5)) = 4) := by simp; omega
        simp only [h1, h2, h3, h4, if_false]
        rfl
  · rfl

theorem getD_mem_or_default {α : Type} (l : List α) (i : Nat) (d : α) :
    l.getD i d ∈ d :: l := by
  by_cases h : i < l.length
  · rw [List.getD_eq_getElem l d h]
    exact List.mem_cons_of_mem _ (List.getElem_mem h)
  · rw [List.getD_eq_default l d (Nat.le_of_not_lt h)]
    exact List.mem_cons_self _ _

/-- C18 (enumerated wire fields). For every integer, `chartTypeToString` returns
the entry of the table line, scatter, bar, area, step, sine at that position,
and `line` for a position outside the table; the `line_style` a series is
encoded with is the entry of the table `-`, `--`, `:`, `-.` at its `lineStyle`,
and `-` outside; the `marker` is the entry of the table (empty), `o`, `s`, `^`,
`*` at its `markerStyle`, and empty outside. Each is therefore one of the
listed strings. -/
theorem enumerated_wire_fields (chartType : Int) (fromHsv : Int → Int → Int → QColor)
    (index : Nat) (key : String) (series : DataSeries) :
    chartTypeToString chartType =
      ["line", "scatter", "bar", "area", "step", "sine"].getD chartType.toNat "line" ∧
    chartTypeToString chartType ∈ ["line", "scatter", "bar", "area", "step", "sine"] ∧
    (seriesToJson fromHsv index key series).field "line_style" =
      some (QJsonValue.string (["-", "--", ":", "-."].getD series.lineStyle.toNat "-")) ∧
    lineStyleString series.lineStyle ∈ ["-", "--", ":", "-."] ∧
    (seriesToJson fromHsv index key series).field "marker" =
      some (QJsonValue.string (["", "o", "s", "^", "*"].getD series.markerStyle.toNat "")) ∧
    markerString series.markerStyle ∈ ["", "o", "s", "^", "*"] := by
  refine ⟨chartTypeToString_table chartType, ?_, ?_, ?_, ?_, ?_⟩
  · rw [chartTypeToString_table]
    have := getD_mem_or_default ["line", "scatter", "bar", "area", "step", "sine"]
      chartType.toNat "line"
    simpa using this
  · rw [← lineStyleString_table]
    simp [seriesToJson, QJsonValue.field, value?_insert_ne, value?_insert_self]
  · rw [lineStyleString_table]
    have := getD_mem_or_default ["-", "--", ":", "-."] series.lineStyle.toNat "-"
    simpa using this
  · rw [← markerString_table]
    simp [seriesToJson, QJsonValue.field, value?_insert_ne, value?_insert_self]
  · rw [markerString_table]
    have := getD_mem_or_default ["", "o", "s", "^", "*"] series.markerStyle.toNat ""
    simpa using this

set_option maxRecDepth 100000 in
theorem argHex_byte :
    ∀ n, n < 256 → argHex n = [Nat.digitChar (n / 16), Nat.digitChar (n % 16)] := by
  decide

/-- C19, counterexample. The colour blue is encoded as the nine characters
`'#0000ff'`, single quotes included: the string is not seven characters long and
does not begin with `#`. -/
theorem colour_encoding_counterexample :
    colorToString QColor.qtBlue =
      String.mk [singleQuote, '#', '0', '0', '0', '0', 'f', 'f', singleQuote] ∧
    (colorToString QColor.qtBlue).length = 9 ∧
    (colorToString QColor.qtBlue).length ≠ 7 ∧
    (colorToString QColor.qtBlue).toList.head? = some singleQuote ∧
    (colorToString QColor.qtBlue).toList.head? ≠ some '#' := by
  decide

/-- C19, amended. The `color` member of an encoded series is `colorToString` of
the colour of the series (of the generated colour when that one is invalid),
and for every colour with components in 0..255 `colorToString` is a string of
exactly 9 characters: a single quote, `#`, the two-digit lower-case hexadecimal
values of red, green and blue, and a single quote. -/
theorem colour_encoding (fromHsv : Int → Int → Int → QColor) (index : Nat) (key : String)
    (series : DataSeries) (c : QColor)
    (hr : c.red ≤ 255) (hg : c.green ≤ 255) (hb : c.blue ≤ 255) :
    (seriesToJson fromHsv index key series).field "color" =
      some (QJsonValue.string (colorToString
        (if series.color.valid then series.color
         else fromHsv ((index : Int) * 50 % 360) 200 220))) ∧
    colorToString c =
      String.mk
        [singleQuote, '#', Nat.digitChar (c.red / 16), Nat.digitChar (c.red % 16),
          Nat.digitChar (c.green / 16), Nat.digitChar (c.green % 16),
          Nat.digitChar (c.blue / 16), Nat.digitChar (c.blue % 16), singleQuote] ∧
    (colorToString c).length = 9 := by
  have e1 := argHex_byte c.red (by omega)
  have e2 := argHex_byte c.green (by omega)
  have e3 := argHex_byte c.blue (by omega)
  refine ⟨?_, ?_, ?_⟩
  · simp [seriesToJson, QJsonValue.field, value?_insert_ne, value?_insert_self]
  · simp [colorToString, e1, e2, e3]
  · simp [colorToString, e1, e2, e3, String.length]

/-- Witness of the amended C19 on the colour blue. -/
theorem colour_encoding_witness :
    QColor.qtBlue.red ≤ 255 ∧ QColor.qtBlue.green ≤ 255 ∧ QColor.qtBlue.blue ≤ 255 ∧
    (colorToString QColor.qtBlue).length = 9 :=
  ⟨by decide, by decide, by decide,
   (colour_encoding (fun _ _ _ => QColor.qtBlue) 0 "temp"
      { name := "temp", x := [], y := [], color := QColor.qtBlue, visible := true,
        lineStyle := 0, markerStyle := 0, lineWidth := 2 }
      QColor.qtBlue (by decide) (by decide) (by decide)).2.2⟩

/-! ## The parsers -/

theorem mem_insert {V : Type} (m : QMap V) (k : String) (v : V) (kv : String × V)
    (h : kv ∈ QMap.insert m k v) : kv = (k, v) ∨ kv ∈ m := by
  induction m with
  | nil => left; simpa [QMap.insert] using h
  | cons head rest ih =>
      obtain ⟨k0, v0⟩ := head
      unfold QMap.insert at h
      by_cases h1 : k = k0
      · rw [if_pos h1] at h
        rcases List.mem_cons.1 h with h | h
        · exact Or.inl h
        · exact Or.inr (List.mem_cons_of_mem _ h)
      · rw [if_neg h1] at h
        by_cases h2 : k.toList < k0.toList
        · rw [if_pos h2] at h
          rcases List.mem_cons.1 h with h | h
          · exact Or.inl h
          · exact Or.inr h
        · rw [if_neg h2] at h
          rcases List.mem_cons.1 h with h | h
          · exact Or.inr (h ▸ List.mem_cons_self _ _)
          · rcases ih h with h | h
            · exact Or.inl h
            · exact Or.inr (List.mem_cons_of_mem _ h)

theorem fold_lengths {α : Type} (f : DataSeries → α → DataSeries)
    (hf : ∀ s a, s.x.length = s.y.length → (f s a).x.length = (f s a).y.length)
    (l : List α) (s0 : DataSeries) (h0 : s0.x.length = s0.y.length) :
    (l.foldl f s0).x.length = (l.foldl f s0).y.length := by
  induction l generalizing s0 with
  | nil => exact h0
  | cons a rest ih => exact ih (f s0 a) (hf s0 a h0)

theorem generateSineWave_lengths (name : String) (xAt yAt : Nat → Int) (numPoints : Int) :
    (generateSineWave name xAt yAt numPoints).x.length =
      (generateSineWave name xAt yAt numPoints).y.length := by
  unfold generateSineWave
  apply fold_lengths
  · intro s a h
    simp [h]
  · rfl

theorem jsonPoints_lengths (obj : QMap QJsonValue) (series : DataSeries)
    (h : series.x.length = series.y.length) :
    (jsonPoints obj series).x.length = (jsonPoints obj series).y.length := by
  unfold jsonPoints
  split
  · apply fold_lengths
    · intro s a hs
      simp [hs]
    · exact h
  · split
    · apply fold_lengths
      · intro s a hs
        split
        · simp [hs]
        · exact hs
      · exact h
    · exact h

theorem jsonSeries_lengths (parseColor : String → QColor) (i : Nat) (value : QJsonValue) :
    (jsonSeries parseColor i value).x.length = (jsonSeries parseColor i value).y.length := by
  unfold jsonSeries
  apply jsonPoints_lengths
  have h1 : ∀ obj s, (jsonLineWidth obj s).x = s.x ∧ (jsonLineWidth obj s).y = s.y := by
    intro obj s; unfold jsonLineWidth; split <;> exact ⟨rfl, rfl⟩
  have h2 : ∀ obj s, (jsonMarkerStyle obj s).x = s.x ∧ (jsonMarkerStyle obj s).y = s.y := by
    intro obj s; unfold jsonMarkerStyle; split <;> exact ⟨rfl, rfl⟩
  have h3 : ∀ obj s, (jsonLineStyle obj s).x = s.x ∧ (jsonLineStyle obj s).y = s.y := by
    intro obj s; unfold jsonLineStyle; split <;> exact ⟨rfl, rfl⟩
  have h4 : ∀ obj s, (jsonVisible obj s).x = s.x ∧ (jsonVisible obj s).y = s.y := by
    intro obj s; unfold jsonVisible; split <;> exact ⟨rfl, rfl⟩
  have h5 : ∀ obj s, (jsonColor parseColor obj i s).x = s.x ∧
      (jsonColor parseColor obj i s).y = s.y := by
    intro obj s
    unfold jsonColor
    split
    · split <;> exact ⟨rfl, rfl⟩
    · exact ⟨rfl, rfl⟩
  rw [(h1 _ _).1, (h1 _ _).2, (h2 _ _).1, (h2 _ _).2, (h3 _ _).1, (h3 _ _).2, (h4 _ _).1,
    (h4 _ _).2, (h5 _ _).1, (h5 _ _).2]
  rfl

theorem jsonSeriesFrom_lengths (parseColor : String → QColor) (values : List QJsonValue) :
    ∀ (i : Nat) (acc : QMap DataSeries) (kv : String × DataSeries),
      kv ∈ jsonSeriesFrom parseColor i values acc →
      kv ∈ acc ∨ kv.2.x.length = kv.2.y.length := by
  induction values with
  | nil => intro i acc kv h; exact Or.inl h
  | cons value rest ih =>
      intro i acc kv h
      rcases ih (i + 1) _ kv h with h1 | h1
      · rcases mem_insert _ _ _ _ h1 with h2 | h2
        · right
          rw [h2]
          exact jsonSeries_lengths parseColor i value
        · exact Or.inl h2
      · exact Or.inr h1

theorem parseJSONFile_lengths (parseColor : String → QColor) (document : Option QJsonValue)
    (dataSeries : QMap DataSeries) (kv : String × DataSeries)
    (h : kv ∈ (parseJSONFile parseColor document dataSeries).2) :
    kv ∈ dataSeries ∨ kv.2.x.length = kv.2.y.length := by
  unfold parseJSONFile at h
  split at h
  · exact Or.inl h
  · split at h
    · exact Or.inl h
    · simp only [] at h
      split at h
      · exact jsonSeriesFrom_lengths parseColor _ 0 dataSeries kv h
      · exact Or.inl h

theorem zipWith_uniform (g : List Char → Int) (n : Nat) :
    ∀ (columns : List (List Int)) (parts : List (List Char)),
      (∀ c ∈ columns, c.length = n) →
      ∀ c ∈ List.zipWith (fun column part => column ++ [g part]) columns parts,
        c.length = n + 1 := by
  intro columns
  induction columns with
  | nil => intro parts _ c hc; simp at hc
  | cons col rest ih =>
      intro parts hall c hc
      cases parts with
      | nil => simp at hc
      | cons part parts1 =>
          simp only [List.zipWith_cons_cons, List.mem_cons] at hc
          rcases hc with hc | hc
          · rw [hc]
            simp [hall col (List.mem_cons_self _ _)]
          · exact ih parts1 (fun c hc1 => hall c (List.mem_cons_of_mem _ hc1)) c hc

theorem csvAddLine_uniform (toDouble : String → Option Int) (count : Nat)
    (columns : List (List Int)) (line : String)
    (h : columns.length = count ∧ ∃ n, ∀ c ∈ columns, c.length = n) :
    (csvAddLine toDouble count columns line).length = count ∧
    ∃ n, ∀ c ∈ csvAddLine toDouble count columns line, c.length = n := by
  obtain ⟨hlen, n, hall⟩ := h
  unfold csvAddLine
  simp only []
  split
  · exact ⟨hlen, n, hall⟩
  · split
    · exact ⟨hlen, n, hall⟩
    · next hparts =>
      split
      · exact ⟨hlen, n, hall⟩
      · split
        · exact ⟨hlen, n, hall⟩
        · refine ⟨?_, n + 1, zipWith_uniform _ n columns _ hall⟩
          have hp : (splitOn ',' (trimmed line.toList)).length = count := by
            simpa using hparts
          rw [List.length_zipWith, hlen, hp]
          exact Nat.min_self count

theorem csvFold_uniform (toDouble : String → Option Int) (count : Nat) (dataLines : List String) :
    ∀ columns : List (List Int),
      (columns.length = count ∧ ∃ n, ∀ c ∈ columns, c.length = n) →
      (dataLines.foldl (csvAddLine toDouble count) columns).length = count ∧
      ∃ n, ∀ c ∈ dataLines.foldl (csvAddLine toDouble count) columns, c.length = n := by
  induction dataLines with
  | nil => intro columns h; exact h
  | cons line rest ih =>
      intro columns h
      exact ih _ (csvAddLine_uniform toDouble count columns line h)

theorem csvSeries_lengths (names : List String) (columns : List (List Int))
    (startColumn i : Nat) (hi : i < columns.length) (n : Nat)
    (hall : ∀ c ∈ columns, c.length = n) :
    (csvSeries names columns startColumn i).x.length =
      (csvSeries names columns startColumn i).y.length := by
  have h0 : 0 < columns.length := by omega
  show (columns.getD 0 []).length = (columns.getD i []).length
  rw [List.getD_eq_getElem columns [] h0, List.getD_eq_getElem columns [] hi,
    hall _ (List.getElem_mem h0), hall _ (List.getElem_mem hi)]

theorem insertAll_lengths (series : Nat → DataSeries) (indices : List Nat)
    (hs : ∀ i ∈ indices, (series i).x.length = (series i).y.length) :
    ∀ (acc : QMap DataSeries) (kv : String × DataSeries),
      kv ∈ indices.foldl (fun acc i => QMap.insert acc (series i).name (series i)) acc →
      kv ∈ acc ∨ kv.2.x.length = kv.2.y.length := by
  induction indices with
  | nil => intro acc kv h; exact Or.inl h
  | cons i rest ih =>
      intro acc kv h
      rcases ih (fun j hj => hs j (List.mem_cons_of_mem _ hj)) _ kv h with h1 | h1
      · rcases mem_insert _ _ _ _ h1 with h2 | h2
        · right
          rw [h2]
          exact hs i (List.mem_cons_self _ _)
        · exact Or.inl h2
      · exact Or.inr h1

theorem parseCSVFile_lengths (toDouble : String → Option Int) (opened : Bool)
    (firstLine : Option String) (dataLines : List String) (format : Int)
    (dataSeries : QMap DataSeries) (kv : String × DataSeries)
    (h : kv ∈ (parseCSVFile toDouble opened firstLine dataLines format dataSeries).2) :
    kv ∈ dataSeries ∨ kv.2.x.length = kv.2.y.length := by
  unfold parseCSVFile at h
  split at h
  · exact Or.inl h
  · simp only [] at h
    generalize hnames : (match firstLine with
      | none => []
      | some line => csvColumnNames toDouble line) = names at h
    obtain ⟨hlen, n, hall⟩ := csvFold_uniform toDouble names.length dataLines
      (List.replicate names.length [])
      ⟨List.length_replicate _ _, 0, fun c hc => by
        rw [List.eq_of_mem_replicate hc]; rfl⟩
    refine insertAll_lengths _ _ ?_ dataSeries kv h
    intro i hi
    have hi1 : i < names.length := by
      have := (List.mem_filter.1 hi).1
      simpa using this
    exact csvSeries_lengths names _ _ i (by rw [hlen]; exact hi1) n hall

/-- C20 (DataSeries invariant). Every series that `parseCSVFile` or
`parseJSONFile` stores in the map it is given (for the JSON parser in the
`x_values`/`y_values` form, in the data-points form, and with neither), and the
series that `generateSineWave` returns, has as many x values as y values,
whatever the file content, the answers of the number parser and the number of
points. -/
theorem data_series_lengths (toDouble : String → Option Int) (opened : Bool)
    (firstLine : Option String) (dataLines : List String) (format : Int)
    (dataSeries : QMap DataSeries) (parseColor : String → QColor)
    (document : Option QJsonValue) (name : String) (xAt yAt : Nat → Int) (numPoints : Int) :
    (∀ kv ∈ (parseCSVFile toDouble opened firstLine dataLines format dataSeries).2,
      kv ∈ dataSeries ∨ kv.2.x.length = kv.2.y.length) ∧
    (∀ kv ∈ (parseJSONFile parseColor document dataSeries).2,
      kv ∈ dataSeries ∨ kv.2.x.length = kv.2.y.length) ∧
    (generateSineWave name xAt yAt numPoints).x.length =
      (generateSineWave name xAt yAt numPoints).y.length :=
  ⟨fun kv h => parseCSVFile_lengths toDouble opened firstLine dataLines format dataSeries kv h,
   fun kv h => parseJSONFile_lengths parseColor document dataSeries kv h,
   generateSineWave_lengths name xAt yAt numPoints⟩

/-! ## Visibility of the series sent to the worker -/

theorem contains_eq_isSome {V : Type} (m : QMap V) (k : String) :
    m.contains k = (m.value? k).isSome := by
  induction m with
  | nil => rfl
  | cons head rest ih =>
      obtain ⟨k0, v0⟩ := head
      by_cases h : k0 = k
      · subst h
        rw [value?_cons_self]
        simp [QMap.contains]
      · rw [value?_cons_ne _ _ _ _ h, ← ih]
        have hb : (k0 == k) = false := by simpa using h
        simp [QMap.contains, hb]

theorem contains_insert_self {V : Type} (m : QMap V) (k : String) (v : V) :
    (QMap.insert m k v).contains k = true := by
  rw [contains_eq_isSome, value?_insert_self]
  rfl

theorem contains_insert_mono {V : Type} (m : QMap V) (k key : String) (v : V)
    (h : m.contains key = true) : (QMap.insert m k v).contains key = true := by
  by_cases hk : k = key
  · subst hk; exact contains_insert_self m k v
  · rw [contains_eq_isSome, value?_insert_ne _ _ _ _ hk, ← contains_eq_isSome]
    exact h

theorem initVisibility_contains (series : QMap DataSeries) :
    ∀ vis : QMap Bool,
      (∀ k, vis.contains k = true → (initVisibility series vis).contains k = true) ∧
      (∀ kv ∈ series, (initVisibility series vis).contains kv.1 = true) := by
  induction series with
  | nil => intro vis; exact ⟨fun _ h => h, fun kv h => by simp at h⟩
  | cons head rest ih =>
      intro vis
      have hstep : initVisibility (head :: rest) vis =
          initVisibility rest
            (if vis.contains head.1 then vis else QMap.insert vis head.1 true) := rfl
      rw [hstep]
      obtain ⟨g1, g2⟩ := ih (if vis.contains head.1 then vis else QMap.insert vis head.1 true)
      have hmono : ∀ k, vis.contains k = true →
          (if vis.contains head.1 then vis else QMap.insert vis head.1 true).contains k
            = true := by
        intro k hk
        split
        · exact hk
        · exact contains_insert_mono vis head.1 k true hk
      have hhead : (if vis.contains head.1 then vis
          else QMap.insert vis head.1 true).contains head.1 = true := by
        split
        · assumption
        · exact contains_insert_self vis head.1 true
      refine ⟨fun k hk => g1 k (hmono k hk), ?_⟩
      intro kv hkv
      rcases List.mem_cons.1 hkv with h | h
      · rw [h]; exact g1 head.1 hhead
      · exact g2 kv h

theorem visKnown_congr {a b : PythonGraphWidget} (h1 : a.dataSeries = b.dataSeries)
    (h2 : a.seriesVisibility = b.seriesVisibility) (hb : VisibilityKnown b) :
    VisibilityKnown a := by
  unfold VisibilityKnown at *
  rw [h1, h2]
  exact hb

theorem trigger_data (w : World) :
    (triggerChartGeneration w).widget.dataSeries = w.widget.dataSeries ∧
    (triggerChartGeneration w).widget.seriesVisibility = w.widget.seriesVisibility := by
  unfold triggerChartGeneration
  split <;> exact ⟨rfl, rfl⟩

theorem onChart_data (w : World) (job : RenderJob) (path : String) (loadable : Bool) :
    (onChartImageGenerated w job path loadable).widget.dataSeries = w.widget.dataSeries ∧
    (onChartImageGenerated w job path loadable).widget.seriesVisibility =
      w.widget.seriesVisibility := by
  unfold onChartImageGenerated
  split <;> exact ⟨rfl, rfl⟩

theorem visKnown_trigger {w : World} (h : VisibilityKnown w.widget) :
    VisibilityKnown (triggerChartGeneration w).widget :=
  visKnown_congr (trigger_data w).1 (trigger_data w).2 h

theorem visKnown_mutate (m : Mutator) {w : World} (h : VisibilityKnown w.widget) :
    VisibilityKnown (m.apply w).widget := by
  cases m with
  | setTitle t => exact visKnown_trigger (w := { w with widget := { w.widget with title := t } }) h
  | setDataSeries series =>
      apply visKnown_trigger
        (w := { w with
          widget :=
            { w.widget with
              dataSeries := series
              seriesVisibility := initVisibility series w.widget.seriesVisibility } })
      exact (initVisibility_contains series w.widget.seriesVisibility).2
  | toggleSeriesVisibility n v =>
      show VisibilityKnown (toggleSeriesVisibility n v w).widget
      unfold toggleSeriesVisibility
      split
      · apply visKnown_trigger
          (w := { w with
            widget :=
              { w.widget with
                seriesVisibility := QMap.insert w.widget.seriesVisibility n v } })
        intro kv hkv
        exact contains_insert_mono _ n kv.1 v (h kv hkv)
      · exact h
  | setXAxisLabel l =>
      exact visKnown_trigger (w := { w with widget := { w.widget with xAxisLabel := l } }) h
  | setYAxisLabel l =>
      exact visKnown_trigger (w := { w with widget := { w.widget with yAxisLabel := l } }) h
  | setGraphType t =>
      exact visKnown_trigger (w := { w with widget := { w.widget with graphType := t } }) h
  | setGraphColor c =>
      exact visKnown_trigger (w := { w with widget := { w.widget with graphColor := c } }) h
  | setInterpolate e =>
      exact visKnown_trigger (w := { w with widget := { w.widget with interpolate := e } }) h
  | updateChart => exact visKnown_trigger h
  | resizeEvent width height =>
      show VisibilityKnown (resizeEvent width height w).widget
      unfold resizeEvent
      simp only []
      split
      · exact visKnown_trigger
          (w := { w with widget := { w.widget with width := width, height := height } }) h
      · exact h

theorem visKnown_step {w : World} (h : VisibilityKnown w.widget) (e : Event) :
    VisibilityKnown (step w e).widget := by
  cases e with
  | mutate m => exact visKnown_mutate m h
  | requestDebounced =>
      show VisibilityKnown (generateChartImage w).widget
      unfold generateChartImage
      split
      · exact h
      · exact h
  | elapse dt => exact h
  | debounceFires =>
      show VisibilityKnown (debounceTimeout w).widget
      unfold debounceTimeout
      split
      · exact h
      · split
        · exact h
        · exact h
  | settleFires i =>
      show VisibilityKnown (match w.settleTimers.get? i with
        | none => w
        | some deadline =>
            if deadline ≤ w.now then
              triggerChartGeneration { w with settleTimers := w.settleTimers.eraseIdx i }
            else w).widget
      split
      · exact h
      · split
        · exact visKnown_trigger (w := { w with settleTimers := w.settleTimers.eraseIdx i }) h
        · exact h
  | finished i outcome loadable =>
      show VisibilityKnown (match w.jobs.get? i with
        | none => w
        | some job =>
            onChartImageGenerated { w with jobs := w.jobs.eraseIdx i } job
              (generateChartResult outcome) loadable).widget
      split
      · exact h
      · exact visKnown_congr (onChart_data _ _ _ _).1 (onChart_data _ _ _ _).2 h

theorem visKnown_run {w : World} (h : VisibilityKnown w.widget) (events : List Event) :
    VisibilityKnown (run w events).widget := by
  induction events generalizing w with
  | nil => exact h
  | cons e es ih => exact ih (visKnown_step h e)

theorem mem_filterFold (cond : String → Bool) (l : QMap DataSeries) :
    ∀ (acc : QMap DataSeries) (kv : String × DataSeries),
      kv ∈ l.foldl (fun acc e => if cond e.1 then QMap.insert acc e.1 e.2 else acc) acc →
      kv ∈ acc ∨ (kv ∈ l ∧ cond kv.1 = true) := by
  induction l with
  | nil => intro acc kv h; exact Or.inl h
  | cons head rest ih =>
      intro acc kv h
      rcases ih _ kv h with h1 | ⟨h1, h2⟩
      · have h1 : kv ∈ (if cond head.1 = true then QMap.insert acc head.1 head.2 else acc) := h1
        by_cases hc : cond head.1 = true
        · rw [if_pos hc] at h1
          rcases mem_insert _ _ _ _ h1 with h3 | h3
          · right
            have : kv = head := h3
            rw [this]
            exact ⟨List.mem_cons_self _ _, hc⟩
          · exact Or.inl h3
        · rw [if_neg hc] at h1
          exact Or.inl h1
      · exact Or.inr ⟨List.mem_cons_of_mem _ h1, h2⟩

theorem mem_visibleSeriesOf (wd : PythonGraphWidget) (kv : String × DataSeries)
    (h : kv ∈ visibleSeriesOf wd) :
    kv ∈ wd.dataSeries ∧
    (!wd.seriesVisibility.contains kv.1 || wd.seriesVisibility.value? kv.1 == some true)
      = true := by
  have := mem_filterFold
    (fun k => !wd.seriesVisibility.contains k || wd.seriesVisibility.value? k == some true)
    wd.dataSeries [] kv h
  rcases this with h1 | h1
  · simp at h1
  · exact h1

theorem visKnown_init (width height : Int) : VisibilityKnown (World.init width height).widget := by
  intro kv hkv
  simp [World.init] at hkv

/-- C17, counterexample. A JSON data file declares one series with
`"visible": false`. `parseJSONFile` stores the flag in the series,
`setDataSeries` marks the series visible in the widget, and the render job that
is dispatched carries the series: the worker is sent a series whose `visible`
flag is false, and the encoded object says `"visible": false`. -/
theorem visible_only_counterexample :
    hiddenSeries.map (fun kv => (kv.1, kv.2.visible)) = [("hidden", false)] ∧
    hiddenLoaded.widget.seriesVisibility = [("hidden", true)] ∧
    hiddenLoaded.jobs.map (fun job => job.visibleSeries.map (fun kv => (kv.1, kv.2.visible)))
      = [[("hidden", false)]] ∧
    (seriesArrayFrom (fun _ _ _ => QColor.qtBlue) 0 (visibleSeriesOf hiddenLoaded.widget)).map
        (fun o => (o.field "visible").map QJsonValue.toBool) = [some false] := by
  decide

/-- C17, amended. In every reachable state of the widget, every series that
`triggerChartGeneration` hands to `generateChart` is a series of the widget
whose entry in the widget's `seriesVisibility` map is true, and a series whose
entry is false is not handed over. The `visible` member of the series itself is
not looked at by this filter; the encoder writes it as it is. -/
theorem only_unhidden_series_sent (width height : Int) (events : List Event)
    (fromHsv : Int → Int → Int → QColor) (index : Nat) (key : String) (series : DataSeries)
    (seq : Nat) :
    (∀ kv ∈ visibleSeriesOf (run (World.init width height) events).widget,
      kv ∈ (run (World.init width height) events).widget.dataSeries ∧
      (run (World.init width height) events).widget.seriesVisibility.value? kv.1 =
        some true) ∧
    (∀ name,
      (run (World.init width height) events).widget.seriesVisibility.value? name = some false →
      (visibleSeriesOf (run (World.init width height) events).widget).contains name = false) ∧
    (renderJobOf (run (World.init width height) events).widget seq).visibleSeries =
      visibleSeriesOf (run (World.init width height) events).widget ∧
    (seriesToJson fromHsv index key series).field "visible" =
      some (QJsonValue.bool series.visible) := by
  have hknown := visKnown_run (visKnown_init width height) events
  refine ⟨?_, ?_, rfl, ?_⟩
  · intro kv hkv
    obtain ⟨h1, h2⟩ := mem_visibleSeriesOf _ kv hkv
    refine ⟨h1, ?_⟩
    have hc := hknown kv h1
    rw [hc] at h2
    simpa using h2
  · intro name hname
    cases hcon : (visibleSeriesOf (run (World.init width height) events).widget).contains name
      with
    | false => rfl
    | true =>
        exfalso
        obtain ⟨kv, hkv, hk⟩ := List.any_eq_true.1 hcon
        have hk1 : kv.1 = name := by simpa using hk
        obtain ⟨_, h2⟩ := mem_visibleSeriesOf _ kv hkv
        rw [hk1] at h2
        have hc : (run (World.init width height) events).widget.seriesVisibility.contains name
            = true := by
          rw [contains_eq_isSome, hname]; rfl
        rw [hc, hname] at h2
        simp at h2
  · simp [seriesToJson, QJsonValue.field, value?_insert_ne, value?_insert_self]

/-! ## Telemetry -/

theorem trigger_idle_total (w : World) (h : w.widget.chartGenerationInProgress = false) :
    (triggerChartGeneration w).s_totalRequestCount =
      (if windowExpired w then 1 else w.s_totalRequestCount + 1) ∧
    (triggerChartGeneration w).s_globalRequestTimer =
      (if windowExpired w then some w.now
       else if w.s_totalRequestCount + 1 = 1 then some w.now else w.s_globalRequestTimer) := by
  simp [triggerChartGeneration, h, windowExpired]

/-- C21 (telemetry counting). A call of `triggerChartGeneration` that dispatches
(the widget is idle) increases `chartRequestCount` by exactly 1 and, unless the
observation window has expired, `s_totalRequestCount` by exactly 1 (it becomes 1
when the window has expired). A request that makes the global counter 1
restarts the global clock. After `resetRequestCounts` the next dispatch leaves
both counters at 1 and the clock started at the current instant. -/
theorem telemetry_counting (w : World) (h : w.widget.chartGenerationInProgress = false) :
    (triggerChartGeneration w).widget.chartRequestCount = w.widget.chartRequestCount + 1 ∧
    (triggerChartGeneration w).s_totalRequestCount =
      (if windowExpired w then 1 else w.s_totalRequestCount + 1) ∧
    (if w.s_totalRequestCount = 0 then
      (triggerChartGeneration w).s_globalRequestTimer = some w.now ∧
      (triggerChartGeneration w).s_totalRequestCount = 1
     else True) ∧
    (triggerChartGeneration (resetRequestCounts w)).widget.chartRequestCount = 1 ∧
    (triggerChartGeneration (resetRequestCounts w)).s_totalRequestCount = 1 ∧
    (triggerChartGeneration (resetRequestCounts w)).s_globalRequestTimer = some w.now ∧
    elapsed (triggerChartGeneration (resetRequestCounts w)).s_globalRequestTimer w.now = 0 := by
  have hr : (resetRequestCounts w).widget.chartGenerationInProgress = false := h
  refine ⟨by rw [trigger_idle_widget w h], (trigger_idle_total w h).1, ?_, ?_, ?_, ?_, ?_⟩
  · split
    · next h0 =>
        simp [triggerChartGeneration, h, h0, elapsed]
    · trivial
  · rw [trigger_idle_widget _ hr]
    rfl
  · simp [triggerChartGeneration, h, resetRequestCounts, elapsed]
  · simp [triggerChartGeneration, h, resetRequestCounts, elapsed]
  · simp [triggerChartGeneration, h, resetRequestCounts, elapsed]

/-- Witness of C21 on the idle widget with data. -/
theorem telemetry_counting_witness :
    idleWithData.widget.chartGenerationInProgress = false ∧
    (triggerChartGeneration idleWithData).widget.chartRequestCount =
      idleWithData.widget.chartRequestCount + 1 ∧
    (triggerChartGeneration (resetRequestCounts idleWithData)).s_totalRequestCount = 1 :=
  ⟨by decide, (telemetry_counting idleWithData (by decide)).1,
    (telemetry_counting idleWithData (by decide)).2.2.2.2.1⟩

/-- C22 (observation-window reset). Let the global clock have been started at
`start`. A dispatch more than 600000 ms later leaves the global counter at 1
and the clock restarted at the current instant; a dispatch at most 600000 ms
later increases the global counter by 1 (and restarts the clock only if the
counter was 0). The per-element counter increases by 1 in both cases. -/
theorem observation_window (w : World) (start : Nat)
    (h : w.widget.chartGenerationInProgress = false)
    (htimer : w.s_globalRequestTimer = some start) :
    (triggerChartGeneration w).s_totalRequestCount =
      (if w.now - start > 600000 then 1 else w.s_totalRequestCount + 1) ∧
    (triggerChartGeneration w).s_globalRequestTimer =
      (if w.now - start > 600000 then some w.now
       else if w.s_totalRequestCount = 0 then some w.now else some start) ∧
    (if w.now - start > 600000 then
      elapsed (triggerChartGeneration w).s_globalRequestTimer w.now = 0
     else True) ∧
    (triggerChartGeneration w).widget.chartRequestCount = w.widget.chartRequestCount + 1 := by
  obtain ⟨h1, h2⟩ := trigger_idle_total w h
  have hcount : (triggerChartGeneration w).widget.chartRequestCount =
      w.widget.chartRequestCount + 1 := by rw [trigger_idle_widget w h]
  by_cases h0 : w.s_totalRequestCount = 0
  · have he : windowExpired w = false := by
      simp [windowExpired, h0, elapsed]
    rw [h1, h2, he]
    by_cases hx : w.now - start > 600000
    · simp [h0, hx, elapsed]
      exact hcount
    · simp [h0, hx]
      exact hcount
  · have he : windowExpired w = decide (w.now - start > 600000) := by
      simp [windowExpired, h0, htimer, elapsed]
    rw [h1, h2, he]
    by_cases hx : w.now - start > 600000
    · simp [h0, hx, elapsed]
      exact hcount
    · simp [h0, hx, htimer]
      exact hcount

/-- Witness of C22: a dispatch 600001 ms after the clock was started. -/
theorem observation_window_witness :
    afterLongPause.widget.chartGenerationInProgress = false ∧
    afterLongPause.s_globalRequestTimer = some 0 ∧
    afterLongPause.now = 600001 ∧
    afterLongPause.s_totalRequestCount = 1 ∧
    (triggerChartGeneration afterLongPause).s_totalRequestCount =
      (if afterLongPause.now - 0 > 600000 then 1 else afterLongPause.s_totalRequestCount + 1) :=
  ⟨by decide, by decide, by decide, by decide,
    (observation_window afterLongPause 0 (by decide) (by decide)).1⟩

/-- C23 (telemetry does not throttle). Two worlds that differ only in the
per-element counter, the global counter and the global clock get the same
decision from `triggerChartGeneration`: the same number of jobs afterwards, the
same in-flight and pending flags, the same job contents, and the same widget
apart from the counter. -/
theorem telemetry_noninterference (w : World) (count total : Nat) (timer : Option Nat) :
    (triggerChartGeneration (withTelemetry w count total timer)).jobs.length =
      (triggerChartGeneration w).jobs.length ∧
    (triggerChartGeneration (withTelemetry w count total timer)).widget.chartGenerationInProgress
      = (triggerChartGeneration w).widget.chartGenerationInProgress ∧
    (triggerChartGeneration (withTelemetry w count total timer)).widget.pendingChartRequest =
      (triggerChartGeneration w).widget.pendingChartRequest ∧
    (triggerChartGeneration (withTelemetry w count total timer)).jobs.map RenderJob.contents =
      (triggerChartGeneration w).jobs.map RenderJob.contents ∧
    { (triggerChartGeneration (withTelemetry w count total timer)).widget with
        chartRequestCount := 0 } =
      { (triggerChartGeneration w).widget with chartRequestCount := 0 } := by
  cases h : w.widget.chartGenerationInProgress with
  | true =>
      simp [triggerChartGeneration, withTelemetry, h]
  | false =>
      simp [triggerChartGeneration, withTelemetry, h, renderJobOf, RenderJob.contents,
        visibleSeriesOf]

/-! ## Coalescing of queued requests -/

theorem trigger_idempotent_in_flight (w : World)
    (h : w.widget.chartGenerationInProgress = true) :
    triggerChartGeneration (triggerChartGeneration w) = triggerChartGeneration w := by
  have h1 : (triggerChartGeneration w).widget.chartGenerationInProgress = true := by
    rw [trigger_in_flight w h]; exact h
  rw [trigger_in_flight _ h1, trigger_in_flight w h]

theorem trigger_iterate_in_flight (w : World)
    (h : w.widget.chartGenerationInProgress = true) (n : Nat) :
    triggerChartGeneration^[n] (triggerChartGeneration w) = triggerChartGeneration w := by
  induction n with
  | zero => rfl
  | succ k ih =>
      rw [Function.iterate_succ_apply, trigger_idempotent_in_flight w h, ih]

theorem queued_then_finished (w : World) (job : RenderJob)
    (h : w.widget.chartGenerationInProgress = true) (hjob : w.jobs = [job])
    (outcome : JobOutcome) (loadable : Bool) :
    (step (triggerChartGeneration w) (.finished 0 outcome loadable)).settleTimers =
      w.settleTimers ++ [w.now + 100] ∧
    (step (triggerChartGeneration w) (.finished 0 outcome loadable)).jobs = [] ∧
    (step (triggerChartGeneration w) (.finished 0 outcome loadable)).now = w.now ∧
    (step (triggerChartGeneration w)
      (.finished 0 outcome loadable)).widget.chartGenerationInProgress = false ∧
    (step (triggerChartGeneration w)
      (.finished 0 outcome loadable)).widget.pendingChartRequest = false ∧
    (step (triggerChartGeneration w)
      (.finished 0 outcome loadable)).widget.chartRequestCount = w.widget.chartRequestCount ∧
    (∀ seq, renderJobOf (step (triggerChartGeneration w)
      (.finished 0 outcome loadable)).widget seq = renderJobOf w.widget seq) := by
  have hj : (triggerChartGeneration w).jobs = [job] := by
    rw [trigger_in_flight w h]; exact hjob
  rw [finish_single _ job hj, trigger_in_flight w h]
  simp [onChartImageGenerated, renderJobOf, visibleSeriesOf]

/-- C27 (coalescing of queued requests). While one render is in flight, N + 1
calls of `triggerChartGeneration` leave the same world as one call. When the
render then completes, exactly one settle timer is armed, and when it fires
after 100 ms exactly one further render is dispatched: the job list holds one
job, the request counter has grown by one, and no request is pending. -/
theorem coalescing (w : World) (job : RenderJob) (n : Nat)
    (h : w.widget.chartGenerationInProgress = true) (hjob : w.jobs = [job])
    (outcome : JobOutcome) (loadable : Bool) :
    triggerChartGeneration^[n + 1] w = triggerChartGeneration w ∧
    (step (triggerChartGeneration^[n + 1] w) (.finished 0 outcome loadable)).settleTimers =
      w.settleTimers ++ [w.now + 100] ∧
    (step (triggerChartGeneration^[n + 1] w) (.finished 0 outcome loadable)).jobs = [] ∧
    (run (triggerChartGeneration^[n + 1] w)
      [.finished 0 outcome loadable, .elapse 100, .settleFires w.settleTimers.length]).jobs =
      [renderJobOf w.widget (w.widget.chartRequestCount + 1)] ∧
    (run (triggerChartGeneration^[n + 1] w)
      [.finished 0 outcome loadable, .elapse 100,
       .settleFires w.settleTimers.length]).widget.chartRequestCount =
      w.widget.chartRequestCount + 1 ∧
    (run (triggerChartGeneration^[n + 1] w)
      [.finished 0 outcome loadable, .elapse 100,
       .settleFires w.settleTimers.length]).widget.pendingChartRequest = false ∧
    (run (triggerChartGeneration^[n + 1] w)
      [.finished 0 outcome loadable, .elapse 100,
       .settleFires w.settleTimers.length]).settleTimers = w.settleTimers := by
  have hit : triggerChartGeneration^[n + 1] w = triggerChartGeneration w := by
    rw [Function.iterate_succ_apply]
    exact trigger_iterate_in_flight w h n
  obtain ⟨f1, f2, f3, f4, f5, f6, f7⟩ := queued_then_finished w job h hjob outcome loadable
  rw [hit]
  refine ⟨rfl, f1, f2, ?_⟩
  have e : run (triggerChartGeneration w)
      [.finished 0 outcome loadable, .elapse 100, .settleFires w.settleTimers.length] =
      step (step (step (triggerChartGeneration w) (.finished 0 outcome loadable))
        (.elapse 100)) (.settleFires w.settleTimers.length) := rfl
  rw [e]
  generalize step (triggerChartGeneration w) (.finished 0 outcome loadable) = w1 at *
  have e2 : step w1 (.elapse 100) = { w1 with now := w1.now + 100 } := rfl
  rw [e2]
  have hd : w.now + 100 ≤ ({ w1 with now := w1.now + 100 } : World).now := by
    show w.now + 100 ≤ w1.now + 100
    rw [f3]
  rw [fire_last ({ w1 with now := w1.now + 100 } : World) w.settleTimers (w.now + 100) f1 hd]
  have hidle : ({ ({ w1 with now := w1.now + 100 } : World) with
      settleTimers := w.settleTimers } : World).widget.chartGenerationInProgress = false := f4
  refine ⟨?_, ?_, ?_, ?_⟩
  · rw [trigger_idle_jobs _ hidle]
    show w1.jobs ++ [renderJobOf w1.widget (w1.widget.chartRequestCount + 1)] = _
    rw [f2, f6, f7]
    rfl
  · rw [trigger_idle_widget _ hidle]
    show w1.widget.chartRequestCount + 1 = _
    rw [f6]
  · rw [trigger_idle_widget _ hidle]
  · rw [trigger_settleTimers]

/-- Witness of C27: three calls while the first render of the widget with data
is in flight. -/
theorem coalescing_witness :
    (triggerChartGeneration idleWithData).widget.chartGenerationInProgress = true ∧
    triggerChartGeneration^[2 + 1] (triggerChartGeneration idleWithData) =
      triggerChartGeneration (triggerChartGeneration idleWithData) :=
  ⟨by decide,
    (coalescing (triggerChartGeneration idleWithData)
      (renderJobOf idleWithData.widget (idleWithData.widget.chartRequestCount + 1)) 2
      (by decide) (by decide) (JobOutcome.exited "Chart generated: /tmp/x.png") true).1⟩

/-! ## Crash handling -/

theorem restart_timer_last (b : Bridge) (timers : List (Nat × Nat)) (self deadline : Nat)
    (started : Bool) (h : b.restartTimers = timers ++ [(self, deadline)]) :
    b.step (.restartFires timers.length started) =
      if self ∈ b.instances ∧ deadline ≤ b.now then
        Bridge.startPythonServer { b with restartTimers := timers } started
      else b := by
  simp [Bridge.step, h, List.eraseIdx_append_of_length_le]

/-- C26 (crash handling). Called with a non-zero exit code or a non-normal exit
status, `onPythonProcessFinished` clears the shared process handle and arms
exactly one restart timer, due 100 ms later, and starts nothing itself; that
timer does nothing before the 100 ms have passed and runs `startPythonServer`
once they have. Called with exit code 0 and normal exit status it leaves the
bridge as it was. -/
theorem crash_handling (b : Bridge) (self : Nat) (exitCode : Int) (exitStatus : ExitStatus)
    (started : Bool) (hself : self ∈ b.instances) :
    if exitCode ≠ 0 ∨ exitStatus ≠ ExitStatus.NormalExit then
      (b.onPythonProcessFinished self exitCode exitStatus).s_pythonProcess = none ∧
      (b.onPythonProcessFinished self exitCode exitStatus).restartTimers =
        b.restartTimers ++ [(self, b.now + 100)] ∧
      (b.onPythonProcessFinished self exitCode exitStatus).calls = b.calls ∧
      (∀ dt, dt < 100 →
        (b.onPythonProcessFinished self exitCode exitStatus).run
            [.elapse dt, .restartFires b.restartTimers.length started] =
          (b.onPythonProcessFinished self exitCode exitStatus).step (.elapse dt)) ∧
      (b.onPythonProcessFinished self exitCode exitStatus).run
          [.elapse 100, .restartFires b.restartTimers.length started] =
        Bridge.startPythonServer
          { (b.onPythonProcessFinished self exitCode exitStatus).step (.elapse 100) with
            restartTimers := b.restartTimers } started
    else b.onPythonProcessFinished self exitCode exitStatus = b := by
  by_cases hc : exitCode ≠ 0 ∨ exitStatus ≠ ExitStatus.NormalExit
  · rw [if_pos hc]
    have e : b.onPythonProcessFinished self exitCode exitStatus =
        { b with
          s_pythonProcess := none
          restartTimers := b.restartTimers ++ [(self, b.now + 100)]
          crashOutstanding := true } := by
      unfold Bridge.onPythonProcessFinished
      rw [if_pos hc]
    have ht : (b.onPythonProcessFinished self exitCode exitStatus).restartTimers =
        b.restartTimers ++ [(self, b.now + 100)] := by rw [e]
    have hnow : (b.onPythonProcessFinished self exitCode exitStatus).now = b.now := by rw [e]
    have hin : (b.onPythonProcessFinished self exitCode exitStatus).instances = b.instances := by
      rw [e]
    refine ⟨by rw [e], ht, by rw [e], ?_, ?_⟩
    · intro dt hdt
      generalize b.onPythonProcessFinished self exitCode exitStatus = b1 at ht hnow hin
      have e2 : b1.run [.elapse dt, .restartFires b.restartTimers.length started] =
          Bridge.step (b1.step (.elapse dt)) (.restartFires b.restartTimers.length started) := rfl
      have ht2 : (b1.step (.elapse dt)).restartTimers =
          b.restartTimers ++ [(self, b.now + 100)] := ht
      have hnow2 : (b1.step (.elapse dt)).now = b.now + dt := by
        show b1.now + dt = _
        rw [hnow]
      rw [e2, restart_timer_last (b1.step (.elapse dt)) b.restartTimers self (b.now + 100)
        started ht2, hnow2]
      have hn : ¬ (b.now + 100 ≤ b.now + dt) := by omega
      simp [hn]
    · generalize b.onPythonProcessFinished self exitCode exitStatus = b1 at ht hnow hin
      have e2 : b1.run [.elapse 100, .restartFires b.restartTimers.length started] =
          Bridge.step (b1.step (.elapse 100)) (.restartFires b.restartTimers.length started) :=
        rfl
      have ht2 : (b1.step (.elapse 100)).restartTimers =
          b.restartTimers ++ [(self, b.now + 100)] := ht
      have hnow2 : (b1.step (.elapse 100)).now = b.now + 100 := by
        show b1.now + 100 = _
        rw [hnow]
      have hin2 : (b1.step (.elapse 100)).instances = b.instances := hin
      rw [e2, restart_timer_last (b1.step (.elapse 100)) b.restartTimers self (b.now + 100)
        started ht2, if_pos ⟨by rw [hin2]; exact hself, by rw [hnow2]⟩]
  · rw [if_neg hc]
    unfold Bridge.onPythonProcessFinished
    rw [if_neg hc]

/-- Witness of C26: the worker of a bridge with one instance exits with code 1. -/
theorem crash_handling_witness :
    (0 : Nat) ∈ (Bridge.init.run [.construct, .initFires 0 "python3" "/app/python" true]).instances ∧
    (if (1 : Int) ≠ 0 ∨ ExitStatus.NormalExit ≠ ExitStatus.NormalExit then
      ((Bridge.init.run [.construct, .initFires 0 "python3" "/app/python" true]
        ).onPythonProcessFinished 0 1 ExitStatus.NormalExit).s_pythonProcess = none
     else True) :=
  ⟨by decide, by
    have h := crash_handling
      (Bridge.init.run [.construct, .initFires 0 "python3" "/app/python" true]) 0 1
      ExitStatus.NormalExit true (by decide)
    rw [if_pos (by decide)] at h
    rw [if_pos (by decide)]
    exact h.1⟩

/-! ## Axis limits -/

/-- C28 (axis limits). The document of `createJsonData` has the members `x_min`
and `x_max` exactly when both `xMin` and `xMax` differ from -1, and then with
the given values; it has `y_min` and `y_max` exactly when both `yMin` and
`yMax` differ from -1, and then with the given values. The two pairs are
decided independently of each other. -/
theorem axis_limits (fromHsv : Int → Int → Int → QColor)
    (dataSeries : QMap DataSeries) (title xAxisLabel yAxisLabel chartType : String)
    (interpolate : Bool) (xMin xMax yMin yMax : Int) :
    (createJsonData fromHsv dataSeries title xAxisLabel yAxisLabel chartType interpolate
        xMin xMax yMin yMax).field "x_min" =
      (if xMin ≠ -1 ∧ xMax ≠ -1 then some (QJsonValue.double xMin) else none) ∧
    (createJsonData fromHsv dataSeries title xAxisLabel yAxisLabel chartType interpolate
        xMin xMax yMin yMax).field "x_max" =
      (if xMin ≠ -1 ∧ xMax ≠ -1 then some (QJsonValue.double xMax) else none) ∧
    (createJsonData fromHsv dataSeries title xAxisLabel yAxisLabel chartType interpolate
        xMin xMax yMin yMax).field "y_min" =
      (if yMin ≠ -1 ∧ yMax ≠ -1 then some (QJsonValue.double yMin) else none) ∧
    (createJsonData fromHsv dataSeries title xAxisLabel yAxisLabel chartType interpolate
        xMin xMax yMin yMax).field "y_max" =
      (if yMin ≠ -1 ∧ yMax ≠ -1 then some (QJsonValue.double yMax) else none) := by
  have hnil : ∀ key : String, QMap.value? ([] : QMap QJsonValue) key = none := fun _ => rfl
  by_cases hx : xMin ≠ -1 ∧ xMax ≠ -1 <;> by_cases hy : yMin ≠ -1 ∧ yMax ≠ -1 <;>
    simp only [createJsonData, QJsonValue.field] <;>
    (first | rw [if_pos hx] | rw [if_neg hx]) <;>
    (first | rw [if_pos hy] | rw [if_neg hy]) <;>
    refine ⟨?_, ?_, ?_, ?_⟩ <;>
    simp [value?_insert_ne, value?_insert_self, hnil, hx, hy]

/-! ## Determinism of the encoding -/

theorem toList_ne {a b : String} (h : a ≠ b) : a.toList ≠ b.toList :=
  fun e => h (String.ext e)

theorem ascending_insert {V : Type} (m : QMap V) (k : String) (v : V) (h : m.Ascending) :
    (QMap.insert m k v).Ascending := by
  induction m with
  | nil => exact List.pairwise_singleton _ _
  | cons head rest ih =>
      obtain ⟨k0, v0⟩ := head
      obtain ⟨h1, h2⟩ := List.pairwise_cons.1 h
      unfold QMap.insert
      by_cases e1 : k = k0
      · rw [if_pos e1]
        subst e1
        exact List.pairwise_cons.2 ⟨h1, h2⟩
      · rw [if_neg e1]
        by_cases e2 : k.toList < k0.toList
        · rw [if_pos e2]
          refine List.pairwise_cons.2 ⟨?_, h⟩
          intro kv hkv
          rcases List.mem_cons.1 hkv with rfl | hkv
          · exact e2
          · exact lt_trans e2 (h1 kv hkv)
        · rw [if_neg e2]
          refine List.pairwise_cons.2 ⟨?_, ih h2⟩
          intro kv hkv
          rcases mem_insert rest k v kv hkv with rfl | hkv
          · rcases lt_trichotomy k.toList k0.toList with l | l | l
            · exact absurd l e2
            · exact absurd l (toList_ne e1)
            · exact l
          · exact h1 kv hkv

theorem ascending_fold {V : Type} (entries : List (String × V)) (m : QMap V)
    (h : m.Ascending) :
    (entries.foldl (fun m kv => QMap.insert m kv.1 kv.2) m).Ascending := by
  induction entries generalizing m with
  | nil => exact h
  | cons e rest ih => exact ih _ (ascending_insert m e.1 e.2 h)

theorem ascending_assign {V : Type} (entries : List (String × V)) :
    (QMap.assign entries).Ascending :=
  ascending_fold entries [] List.Pairwise.nil

theorem value?_mem {V : Type} (m : QMap V) (k : String) (v : V) (h : QMap.value? m k = some v) :
    (k, v) ∈ m := by
  induction m with
  | nil => simp [QMap.value?] at h
  | cons head rest ih =>
      obtain ⟨k0, v0⟩ := head
      by_cases e : k0 = k
      · subst e
        rw [value?_cons_self] at h
        rw [Option.some.inj h]
        exact List.mem_cons_self _ _
      · rw [value?_cons_ne _ _ _ _ e] at h
        exact List.mem_cons_of_mem _ (ih h)

theorem value?_none_of_lt {V : Type} (m : QMap V) (k : String)
    (h : ∀ kv ∈ m, k.toList < kv.1.toList) : QMap.value? m k = none := by
  cases hv : QMap.value? m k with
  | none => rfl
  | some v => exact absurd (h _ (value?_mem m k v hv)) (lt_irrefl _)

theorem ascending_ext {V : Type} (m1 m2 : QMap V) (h1 : m1.Ascending) (h2 : m2.Ascending)
    (h : ∀ k, QMap.value? m1 k = QMap.value? m2 k) : m1 = m2 := by
  induction m1 generalizing m2 with
  | nil =>
      cases m2 with
      | nil => rfl
      | cons head rest =>
          have := h head.1
          rw [show head = (head.1, head.2) from rfl, value?_cons_self] at this
          simp [QMap.value?] at this
  | cons a r1 ih =>
      obtain ⟨k1, v1⟩ := a
      cases m2 with
      | nil =>
          have := h k1
          rw [value?_cons_self] at this
          simp [QMap.value?] at this
      | cons b r2 =>
          obtain ⟨k2, v2⟩ := b
          obtain ⟨a1, a2⟩ := List.pairwise_cons.1 h1
          obtain ⟨b1, b2⟩ := List.pairwise_cons.1 h2
          have hk : k1 = k2 := by
            by_contra hne
            have c1 : (k1, v1) ∈ (k2, v2) :: r2 := by
              apply value?_mem
              rw [← h k1, value?_cons_self]
            have c2 : (k2, v2) ∈ (k1, v1) :: r1 := by
              apply value?_mem
              rw [h k2, value?_cons_self]
            rcases List.mem_cons.1 c1 with e | e
            · exact hne (congrArg Prod.fst e)
            · rcases List.mem_cons.1 c2 with f | f
              · exact hne (congrArg Prod.fst f).symm
              · exact lt_asymm (b1 _ e) (a1 _ f)
          subst hk
          have hv : v1 = v2 := by
            have := h k1
            rw [value?_cons_self, value?_cons_self] at this
            exact Option.some.inj this
          subst hv
          have ht : r1 = r2 := by
            apply ih r2 a2 b2
            intro k
            by_cases e : k1 = k
            · subst e
              rw [value?_none_of_lt r1 k1 a1, value?_none_of_lt r2 k1 b1]
            · have := h k
              rw [value?_cons_ne _ _ _ _ e, value?_cons_ne _ _ _ _ e] at this
              exact this
          rw [ht]

theorem sample_document (fromHsv : Int → Int → Int → QColor) :
    createJsonData fromHsv sampleRequest.dataSeries sampleRequest.title
        sampleRequest.xAxisLabel sampleRequest.yAxisLabel
        (chartTypeToString sampleRequest.chartType) sampleRequest.interpolate
        sampleRequest.xMin sampleRequest.xMax sampleRequest.yMin sampleRequest.yMax =
      sampleDocument := by
  simp +decide [createJsonData, sampleRequest, sampleSeries, sampleDocument, QMap.insert,
    seriesArrayFrom, seriesToJson, chartTypeToString, QColor.qtBlue, lineStyleString,
    markerString, doubleArray, colorToString]

theorem encode_payload (b : Bridge) (py dir : String) (running started : Bool)
    (tmp : Option String) (opened : Bool) (fromHsv : Int → Int → Int → QColor)
    (toJson : QJsonValue → String) (r : ChartRequest) :
    (b.generateChartEncode py dir running started tmp opened fromHsv toJson r).2.map
        JobStart.payload =
      if tmp.isSome ∧ opened = true then some (toJson (r.document fromHsv)) else none := by
  unfold Bridge.generateChartEncode
  cases tmp with
  | none => simp
  | some d =>
      cases opened with
      | false => simp
      | true => simp [ChartRequest.document]

/-- C15 (deterministic encoding). The bytes that `generateChart` writes for a
request are the same in any two states of the bridge and with any answers of
the environment (which Python and script directory are found, whether the
worker runs or starts, which temporary directory is made), and the same again
when the request is encoded after an earlier call has changed the statics;
bytes are written exactly when the temporary directory is valid and the job
file opens. The document depends on the series map through its contents only:
two maps built by any two sequences of assignments that agree on every key give
the same document. The document of the end-to-end scenario is the one written
out in `sampleDocument`. -/
theorem encoding_deterministic (fromHsv : Int → Int → Int → QColor)
    (toJson : QJsonValue → String) (r : ChartRequest) :
    (∀ (b1 b2 : Bridge) (py1 dir1 py2 dir2 : String)
        (running1 started1 running2 started2 : Bool) (tmp1 tmp2 : Option String)
        (opened1 opened2 : Bool) (j1 j2 : JobStart),
      (b1.generateChartEncode py1 dir1 running1 started1 tmp1 opened1 fromHsv toJson r).2 =
          some j1 →
      (b2.generateChartEncode py2 dir2 running2 started2 tmp2 opened2 fromHsv toJson r).2 =
          some j2 →
      j1.payload = j2.payload) ∧
    (∀ (b : Bridge) (py1 dir1 py2 dir2 : String) (running1 started1 running2 started2 : Bool)
        (tmp1 tmp2 : Option String) (opened1 opened2 : Bool) (r0 : ChartRequest)
        (j1 j2 : JobStart),
      (b.generateChartEncode py1 dir1 running1 started1 tmp1 opened1 fromHsv toJson r).2 =
          some j1 →
      ((b.generateChartEncode py1 dir1 running1 started1 tmp1 opened1 fromHsv toJson
          r0).1.generateChartEncode py2 dir2 running2 started2 tmp2 opened2 fromHsv toJson
          r).2 = some j2 →
      j1.payload = j2.payload) ∧
    (∀ (b : Bridge) (py dir : String) (running started : Bool) (tmp : Option String)
        (opened : Bool),
      (b.generateChartEncode py dir running started tmp opened fromHsv toJson r).2.isSome =
        (tmp.isSome && opened)) ∧
    (∀ entries1 entries2 : List (String × DataSeries),
      (∀ key, (QMap.assign entries1).value? key = (QMap.assign entries2).value? key) →
      ChartRequest.document fromHsv { r with dataSeries := QMap.assign entries1 } =
        ChartRequest.document fromHsv { r with dataSeries := QMap.assign entries2 }) ∧
    sampleRequest.document fromHsv = sampleDocument := by
  have key : ∀ (b : Bridge) (py dir : String) (running started : Bool) (tmp : Option String)
      (opened : Bool) (j : JobStart),
      (b.generateChartEncode py dir running started tmp opened fromHsv toJson r).2 = some j →
      j.payload = toJson (r.document fromHsv) := by
    intro b py dir running started tmp opened j hj
    have h := encode_payload b py dir running started tmp opened fromHsv toJson r
    rw [hj] at h
    by_cases hc : tmp.isSome ∧ opened = true
    · rw [if_pos hc] at h
      exact Option.some.inj h
    · rw [if_neg hc] at h
      exact absurd h (by simp)
  refine ⟨?_, ?_, ?_, ?_, sample_document fromHsv⟩
  · intro b1 b2 py1 dir1 py2 dir2 running1 started1 running2 started2 tmp1 tmp2 opened1 opened2
      j1 j2 h1 h2
    rw [key _ _ _ _ _ _ _ _ h1, key _ _ _ _ _ _ _ _ h2]
  · intro b py1 dir1 py2 dir2 running1 started1 running2 started2 tmp1 tmp2 opened1 opened2 r0
      j1 j2 h1 h2
    rw [key _ _ _ _ _ _ _ _ h1, key _ _ _ _ _ _ _ _ h2]
  · intro b py dir running started tmp opened
    unfold Bridge.generateChartEncode
    cases tmp with
    | none => simp
    | some d =>
        cases opened with
        | false => simp
        | true => simp
  · intro entries1 entries2 h
    rw [ascending_ext _ _ (ascending_assign entries1) (ascending_assign entries2) h]

/-- Witness of C15: the scenario request encoded on a fresh bridge and on a bridge
whose worker has crashed twice, with different temporary directories. The job
files differ, the bytes do not. -/
theorem encoding_deterministic_witness :
    (Bridge.init.generateChartEncode "python3" "/app/python" false true (some "/tmp/qt-a") true
        (fun _ _ _ => QColor.qtBlue) titleAndCount sampleRequest).2.map JobStart.jsonFilePath =
      some "/tmp/qt-a/chart_data.json" ∧
    (crashedTwice.generateChartEncode "python" "/opt/app" true false (some "/tmp/qt-b") true
        (fun _ _ _ => QColor.qtBlue) titleAndCount sampleRequest).2.map JobStart.jsonFilePath =
      some "/tmp/qt-b/chart_data.json" ∧
    (Bridge.init.generateChartEncode "python3" "/app/python" false true (some "/tmp/qt-a") true
        (fun _ _ _ => QColor.qtBlue) titleAndCount sampleRequest).2.map JobStart.payload =
      (crashedTwice.generateChartEncode "python" "/opt/app" true false (some "/tmp/qt-b") true
        (fun _ _ _ => QColor.qtBlue) titleAndCount sampleRequest).2.map JobStart.payload :=
  ⟨by decide, by decide, by
    cases h1 : (Bridge.init.generateChartEncode "python3" "/app/python" false true
        (some "/tmp/qt-a") true (fun _ _ _ => QColor.qtBlue) titleAndCount sampleRequest).2 with
    | none => exact absurd h1 (by decide)
    | some j1 =>
        cases h2 : (crashedTwice.generateChartEncode "python" "/opt/app" true false
            (some "/tmp/qt-b") true (fun _ _ _ => QColor.qtBlue) titleAndCount
            sampleRequest).2 with
        | none => exact absurd h2 (by decide)
        | some j2 =>
            exact congrArg some
              ((encoding_deterministic (fun _ _ _ => QColor.qtBlue) titleAndCount
                sampleRequest).1 _ _ _ _ _ _ _ _ _ _ _ _ _ _ j1 j2 h1 h2)⟩

end SensorGraph

/-! # Properties of the number names -/

namespace NumberToText

theorem toList_append (s t : String) : (s ++ t).toList = s.toList ++ t.toList := by
  cases s; cases t; rfl

theorem append_empty (s : String) : s ++ "" = s := by
  apply String.ext
  show (s ++ "").toList = s.toList
  rw [toList_append]
  exact List.append_nil _

theorem append_assoc (s t u : String) : s ++ t ++ u = s ++ (t ++ u) := by
  apply String.ext
  show (s ++ t ++ u).toList = (s ++ (t ++ u)).toList
  simp only [toList_append, List.append_assoc]

theorem one_digit_error (d : Nat) (h : 10 ≤ d) : PrintOneDigit d = "Error" := by
  obtain ⟨k, rfl⟩ : ∃ k, d = k + 10 := ⟨d - 10, by omega⟩
  rfl

theorem one_digit_name : ∀ d, d < 10 → PrintOneDigit d = smallNames.getD d "" := by
  decide

set_option maxRecDepth 100000 in
theorem two_digit_name : ∀ n, n < 100 → PrintTwoDigitNumber n = nameBelow100 n := by
  decide

theorem three_digit_name (n : Nat) (h : n < 1000) :
    PrintThreeDigitNumber n = nameBelow1000 n := by
  unfold PrintThreeDigitNumber nameBelow1000
  by_cases h1 : n ≥ 100
  · have h2 : ¬ n < 100 := by omega
    rw [if_pos h1, if_neg h2, one_digit_name (n / 100) (by omega)]
    by_cases h3 : n % 100 = 0
    · rw [if_pos h3, if_neg (not_not.mpr h3), append_empty]
    · rw [if_neg h3, if_pos h3, two_digit_name (n % 100) (by omega)]
      simp only [append_assoc]
      rfl
  · have h2 : n < 100 := by omega
    rw [if_neg h1, if_pos h2, two_digit_name n h2]

theorem number_name (n : Nat) (h : n < 1000000) : PrintNumber n = englishName n ++ "\n" := by
  unfold PrintNumber englishName
  by_cases h0 : n = 0
  · subst h0
    rfl
  · rw [if_neg h0]
    by_cases h1 : n ≥ 1000
    · have h2 : ¬ n < 1000 := by omega
      rw [if_pos h1, if_neg h2, three_digit_name (n / 1000) (by omega)]
      by_cases h3 : n % 1000 = 0
      · rw [if_pos h3, if_neg (not_not.mpr h3), append_empty]
      · rw [if_neg h3, if_pos h3, three_digit_name (n % 1000) (by omega)]
        simp only [append_assoc]
        rfl
    · have h2 : n < 1000 := by omega
      rw [if_neg h1, if_pos h2, three_digit_name n h2]


theorem one_digit_chars :
    ∀ d, d < 10 → ∀ c ∈ ['E', 'a', 'd', '\n'], c ∉ (PrintOneDigit d).toList := by
  decide

set_option maxRecDepth 100000 in
theorem two_digit_chars :
    ∀ n, n < 100 → ∀ c ∈ ['E', 'a', 'd', '\n'], c ∉ (PrintTwoDigitNumber n).toList := by
  decide

theorem one_digit_injective :
    ∀ a, a < 10 → ∀ b, b < 10 → PrintOneDigit a = PrintOneDigit b → a = b := by
  decide

set_option maxRecDepth 1000000 in
theorem two_digit_injective :
    ∀ x, x < 100 → ∀ y, y < 100 → PrintTwoDigitNumber x = PrintTwoDigitNumber y → x = y := by
  decide

theorem split_unique (c : Char) (p1 p2 s1 s2 : List Char) (h1 : c ∉ p1) (h2 : c ∉ p2)
    (h : p1 ++ c :: s1 = p2 ++ c :: s2) : p1 = p2 ∧ s1 = s2 := by
  induction p1 generalizing p2 with
  | nil =>
      cases p2 with
      | nil => exact ⟨rfl, by simpa using h⟩
      | cons b q =>
          have hb : c = b := by simpa using (List.cons.inj h).1
          exact absurd (by rw [hb]; exact List.mem_cons_self _ _) h2
  | cons a p ih =>
      cases p2 with
      | nil =>
          have ha : a = c := by simpa using (List.cons.inj h).1
          exact absurd (by rw [ha]; exact List.mem_cons_self _ _) h1
      | cons b q =>
          obtain ⟨hab, ht⟩ := List.cons.inj h
          obtain ⟨e1, e2⟩ := ih q (fun hc => h1 (List.mem_cons_of_mem _ hc))
            (fun hc => h2 (List.mem_cons_of_mem _ hc)) ht
          exact ⟨by rw [hab, e1], e2⟩

theorem three_digit_ge (n : Nat) (h : 100 ≤ n) :
    (PrintThreeDigitNumber n).toList =
      ((PrintOneDigit (n / 100)).toList ++ " hun".toList) ++
        'd' :: ("red".toList ++ remainder (n % 100) (PrintTwoDigitNumber (n % 100))) := by
  unfold PrintThreeDigitNumber remainder
  rw [if_pos h]
  by_cases h3 : n % 100 ≠ 0
  · rw [if_pos h3, if_pos h3]
    simp only [toList_append]
    have e : " hundred".toList = " hun".toList ++ 'd' :: "red".toList := rfl
    have e2 : " ".toList = [' '] := rfl
    rw [e, e2]
    simp only [List.append_assoc, List.singleton_append, List.cons_append, List.nil_append]
  · rw [if_neg h3, if_neg h3]
    simp only [toList_append]
    have e : " hundred".toList = " hun".toList ++ 'd' :: "red".toList := rfl
    have e2 : "".toList = [] := rfl
    rw [e, e2]
    simp only [List.append_assoc, List.singleton_append, List.append_nil, List.cons_append,
      List.nil_append]

theorem three_digit_chars (c : Char) (hc : c ∈ ['E', 'a', 'd', '\n']) (hd : c ≠ 'd')
    (n : Nat) (h : n < 1000) : c ∉ (PrintThreeDigitNumber n).toList := by
  by_cases h1 : 100 ≤ n
  · rw [three_digit_ge n h1]
    have hh : c ∉ " hun".toList ∧ c ∉ "red".toList := by
      simp only [List.mem_cons, List.mem_singleton, List.not_mem_nil, or_false] at hc
      rcases hc with rfl | rfl | rfl | rfl <;> first | decide | exact absurd rfl hd
    have hr : c ∉ remainder (n % 100) (PrintTwoDigitNumber (n % 100)) := by
      unfold remainder
      split
      · intro hm
        rcases List.mem_cons.mp hm with e | e
        · subst e
          revert hc
          decide
        · exact two_digit_chars (n % 100) (by omega) c hc e
      · exact List.not_mem_nil _
    intro hm
    rcases List.mem_append.mp hm with e | e
    · rcases List.mem_append.mp e with e | e
      · exact one_digit_chars (n / 100) (by omega) c hc e
      · exact hh.1 e
    · rcases List.mem_cons.mp e with e | e
      · exact hd e
      · rcases List.mem_append.mp e with e | e
        · exact hh.2 e
        · exact hr e
  · unfold PrintThreeDigitNumber
    rw [if_neg (by omega)]
    exact two_digit_chars n (by omega) c hc

theorem remainder_injective (x y : Nat) (r1 r2 : String)
    (h : remainder x r1 = remainder y r2) : (x = 0 ∧ y = 0) ∨ (x ≠ 0 ∧ y ≠ 0 ∧ r1 = r2) := by
  unfold remainder at h
  by_cases hx : x ≠ 0 <;> by_cases hy : y ≠ 0
  · rw [if_pos hx, if_pos hy] at h
    exact Or.inr ⟨hx, hy, String.ext (List.cons.inj h).2⟩
  · rw [if_pos hx, if_neg hy] at h
    exact absurd h (List.cons_ne_nil _ _)
  · rw [if_neg hx, if_pos hy] at h
    exact absurd h.symm (List.cons_ne_nil _ _)
  · exact Or.inl ⟨not_not.mp hx, not_not.mp hy⟩

theorem three_digit_injective (n m : Nat) (hn : n < 1000) (hm : m < 1000)
    (h : PrintThreeDigitNumber n = PrintThreeDigitNumber m) : n = m := by
  have hl : (PrintThreeDigitNumber n).toList = (PrintThreeDigitNumber m).toList := by rw [h]
  have hd : ∀ k, k < 1000 →
      'd' ∉ (PrintOneDigit (k / 100)).toList ++ " hun".toList := by
    intro k hk hmem
    rcases List.mem_append.mp hmem with e | e
    · exact one_digit_chars (k / 100) (by omega) 'd' (by decide) e
    · revert e
      decide
  have hlow : ∀ k, k < 100 → 'd' ∉ (PrintThreeDigitNumber k).toList := by
    intro k hk
    unfold PrintThreeDigitNumber
    rw [if_neg (by omega)]
    exact two_digit_chars k hk 'd' (by decide)
  by_cases h1 : 100 ≤ n <;> by_cases h2 : 100 ≤ m
  · rw [three_digit_ge n h1, three_digit_ge m h2] at hl
    obtain ⟨e1, e2⟩ := split_unique 'd' _ _ _ _ (hd n hn) (hd m hm) hl
    have e3 : n / 100 = m / 100 :=
      one_digit_injective _ (by omega) _ (by omega) (String.ext (List.append_cancel_right e1))
    rcases remainder_injective _ _ _ _ (List.append_cancel_left e2) with ⟨a, b⟩ | ⟨_, _, c⟩
    · omega
    · have e4 := two_digit_injective _ (by omega) _ (by omega) c
      omega
  · rw [three_digit_ge n h1] at hl
    exact absurd (by rw [← hl]; simp) (hlow m (by omega))
  · rw [three_digit_ge m h2] at hl
    exact absurd (by rw [hl]; simp) (hlow n (by omega))
  · unfold PrintThreeDigitNumber at h
    rw [if_neg h1, if_neg h2] at h
    exact two_digit_injective n (by omega) m (by omega) h

theorem number_lt (n : Nat) (h : n < 1000) :
    PrintNumber n = PrintThreeDigitNumber n ++ "\n" := by
  unfold PrintNumber
  by_cases h0 : n = 0
  · subst h0
    rfl
  · rw [if_neg h0, if_neg (by omega)]

theorem number_ge (n : Nat) (h : 1000 ≤ n) :
    (PrintNumber n).toList =
      ((PrintThreeDigitNumber (n / 1000)).toList ++ " thous".toList) ++
        'a' :: ("nd".toList ++
          (remainder (n % 1000) (PrintThreeDigitNumber (n % 1000)) ++ ['\n'])) := by
  unfold PrintNumber remainder
  rw [if_neg (by omega), if_pos h]
  have e : " thousand".toList = " thous".toList ++ 'a' :: "nd".toList := rfl
  have e1 : "\n".toList = ['\n'] := rfl
  by_cases h3 : n % 1000 ≠ 0
  · rw [if_pos h3, if_pos h3]
    simp only [toList_append]
    have e2 : " ".toList = [' '] := rfl
    rw [e, e1, e2]
    simp only [List.append_assoc, List.singleton_append, List.cons_append, List.nil_append]
  · rw [if_neg h3, if_neg h3]
    simp only [toList_append]
    have e2 : "".toList = [] := rfl
    rw [e, e1, e2]
    simp only [List.append_assoc, List.singleton_append, List.append_nil, List.cons_append,
      List.nil_append]


theorem number_body (c : Char) (hc : c ∈ ['E', 'a', 'd', '\n']) (hd : c ≠ 'd') (ha : c ≠ 'a')
    (n : Nat) (h : n < 1000000) :
    ∃ body : List Char, (PrintNumber n).toList = body ++ ['\n'] ∧ c ∉ body := by
  by_cases h1 : 1000 ≤ n
  · refine ⟨((PrintThreeDigitNumber (n / 1000)).toList ++ " thous".toList) ++
        'a' :: ("nd".toList ++ remainder (n % 1000) (PrintThreeDigitNumber (n % 1000))), ?_, ?_⟩
    · rw [number_ge n h1]
      simp only [List.append_assoc, List.cons_append]
    · have hh : c ∉ " thous".toList ∧ c ∉ "nd".toList := by
        simp only [List.mem_cons, List.mem_singleton, List.not_mem_nil, or_false] at hc
        rcases hc with rfl | rfl | rfl | rfl <;>
          first | decide | exact absurd rfl hd
      have hr : c ∉ remainder (n % 1000) (PrintThreeDigitNumber (n % 1000)) := by
        unfold remainder
        split
        · intro hm
          rcases List.mem_cons.mp hm with e | e
          · subst e
            revert hc
            decide
          · exact three_digit_chars c hc hd (n % 1000) (by omega) e
        · exact List.not_mem_nil _
      intro hm
      rcases List.mem_append.mp hm with e | e
      · rcases List.mem_append.mp e with e | e
        · exact three_digit_chars c hc hd (n / 1000) (by omega) e
        · exact hh.1 e
      · rcases List.mem_cons.mp e with e | e
        · exact ha e
        · rcases List.mem_append.mp e with e | e
          · exact hh.2 e
          · exact hr e
  · refine ⟨(PrintThreeDigitNumber n).toList, ?_, three_digit_chars c hc hd n (by omega)⟩
    rw [number_lt n (by omega), toList_append]
    rfl

theorem number_no_error (n : Nat) (h : n < 1000000) :
    ¬ ("Error".toList <:+: (PrintNumber n).toList) := by
  intro hi
  obtain ⟨body, e, hb⟩ := number_body 'E' (by decide) (by decide) (by decide) n h
  have hm : 'E' ∈ (PrintNumber n).toList := hi.subset (by decide)
  rw [e] at hm
  rcases List.mem_append.mp hm with e1 | e1
  · exact hb e1
  · revert e1
    decide

/-- C24 (number to English). For every n from 0 to 9999 the text that
`PrintNumber n` writes is the English name of n followed by a newline; the name
holds no newline, so the text holds exactly one; and the text does not contain
`Error`. The text for 0 is `zero` and the text for 9999 is `nine thousand nine
hundred ninety-nine`, each followed by the newline. -/
theorem number_to_english (n : Nat) (h : n ≤ 9999) :
    PrintNumber n = englishName n ++ "\n" ∧
    '\n' ∉ (englishName n).toList ∧
    (PrintNumber n).toList.count '\n' = 1 ∧
    ¬ ("Error".toList <:+: (PrintNumber n).toList) ∧
    PrintNumber 0 = "zero\n" ∧
    PrintNumber 9999 = "nine thousand nine hundred ninety-nine\n" := by
  have hname := number_name n (by omega)
  obtain ⟨body, e, hb⟩ := number_body '\n' (by decide) (by decide) (by decide) n (by omega)
  have e2 : (englishName n).toList = body := by
    have e3 : (englishName n).toList ++ ['\n'] = body ++ ['\n'] := by
      rw [← e, hname, toList_append]
      rfl
    exact List.append_cancel_right e3
  refine ⟨hname, by rw [e2]; exact hb, ?_, number_no_error n (by omega), by decide, by decide⟩
  rw [e, List.count_append, List.count_eq_zero_of_not_mem hb]
  rfl

/-- Witness of C24 at 2024. -/
theorem number_to_english_witness :
    2024 ≤ 9999 ∧ PrintNumber 2024 = englishName 2024 ++ "\n" ∧
    englishName 2024 = "two thousand twenty-four" :=
  ⟨by decide, (number_to_english 2024 (by decide)).1, by decide⟩

/-- C30 (supported range of `PrintNumber`). For every non-negative n the text that
`PrintNumber n` writes contains `Error` exactly when n is at least 1000000; so
every n from 10000 to 999999 is written without `Error`. The largest number
written without it is 999999, and 1000000 is written as `Error hundred
thousand`. -/
theorem supported_range (n : Nat) :
    ("Error".toList <:+: (PrintNumber n).toList ↔ 1000000 ≤ n) ∧
    PrintNumber 999999 = "nine hundred ninety-nine thousand nine hundred ninety-nine\n" ∧
    PrintNumber 1000000 = "Error hundred thousand\n" := by
  refine ⟨⟨?_, ?_⟩, by decide, by decide⟩
  · intro hi
    by_contra hlt
    exact number_no_error n (by omega) hi
  · intro hge
    have h1 : 100 ≤ n / 1000 := by omega
    have h2 : 10 ≤ n / 1000 / 100 := by omega
    have e : PrintNumber n =
        "Error" ++ (" hundred" ++
          (if n / 1000 % 100 ≠ 0 then " " ++ PrintTwoDigitNumber (n / 1000 % 100) else "") ++
          " thousand" ++
          (if n % 1000 ≠ 0 then " " ++ PrintThreeDigitNumber (n % 1000) else "") ++ "\n") := by
      unfold PrintNumber
      rw [if_neg (by omega), if_pos (by omega)]
      unfold PrintThreeDigitNumber
      rw [if_pos h1, one_digit_error _ h2]
      simp only [append_assoc]
    rw [e, toList_append]
    exact (List.prefix_append _ _).isInfix

/-- C29 (number names are unambiguous). Two distinct numbers from 0 to 999999 get
distinct texts from `PrintNumber`. -/
theorem names_unambiguous (n m : Nat) (hn : n ≤ 999999) (hm : m ≤ 999999) (hne : n ≠ m) :
    PrintNumber n ≠ PrintNumber m := by
  intro h
  apply hne
  have hl : (PrintNumber n).toList = (PrintNumber m).toList := by rw [h]
  have ha : ∀ k, k < 1000000 →
      'a' ∉ (PrintThreeDigitNumber (k / 1000)).toList ++ " thous".toList := by
    intro k hk hmem
    rcases List.mem_append.mp hmem with e | e
    · exact three_digit_chars 'a' (by decide) (by decide) (k / 1000) (by omega) e
    · revert e
      decide
  have hlow : ∀ k, k < 1000 → 'a' ∉ (PrintNumber k).toList := by
    intro k hk
    rw [number_lt k hk, toList_append]
    intro hmem
    rcases List.mem_append.mp hmem with e | e
    · exact three_digit_chars 'a' (by decide) (by decide) k hk e
    · revert e
      decide
  by_cases h1 : 1000 ≤ n <;> by_cases h2 : 1000 ≤ m
  · rw [number_ge n h1, number_ge m h2] at hl
    obtain ⟨e1, e2⟩ := split_unique 'a' _ _ _ _ (ha n (by omega)) (ha m (by omega)) hl
    have e3 : n / 1000 = m / 1000 :=
      three_digit_injective _ _ (by omega) (by omega)
        (String.ext (List.append_cancel_right e1))
    rcases remainder_injective _ _ _ _
      (List.append_cancel_right (List.append_cancel_left e2)) with ⟨a, b⟩ | ⟨_, _, c⟩
    · omega
    · have e4 := three_digit_injective _ _ (by omega) (by omega) c
      omega
  · rw [number_ge n h1] at hl
    exact absurd (by rw [← hl]; simp) (hlow m (by omega))
  · rw [number_ge m h2] at hl
    exact absurd (by rw [hl]; simp) (hlow n (by omega))
  · rw [number_lt n (by omega), number_lt m (by omega)] at hl
    rw [toList_append, toList_append] at hl
    exact three_digit_injective n m (by omega) (by omega)
      (String.ext (List.append_cancel_right hl))

/-- Witness of C29: fourteen and forty. -/
theorem names_unambiguous_witness :
    14 ≤ 999999 ∧ 40 ≤ 999999 ∧ PrintNumber 14 ≠ PrintNumber 40 :=
  ⟨by decide, by decide, names_unambiguous 14 40 (by decide) (by decide) (by decide)⟩

end NumberToText
